import Mathlib

/-!
# Collision detection and response: a shallow embedding

The C++ sources `vector.h`, `matrix.h`, `plane.h`, `sphere.h`, `aabb.h`, `geoMath.cpp`,
`physics.cpp` and `collisions.cpp` are embedded over an arbitrary linearly ordered
field `K` standing for `float` in exact arithmetic.

* The C library `sqrt` is a parameter `sqrt : K → K` of every function that calls
  it; the theorems instantiate it with `Real.sqrt` over `ℝ`.
* A floating-point division is the checked division `fdiv`: dividing by zero leaves
  exact arithmetic and is reported as `Fault.divByZero`.
* A failing `assert` is reported as `Fault.assertion`.
* The object arrays and the array of collision records are lists; reading or writing
  an element that is not there is reported as `Fault.outOfBounds`.
-/

/-- The two ways in which an embedded function can leave exact real arithmetic. -/
inductive Fault where
  | assertion
  | divByZero
  | outOfBounds
  deriving DecidableEq, Repr

section Arithmetic

variable {K : Type} [LinearOrderedField K]

/-- Checked division standing for the `/` of two `float` values. -/
def fdiv (a b : K) : Except Fault K :=
  if b = 0 then Except.error Fault.divByZero else Except.ok (a / b)

end Arithmetic

namespace vec

/-- The class `TVector` of `vector.h`: three coordinates. -/
@[ext]
structure TVector (K : Type) where
  x : K
  y : K
  z : K
  deriving DecidableEq, Repr

variable {K : Type} [LinearOrderedField K]

/-- Negation operator `TVector operator - () const`. -/
instance : Neg (TVector K) := ⟨fun v => ⟨-v.x, -v.y, -v.z⟩⟩

/-- Addition operator `TVector operator + (const TVector &rhs) const`. -/
instance : Add (TVector K) := ⟨fun v rhs => ⟨v.x + rhs.x, v.y + rhs.y, v.z + rhs.z⟩⟩

/-- Subtraction operator `TVector operator - (const TVector &rhs) const`. -/
instance : Sub (TVector K) := ⟨fun v rhs => ⟨v.x - rhs.x, v.y - rhs.y, v.z - rhs.z⟩⟩

/-- Multiplication by a scalar on the right, `TVector operator * (float rhs) const`. -/
def TVector.scale (v : TVector K) (rhs : K) : TVector K :=
  ⟨v.x * rhs, v.y * rhs, v.z * rhs⟩

/-- Dot product, `float operator * (const TVector &rhs) const`. -/
def TVector.dot (v rhs : TVector K) : K :=
  v.x * rhs.x + v.y * rhs.y + v.z * rhs.z

/-- Multiplication with the scalar on the left,
`TVector operator * (float lhs, const TVector& rhs)`. -/
def lscale (lhs : K) (rhs : TVector K) : TVector K :=
  ⟨lhs * rhs.x, lhs * rhs.y, lhs * rhs.z⟩

/-- In-place normalisation `TVector::Normalize()`; the new value of the vector is
returned. A vector of squared magnitude zero is left as it is. -/
def TVector.Normalize (sqrt : K → K) (v : TVector K) : Except Fault (TVector K) :=
  let mag_sq := v.x * v.x + v.y * v.y + v.z * v.z
  if mag_sq > 0 then do
    let flipped ← fdiv 1 (sqrt mag_sq)
    pure ⟨v.x * flipped, v.y * flipped, v.z * flipped⟩
  else pure v

/-- Function `CrossProduct` of `vector.h`. -/
def CrossProduct (vec1 vec2 : TVector K) : TVector K :=
  ⟨vec1.y * vec2.z - vec1.z * vec2.y,
   vec1.z * vec2.x - vec1.x * vec2.z,
   vec1.x * vec2.y - vec1.y * vec2.x⟩

/-- Function `Magnitude` of `vector.h`. -/
def Magnitude (sqrt : K → K) (vec : TVector K) : K :=
  sqrt (vec.x * vec.x + vec.y * vec.y + vec.z * vec.z)

/-- Function `Normalized` of `vector.h`: the normalised value, the zero vector for
a vector of squared magnitude zero. -/
def Normalized (sqrt : K → K) (vec : TVector K) : Except Fault (TVector K) :=
  let mag_sq := vec.x * vec.x + vec.y * vec.y + vec.z * vec.z
  if mag_sq > 0 then do
    let flipped ← fdiv 1 (sqrt mag_sq)
    pure ⟨vec.x * flipped, vec.y * flipped, vec.z * flipped⟩
  else pure ⟨0, 0, 0⟩

end vec

namespace geomath

open vec

variable {K : Type} [LinearOrderedField K]

/-- Function `geomath::IntersectBallPlane` of `geoMath.cpp`. -/
def IntersectBallPlane (sqrt : K → K) (ball_center : TVector K) (ball_radius : K)
    (ball_vel plane_point plane_norm : TVector K) : Except Fault K :=
  if ¬ (|plane_norm.dot plane_norm - 1| < 1 / 100) then Except.error Fault.assertion
  else do
    let d_ := plane_point.dot plane_norm
    let d ← Normalized sqrt ball_vel
    let denominator := d.dot plane_norm
    if denominator ≥ 0 then pure (-1)
    else do
      let t ← fdiv (d_ - ball_center.dot plane_norm + ball_radius) denominator
      fdiv t (Magnitude sqrt ball_vel)

/-- Function `geomath::IntersectBallBall` of `geoMath.cpp`. -/
def IntersectBallBall (sqrt : K → K) (ball_center1 : TVector K) (ball_radius1 : K)
    (ball_vel1 : TVector K) (ball_center2 : TVector K) (ball_radius2 : K)
    (ball_vel2 : TVector K) : Except Fault K :=
  let r := ball_radius1 + ball_radius2
  let e : TVector K := ⟨ball_center1.x - ball_center2.x,
                        ball_center1.y - ball_center2.y,
                        ball_center1.z - ball_center2.z⟩
  let d := ball_vel2 - ball_vel1
  do
    let dn ← Normalized sqrt d
    let dm := Magnitude sqrt d
    if dm > r then pure (-1)
    else
      let eq1 := (e.dot dn) * (e.dot dn) + r * r - (e.dot e)
      if eq1 < 0 then pure (-1)
      else
        let t := (e.dot dn) - sqrt eq1
        fdiv t dm

/-- One axis block of `geomath::IntersectBoxBox`; the source writes this block three
times, for x, y and z. The arguments are the coordinates of the four corners and of
the relative displacement `d` on that axis and the current interval. The result
`none` is the early `return -1.0f`, the result `some (t_enter, t_exit)` the interval
with which the function goes on. -/
def IntersectBoxBox.axisTest (box_min1 box_max1 box_min2 box_max2 d t_enter t_exit : K) :
    Except Fault (Option (K × K)) :=
  if d = 0 then
    if box_min1 ≥ box_max2 ∨ box_max1 ≤ box_min2 then pure none
    else pure (some (t_enter, t_exit))
  else do
    let d_flipped ← fdiv 1 d
    -- time of start and end of intersection
    let a_enter := (box_min1 - box_max2) * d_flipped
    let a_exit := (box_max1 - box_min2) * d_flipped
    -- SWAP when enter is greater than exit
    let s_enter := if a_enter > a_exit then a_exit else a_enter
    let s_exit := if a_enter > a_exit then a_enter else a_exit
    -- shorten the time interval
    let t_enter := if s_enter > t_enter then s_enter else t_enter
    let t_exit := if s_exit < t_exit then s_exit else t_exit
    if t_enter > t_exit then pure none else pure (some (t_enter, t_exit))

/-- Function `geomath::IntersectBoxBox` of `geoMath.cpp`: the swept test of two
axis-aligned boxes, the interval `[t_enter, t_exit]` starting as `[0, 1]`. -/
def IntersectBoxBox (box_min1 box_max1 box_vel1 box_min2 box_max2 box_vel2 : TVector K) :
    Except Fault K :=
  let d := box_vel2 - box_vel1
  do
    -- x-axis test
    match ← IntersectBoxBox.axisTest box_min1.x box_max1.x box_min2.x box_max2.x d.x 0 1 with
    | none => pure (-1)
    | some (t_enter, t_exit) =>
    -- y-axis test
    match ← IntersectBoxBox.axisTest box_min1.y box_max1.y box_min2.y box_max2.y d.y
        t_enter t_exit with
    | none => pure (-1)
    | some (t_enter, t_exit) =>
    -- z-axis test
    match ← IntersectBoxBox.axisTest box_min1.z box_max1.z box_min2.z box_max2.z d.z
        t_enter t_exit with
    | none => pure (-1)
    | some (t_enter, _) =>
    -- time at which intersection occurs
    if t_enter > 0 then pure t_enter else pure (-1)

end geomath

namespace physics

open vec

variable {K : Type} [LinearOrderedField K]

/-- Function `physics::MObjSObjEffects` of `physics.cpp`; the new value of `init_vel`
is returned. -/
def MObjSObjEffects (init_vel plane_normal : TVector K) (e : K) :
    Except Fault (TVector K) :=
  if ¬ (e ≥ 0 ∧ e ≤ 1) then Except.error Fault.assertion
  else
    let r := lscale ((1 + e) * ((-init_vel).dot plane_normal)) plane_normal + init_vel
    pure r

/-- Function `physics::MObjMObjEffects` of `physics.cpp`; the new values of
`init_vel1` and `init_vel2` are returned. -/
def MObjMObjEffects (sqrt : K → K) (init_vel1 center1 init_vel2 center2 : TVector K) :
    Except Fault (TVector K × TVector K) := do
  -- first object: axis of collision
  let n_axis ← (center2 - center1).Normalize sqrt
  let a := n_axis.dot init_vel1
  let resp1_n := n_axis.scale a
  let resp1_t := init_vel1 - resp1_n
  -- second object: axis of collision
  let n_axis ← (center1 - center2).Normalize sqrt
  let b := n_axis.dot init_vel2
  let resp2_n := n_axis.scale b
  let resp2_t := init_vel2 - resp2_n
  -- new velocities
  let new_v1_n := (resp1_n + resp2_n - (resp1_n - resp2_n)).scale (1 / 2)
  let new_v2_n := (resp1_n + resp2_n - (resp2_n - resp1_n)).scale (1 / 2)
  let new_v1_t := resp1_t
  let new_v2_t := resp2_t
  pure (new_v1_n + new_v1_t, new_v2_n + new_v2_t)

end physics

/-! ## Notions used to state the properties of the box tests -/

namespace geomath

open vec

variable {K : Type} [LinearOrderedField K]

/-- A box is well formed when its minimum corner is below its maximum corner on
every axis. -/
def WellFormedBox (box_min box_max : TVector K) : Prop :=
  box_min.x ≤ box_max.x ∧ box_min.y ≤ box_max.y ∧ box_min.z ≤ box_max.z

instance (box_min box_max : TVector K) : Decidable (WellFormedBox box_min box_max) :=
  inferInstanceAs (Decidable (_ ∧ _ ∧ _))

/-- The closed intervals `[lo1, hi1]` and `[lo2, hi2]` have a common point. -/
def IntervalsTouch (lo1 hi1 lo2 hi2 : K) : Prop :=
  lo1 ≤ hi2 ∧ lo2 ≤ hi1

instance (lo1 hi1 lo2 hi2 : K) : Decidable (IntervalsTouch lo1 hi1 lo2 hi2) :=
  inferInstanceAs (Decidable (_ ∧ _))

/-- The intervals `[lo1, hi1]` and `[lo2, hi2]` are strictly separated. -/
def IntervalsApart (lo1 hi1 lo2 hi2 : K) : Prop :=
  hi2 < lo1 ∨ hi1 < lo2

instance (lo1 hi1 lo2 hi2 : K) : Decidable (IntervalsApart lo1 hi1 lo2 hi2) :=
  inferInstanceAs (Decidable (_ ∨ _))

/-- The open intervals `(lo1, hi1)` and `(lo2, hi2)` have a common point (for
intervals that are not empty). -/
def InteriorsMeet (lo1 hi1 lo2 hi2 : K) : Prop :=
  lo1 < hi2 ∧ lo2 < hi1

instance (lo1 hi1 lo2 hi2 : K) : Decidable (InteriorsMeet lo1 hi1 lo2 hi2) :=
  inferInstanceAs (Decidable (_ ∧ _))

/-- The two boxes, moved by the fraction `s` of their displacements, overlap as
closed intervals on all three axes. -/
def BoxesTouchAt (box_min1 box_max1 box_vel1 box_min2 box_max2 box_vel2 : TVector K)
    (s : K) : Prop :=
  IntervalsTouch (box_min1 + box_vel1.scale s).x (box_max1 + box_vel1.scale s).x
      (box_min2 + box_vel2.scale s).x (box_max2 + box_vel2.scale s).x
    ∧ IntervalsTouch (box_min1 + box_vel1.scale s).y (box_max1 + box_vel1.scale s).y
      (box_min2 + box_vel2.scale s).y (box_max2 + box_vel2.scale s).y
    ∧ IntervalsTouch (box_min1 + box_vel1.scale s).z (box_max1 + box_vel1.scale s).z
      (box_min2 + box_vel2.scale s).z (box_max2 + box_vel2.scale s).z

instance (box_min1 box_max1 box_vel1 box_min2 box_max2 box_vel2 : TVector K) (s : K) :
    Decidable (BoxesTouchAt box_min1 box_max1 box_vel1 box_min2 box_max2 box_vel2 s) :=
  inferInstanceAs (Decidable (_ ∧ _ ∧ _))

/-- The two boxes, moved by the fraction `s` of their displacements, are strictly
separated on at least one axis. -/
def BoxesApartAt (box_min1 box_max1 box_vel1 box_min2 box_max2 box_vel2 : TVector K)
    (s : K) : Prop :=
  IntervalsApart (box_min1 + box_vel1.scale s).x (box_max1 + box_vel1.scale s).x
      (box_min2 + box_vel2.scale s).x (box_max2 + box_vel2.scale s).x
    ∨ IntervalsApart (box_min1 + box_vel1.scale s).y (box_max1 + box_vel1.scale s).y
      (box_min2 + box_vel2.scale s).y (box_max2 + box_vel2.scale s).y
    ∨ IntervalsApart (box_min1 + box_vel1.scale s).z (box_max1 + box_vel1.scale s).z
      (box_min2 + box_vel2.scale s).z (box_max2 + box_vel2.scale s).z

instance (box_min1 box_max1 box_vel1 box_min2 box_max2 box_vel2 : TVector K) (s : K) :
    Decidable (BoxesApartAt box_min1 box_max1 box_vel1 box_min2 box_max2 box_vel2 s) :=
  inferInstanceAs (Decidable (_ ∨ _ ∨ _))

/-- The interiors of the two boxes overlap on all three axes. -/
def BoxInteriorsOverlap (box_min1 box_max1 box_min2 box_max2 : TVector K) : Prop :=
  InteriorsMeet box_min1.x box_max1.x box_min2.x box_max2.x
    ∧ InteriorsMeet box_min1.y box_max1.y box_min2.y box_max2.y
    ∧ InteriorsMeet box_min1.z box_max1.z box_min2.z box_max2.z

instance (box_min1 box_max1 box_min2 box_max2 : TVector K) :
    Decidable (BoxInteriorsOverlap box_min1 box_max1 box_min2 box_max2) :=
  inferInstanceAs (Decidable (_ ∧ _ ∧ _))

end geomath

/-! ## Notions used to state the properties of the collision responses -/

namespace physics

open vec

variable {K : Type} [LinearOrderedField K]

/-- The unit vector along the line of centres, from `center1` to `center2`:
`(center2 - center1) / |center2 - center1|`. -/
def lineOfCentres (sqrt : K → K) (center1 center2 : TVector K) : TVector K :=
  (center2 - center1).scale (1 / Magnitude sqrt (center2 - center1))

/-- The exchange of the components along the axis `n`: the pair
`(v1 - (n·v1)n + (n·v2)n, v2 - (n·v2)n + (n·v1)n)`. -/
def exchangeAlong (n v1 v2 : TVector K) : TVector K × TVector K :=
  (v1 - n.scale (n.dot v1) + n.scale (n.dot v2), v2 - n.scale (n.dot v2) + n.scale (n.dot v1))

end physics

namespace physics

open vec

variable {K : Type} [LinearOrderedField K]

/-- Function `physics::MObjMObjEffects2` of `physics.cpp`, the response that also
takes the tangential parts into consideration; the new values of `init_vel1` and
`init_vel2` are returned. -/
def MObjMObjEffects2 (sqrt : K → K) (init_vel1 center1 init_vel2 center2 : TVector K) :
    Except Fault (TVector K × TVector K) := do
  -- first object: axis of collision
  let n_axis ← (center2 - center1).Normalize sqrt
  let a := n_axis.dot init_vel1
  let resp1_n := n_axis.scale a
  let resp1_t := init_vel1 - resp1_n
  -- second object: axis of collision
  let n_axis ← (center1 - center2).Normalize sqrt
  let b := n_axis.dot init_vel2
  let resp2_n := n_axis.scale b
  let resp2_t := init_vel2 - resp2_n
  -- new velocities
  let new_v1_n := (resp1_n + resp2_n - (resp1_n - resp2_n)).scale (1 / 2)
  let new_v2_n := (resp1_n + resp2_n - (resp2_n - resp1_n)).scale (1 / 2)
  let new_v1_t := (resp1_t + resp2_t - (resp1_t - resp2_t)).scale (1 / 2)
  let new_v2_t := (resp1_t + resp2_t - (resp2_t - resp1_t)).scale (1 / 2)
  pure (new_v1_n + new_v1_t, new_v2_n + new_v2_t)

/-- The exchange along the axis `n` of both the normal and the tangential parts, in
the words of the specification: each object leaves with the normal part and with
the tangential part of the other. -/
def exchangeNormalAndTangential (n v1 v2 : TVector K) : TVector K × TVector K :=
  (n.scale (n.dot v2) + (v2 - n.scale (n.dot v2)), n.scale (n.dot v1) + (v1 - n.scale (n.dot v1)))

end physics

/-- The class `TAABB` of `aabb.h`: an axially aligned bounding box. -/
structure TAABB (K : Type) where
  minv : vec.TVector K
  maxv : vec.TVector K
  deriving DecidableEq, Repr

/-- The class `TBox` of `aabb.h`, derived from `TAABB`; of its attributes the
velocity is kept (acceleration, colour and texture play no part in the collisions). -/
structure TBox (K : Type) extends TAABB K where
  vel : vec.TVector K
  deriving DecidableEq, Repr

section Corners

open vec

variable {K : Type} [LinearOrderedField K]

/-- Method `TAABB::GetVertex`: one of the 8 corner points, bit 0 of `i` selecting
min.x or max.x, bit 1 min.y or max.y, bit 2 min.z or max.z. -/
def TAABB.GetVertex (b : TAABB K) (i : Int) : Except Fault (TVector K) :=
  if ¬ (i ≥ 0) then Except.error Fault.assertion
  else if ¬ (i ≤ 7) then Except.error Fault.assertion
  else pure ⟨if Int.land i 1 ≠ 0 then b.maxv.x else b.minv.x,
             if Int.land i 2 ≠ 0 then b.maxv.y else b.minv.y,
             if Int.land i 4 ≠ 0 then b.maxv.z else b.minv.z⟩

end Corners

namespace geomath

open vec

variable {K : Type} [LinearOrderedField K]

/-- The value `minD` of `geomath::IntersectBoxPlane`: per component the corner
coordinate chosen by the sign of the normal's component. -/
def IntersectBoxPlane.minD (wall_normal box_min box_max : TVector K) : K :=
  (if wall_normal.x > 0 then wall_normal.x * box_min.x else wall_normal.x * box_max.x)
    + (if wall_normal.y > 0 then wall_normal.y * box_min.y else wall_normal.y * box_max.y)
    + (if wall_normal.z > 0 then wall_normal.z * box_min.z else wall_normal.z * box_max.z)

/-- The value `maxD` of `geomath::IntersectBoxPlane`. -/
def IntersectBoxPlane.maxD (wall_normal box_min box_max : TVector K) : K :=
  (if wall_normal.x > 0 then wall_normal.x * box_max.x else wall_normal.x * box_min.x)
    + (if wall_normal.y > 0 then wall_normal.y * box_max.y else wall_normal.y * box_min.y)
    + (if wall_normal.z > 0 then wall_normal.z * box_max.z else wall_normal.z * box_min.z)

/-- Function `geomath::IntersectBoxPlane` of `geoMath.cpp`. -/
def IntersectBoxPlane (sqrt : K → K) (box_min box_max box_vel wall_point wall_normal : TVector K) :
    Except Fault K :=
  if ¬ (|wall_normal.dot wall_normal - 1| < 1 / 100) then Except.error Fault.assertion
  else do
    -- normalized vector of the box velocity
    let dn ← Normalized sqrt box_vel
    -- distance from plane to origin
    let plane_distance := wall_normal.dot wall_point
    -- glancing angle
    let theta := wall_normal.dot dn
    if theta ≥ 0 then pure (-1)
    else
      let minD := IntersectBoxPlane.minD wall_normal box_min box_max
      let maxD := IntersectBoxPlane.maxD wall_normal box_min box_max
      if maxD ≤ plane_distance then pure (-1)
      else do
        let t ← fdiv (plane_distance - minD) theta
        if t < 0 then pure 0
        else fdiv t (Magnitude sqrt box_vel)

end geomath

namespace matrix

open vec

/-- The class `TMatrix` of `matrix.h`: the 16 entries `m[0]` to `m[15]` of a 4x4
transformation matrix. -/
structure TMatrix (K : Type) where
  m0 : K
  m1 : K
  m2 : K
  m3 : K
  m4 : K
  m5 : K
  m6 : K
  m7 : K
  m8 : K
  m9 : K
  m10 : K
  m11 : K
  m12 : K
  m13 : K
  m14 : K
  m15 : K
  deriving DecidableEq, Repr

variable {K : Type} [LinearOrderedField K]

/-- Method `TMatrix::LoadIdentity`. -/
def TMatrix.LoadIdentity : TMatrix K :=
  ⟨1, 0, 0, 0,
   0, 1, 0, 0,
   0, 0, 1, 0,
   0, 0, 0, 1⟩

/-- Method `TMatrix::Translate`: the translation is stored in `m[12]`, `m[13]`, `m[14]`. -/
def TMatrix.Translate (mat : TMatrix K) (trans : TVector K) : TMatrix K :=
  { mat with m12 := trans.x, m13 := trans.y, m14 := trans.z }

/-- Method `TMatrix::Rotate(int axis, float theta)`, a rotation about a cardinal axis;
the C library `sin` and `cos` are parameters. A bad axis selection does nothing. -/
def TMatrix.Rotate (sin cos : K → K) (mat : TMatrix K) (axis : Int) (theta : K) : TMatrix K :=
  let s := sin theta
  let c := cos theta
  if axis = 1 then
    ⟨1, 0, 0, 0,
     0, c, s, 0,
     0, -s, c, 0,
     0, 0, 0, 1⟩
  else if axis = 2 then
    ⟨c, 0, -s, 0,
     0, 1, 0, 0,
     s, 0, c, 0,
     0, 0, 0, 1⟩
  else if axis = 3 then
    ⟨c, s, 0, 0,
     -s, c, 0, 0,
     0, 0, 1, 0,
     0, 0, 0, 1⟩
  else mat

/-- Vector times matrix, `TVector operator * (const TVector& lhs, const TMatrix& rhs)`,
the vector taken as a row `(x, y, z, 1)`. -/
def mulVec (lhs : TVector K) (rhs : TMatrix K) : TVector K :=
  ⟨lhs.x * rhs.m0 + lhs.y * rhs.m4 + lhs.z * rhs.m8 + 1 * rhs.m12,
   lhs.x * rhs.m1 + lhs.y * rhs.m5 + lhs.z * rhs.m9 + 1 * rhs.m13,
   lhs.x * rhs.m2 + lhs.y * rhs.m6 + lhs.z * rhs.m10 + 1 * rhs.m14⟩

end matrix

/-- The class `TPlane` of `plane.h`. -/
structure TPlane (K : Type) where
  normal : vec.TVector K
  point1 : vec.TVector K
  deriving DecidableEq, Repr

/-- The class `TWall` of `plane.h`, derived from `TPlane` (texture and colour play no
part in the collisions). -/
structure TWall (K : Type) extends TPlane K where
  point2 : vec.TVector K
  trans : matrix.TMatrix K
  deriving DecidableEq, Repr

/-- The class `TSphere` of `sphere.h`. -/
structure TSphere (K : Type) where
  center : vec.TVector K
  radius : K
  deriving DecidableEq, Repr

/-- The class `TBall` of `sphere.h`, derived from `TSphere`; of its attributes the
velocity and the axis of rotation are kept, the ones the collision code reads and
writes. -/
structure TBall (K : Type) extends TSphere K where
  vel : vec.TVector K
  axis : vec.TVector K
  deriving DecidableEq, Repr

section Walls

open vec matrix

variable {K : Type} [LinearOrderedField K]

/-- The initialization constructor of `TWall`: the rotation (identity for `axis = 0`)
is stored in the transformation, the normal `(0,0,1)` is rotated by it, then the
translation is stored. The argument `indeterminate` is the content of the matrix
before the constructor writes to it. -/
def TWall.init (sin cos : K → K) (indeterminate : TMatrix K) (p1 p2 t : TVector K) (theta : K)
    (axis : Int) : TWall K :=
  let trans := if axis = 0 then TMatrix.LoadIdentity else indeterminate.Rotate sin cos axis theta
  let normal := mulVec ⟨0, 0, 1⟩ trans
  { normal := normal, point1 := p1, point2 := p2, trans := trans.Translate t }

/-- Method `TWall::GetVertex`: one of the 4 corners of the wall in local coordinates. -/
def TWall.GetVertex (w : TWall K) (i : Int) : Except Fault (TVector K) :=
  if ¬ (i ≥ 0) then Except.error Fault.assertion
  else if ¬ (i ≤ 3) then Except.error Fault.assertion
  else pure ⟨if Int.land i 1 ≠ 0 then w.point2.x else w.point1.x,
             if Int.land i 2 ≠ 0 then w.point2.y else w.point1.y,
             0⟩

end Walls

namespace geomath

open vec matrix

variable {K : Type} [LinearOrderedField K]

/-- The test made for one edge in `IsBallOnWall`, `IsBoxOnWall` and `IsPointInTriangle`:
with `E = c_j - c_i`, `E_normal = CrossProduct(normal, E)` and `D = point - c_i`, the
value `D * E_normal`; the point is outside when it is negative. -/
def edgeSide (normal point c_i c_j : TVector K) : K :=
  let E := c_j - c_i
  let E_normal := CrossProduct normal E
  let D := point - c_i
  D.dot E_normal

/-- Function `geomath::IsBallOnWall`: the centre of the ball, projected onto the plane
of the wall, lies within the four corners of the wall. -/
def IsBallOnWall (ball : TBall K) (wall : TWall K) : Except Fault Bool := do
  -- transform from local to world coordinates
  let coords0 := mulVec (← wall.GetVertex 0) wall.trans
  let coords1 := mulVec (← wall.GetVertex 1) wall.trans
  let coords2 := mulVec (← wall.GetVertex 3) wall.trans
  let coords3 := mulVec (← wall.GetVertex 2) wall.trans
  -- project the center of the ball onto the wall plane
  let c := ball.center
  let point := c + lscale ((lscale (-1) wall.normal).dot (c - coords0)) wall.normal
  -- the loop over (i, j) = (3, 0), (0, 1), (1, 2), (2, 3)
  if edgeSide wall.normal point coords3 coords0 < 0 then pure false
  else if edgeSide wall.normal point coords0 coords1 < 0 then pure false
  else if edgeSide wall.normal point coords1 coords2 < 0 then pure false
  else if edgeSide wall.normal point coords2 coords3 < 0 then pure false
  else pure true

/-- The test of one projected corner in `geomath::IsBoxOnWall`: the flag stays true
when no edge of the wall has the point outside. -/
def IsBoxOnWall.hitwall (normal point coords0 coords1 coords2 coords3 : TVector K) : Bool :=
  !(decide (edgeSide normal point coords3 coords0 < 0)
    || decide (edgeSide normal point coords0 coords1 < 0)
    || decide (edgeSide normal point coords1 coords2 < 0)
    || decide (edgeSide normal point coords2 coords3 < 0))

/-- Function `geomath::IsBoxOnWall`: the min or the max corner of the box, projected
onto the plane of the wall, lies within the four corners of the wall. -/
def IsBoxOnWall (box : TBox K) (wall : TWall K) : Except Fault Bool := do
  let coords0 := mulVec (← wall.GetVertex 0) wall.trans
  let coords1 := mulVec (← wall.GetVertex 1) wall.trans
  let coords2 := mulVec (← wall.GetVertex 3) wall.trans
  let coords3 := mulVec (← wall.GetVertex 2) wall.trans
  -- project min vertex onto the wall
  let c := box.minv
  let point := c + lscale ((lscale (-1) wall.normal).dot (c - coords0)) wall.normal
  let p1_hitwall := IsBoxOnWall.hitwall wall.normal point coords0 coords1 coords2 coords3
  -- project max vertex onto the wall
  let c := box.maxv
  let point := c + lscale ((lscale (-1) wall.normal).dot (c - coords0)) wall.normal
  let p2_hitwall := IsBoxOnWall.hitwall wall.normal point coords0 coords1 coords2 coords3
  pure (p1_hitwall || p2_hitwall)

/-- Function `geomath::IsPointInTriangle`; the loop runs over the edges
`(i, j) = (2, 0), (0, 1), (1, 2)`. -/
def IsPointInTriangle (point normal v0 v1 v2 : TVector K) : Bool :=
  if edgeSide normal point v2 v0 < 0 then false
  else if edgeSide normal point v0 v1 < 0 then false
  else if edgeSide normal point v1 v2 < 0 then false
  else true

/-- Function `geomath::Solve2ODE`: the roots of `a*t^2 + b*t + c = 0`. -/
def Solve2ODE (sqrt : K → K) (a b c t_left : K) : Except Fault K :=
  -- portion to square root
  let d := b * b - 4 * a * c
  if d < 0 then pure (-1)
  else do
    let d := sqrt d
    let den ← fdiv 1 (2 * a)
    let t0 := (-b - d) * den
    let t1 := (-b + d) * den
    -- SWAP when t0 < t1
    let s0 := if t0 < t1 then t1 else t0
    let s1 := if t0 < t1 then t0 else t1
    if s1 < 0 ∨ s0 > t_left then pure (-1)
    else if s0 > 0 then pure s0
    else pure s1

/-- Function `geomath::IntersectBallVertex`. -/
def IntersectBallVertex (sqrt : K → K) (center velocity : TVector K) (radius : K)
    (vertex : TVector K) (t_left : K) : Except Fault K :=
  let D := center - vertex
  let a := velocity.dot velocity
  let b := 2 * (velocity.dot D)
  let c := D.dot D - radius * radius
  if b > 0 then pure (-1)
  else if c < 0 then pure 0
  else do
    let t ← Solve2ODE sqrt a b c t_left
    if t < 0 then pure (-1) else pure t

/-- Function `geomath::IntersectBallEdge`. -/
def IntersectBallEdge (sqrt : K → K) (center velocity : TVector K) (radius : K)
    (point1 point2 : TVector K) (test_vertices : Bool) (t_left : K) : Except Fault K :=
  let D := center - point1
  let L := point2 - point1
  let l2 := L.dot L
  let VxL := CrossProduct velocity L
  let DxL := CrossProduct D L
  let a := VxL.dot VxL
  let b := (DxL.dot VxL) * 2
  let c := DxL.dot DxL - radius * radius * l2
  if b > 0 then pure (-1)
  else do
    let t ← if c > 0 then Solve2ODE sqrt a b c t_left else pure 0
    if t < 0 then pure (-1)
    else do
      -- collision point
      let col_point := center + velocity.scale t
      -- how far we are on the edge at time of collision
      let D := col_point - point1
      let l ← fdiv (D.dot L) l2
      if l < 0 then
        if test_vertices then IntersectBallVertex sqrt center velocity radius point1 t_left
        else pure (-1)
      else if l > 1 then
        if test_vertices then IntersectBallVertex sqrt center velocity radius point2 t_left
        else pure (-1)
      else pure t

/-- What `geomath::IntersectBallTriangle` hands back: the time it returns and its three
reference parameters `edge_collision`, `edge_p1` and `edge_p2`. -/
structure TriangleHit (K : Type) where
  t : K
  edge_collision : Bool
  edge_p1 : vec.TVector K
  edge_p2 : vec.TVector K
  deriving DecidableEq, Repr

/-- One of the three edge tests at the end of `geomath::IntersectBallTriangle`: the
smallest time so far and the edge that gave it. -/
def IntersectBallTriangle.edge (sqrt : K → K) (center velocity : TVector K) (radius : K)
    (va vb : TVector K) (t_left : K) (h : TriangleHit K) : Except Fault (TriangleHit K) := do
  let t_temp ← IntersectBallEdge sqrt center velocity radius va vb true t_left
  if t_temp < h.t ∧ t_temp ≥ 0 then pure { h with t := t_temp, edge_p1 := va, edge_p2 := vb }
  else pure h

/-- Function `geomath::IntersectBallTriangle`; `edge_p1` and `edge_p2` are the values
of the two reference parameters on entry. -/
def IntersectBallTriangle (sqrt : K → K) (center ball_vel : TVector K) (radius : K)
    (tri_vel v0 v1 v2 : TVector K) (t_left : K) (edge_p1 edge_p2 : TVector K) :
    Except Fault (TriangleHit K) := do
  -- the triangle is taken as stationary
  let velocity := ball_vel - tri_vel
  -- triangle normal
  let vec1 := v1 - v0
  let vec2 := v2 - v1
  let normal ← (CrossProduct vec1 vec2).Normalize sqrt
  -- time of collision between sphere and plane
  let t ← IntersectBallPlane sqrt center radius velocity v0 normal
  -- the point of collision on the plane
  let point := center + velocity.scale t
  if IsPointInTriangle point normal v0 v1 v2 then
    pure { t := t, edge_collision := false, edge_p1 := edge_p1, edge_p2 := edge_p2 }
  else do
    let h : TriangleHit K :=
      { t := 1000, edge_collision := true, edge_p1 := edge_p1, edge_p2 := edge_p2 }
    let h ← IntersectBallTriangle.edge sqrt center velocity radius v0 v1 t_left h
    let h ← IntersectBallTriangle.edge sqrt center velocity radius v1 v2 t_left h
    let h ← IntersectBallTriangle.edge sqrt center velocity radius v2 v0 t_left h
    pure h

end geomath

/-! ## The collision scheduler of `collisions.cpp` -/

section Constants

variable {K : Type} [LinearOrderedField K]

/-- Constant `ZERO` of `commonUtil.h`, what is considered a negligible time interval:
`0.005f`. -/
def ZERO : K := 5 / 1000

end Constants

/-- Constant `BALL_BALL_COLLISION` of `collisions.h`. -/
def BALL_BALL_COLLISION : Nat := 1

/-- Constant `BALL_WALL_COLLISION` of `collisions.h`. -/
def BALL_WALL_COLLISION : Nat := 2

/-- Constant `BOX_WALL_COLLISION` of `collisions.h`. -/
def BOX_WALL_COLLISION : Nat := 3

/-- Constant `BOX_BOX_COLLISION` of `collisions.h`. -/
def BOX_BOX_COLLISION : Nat := 4

/-- Constant `BALL_BOX_COLLISION` of `collisions.h`. -/
def BALL_BOX_COLLISION : Nat := 5

/-- The structure `CCollisions::colldata` of `collisions.h`. -/
structure colldata (K : Type) where
  collID : Nat
  object1 : Nat
  object2 : Nat
  edge_collision : Bool
  v1 : vec.TVector K
  v2 : vec.TVector K
  v3 : vec.TVector K
  edge_p1 : vec.TVector K
  edge_p2 : vec.TVector K
  deriving DecidableEq, Repr

/-- The object arrays of the class `CWorld` of `world.h`; the numbers of walls, balls
and boxes are the lengths of the arrays. -/
structure CWorld (K : Type) where
  p_walls : List (TWall K)
  p_balls : List (TBall K)
  p_boxes : List (TBox K)
  deriving DecidableEq, Repr

/-- The class `CCollisions` of `collisions.h`. The array `tri_coords` is the triple
`tri_coords0`, `tri_coords1`, `tri_coords2`. The field `indeterminate` is not a member
of the class: it is the value read from the vectors `ep1` and `ep2` of `TestBoxBall`
before anything is stored in them. -/
structure CCollisions (K : Type) where
  num_walls : Nat
  num_balls : Nat
  num_boxes : Nat
  p_walls : List (TWall K)
  p_balls : List (TBall K)
  p_boxes : List (TBox K)
  num_sim_collisions : Nat
  p_cdata : List (colldata K)
  min_time : K
  t_left : K
  tri_coords0 : vec.TVector K
  tri_coords1 : vec.TVector K
  tri_coords2 : vec.TVector K
  indeterminate : vec.TVector K
  deriving DecidableEq, Repr

/-- Reading the element `i` of an array. -/
def getAt {α : Type} (l : List α) (i : Nat) : Except Fault α :=
  match l[i]? with
  | some a => Except.ok a
  | none => Except.error Fault.outOfBounds

/-- Storing into the element `i` of an array the result of `f` on its old content. -/
def modifyAt {α : Type} (l : List α) (i : Nat) (f : α → α) : Except Fault (List α) :=
  match l[i]? with
  | some a => Except.ok (l.set i (f a))
  | none => Except.error Fault.outOfBounds

namespace CCollisions

open vec matrix geomath physics

variable {K : Type} [LinearOrderedField K]

/-- The constructor `CCollisions::CCollisions`: the counts and the arrays of the world
are taken over and the array of collision records is allocated with
`num_balls + num_boxes` elements. The members that the constructor leaves
uninitialised take their values from `junk` and `junk_time`. -/
def init (world : CWorld K) (junk : colldata K) (junk_time : K) : CCollisions K :=
  { num_walls := world.p_walls.length
    num_balls := world.p_balls.length
    num_boxes := world.p_boxes.length
    p_walls := world.p_walls
    p_balls := world.p_balls
    p_boxes := world.p_boxes
    num_sim_collisions := junk.object1
    p_cdata := List.replicate (world.p_balls.length + world.p_boxes.length) junk
    min_time := junk_time
    t_left := junk_time
    tri_coords0 := junk.v1
    tri_coords1 := junk.v2
    tri_coords2 := junk.v3
    indeterminate := junk.edge_p1 }

/-- The block that every one of the five test functions runs on the time `temp_time`
of a pair of objects. A time between 0 and `t_left` that is within `ZERO` of
`min_time` is added to the list of simultaneous collisions; otherwise a time sooner
than `min_time` starts the list again. `store` stands for the assignments to the
fields of `p_cdata[num_sim_collisions - 1]`. The function `abs` is the one of
`math.h` for `float`. -/
def record (s : CCollisions K) (temp_time : K) (store : colldata K → colldata K) :
    Except Fault (CCollisions K) :=
  -- ensure collision is between 0 and t_left
  if temp_time ≥ 0 ∧ temp_time ≤ s.t_left then
    -- collision at the same time as another collision
    if |temp_time - s.min_time| ≤ ZERO then do
      let num_sim_collisions := s.num_sim_collisions + 1
      let p_cdata ← modifyAt s.p_cdata (num_sim_collisions - 1) store
      pure { s with num_sim_collisions := num_sim_collisions, p_cdata := p_cdata }
    -- collision sooner than those previous
    else if temp_time < s.min_time then do
      let num_sim_collisions := 1
      let p_cdata ← modifyAt s.p_cdata (num_sim_collisions - 1) store
      pure { s with num_sim_collisions := num_sim_collisions, min_time := temp_time,
                    p_cdata := p_cdata }
    else pure s
  else pure s

/-- The time of collision that `TestBallBall` computes for the balls `t` and `i` of the
array `p_balls`. -/
def TestBallBall.time (sqrt : K → K) (p_balls : List (TBall K)) (dt : K) (t i : Nat) :
    Except Fault K := do
  let ball1 ← getAt p_balls t
  let ball2 ← getAt p_balls i
  IntersectBallBall sqrt ball1.center ball1.radius (ball1.vel.scale dt)
    ball2.center ball2.radius (ball2.vel.scale dt)

/-- Method `CCollisions::TestBallBall`: the pairs `t < i` of balls. -/
def TestBallBall (sqrt : K → K) (s : CCollisions K) (dt : K) : Except Fault (CCollisions K) :=
  (List.range (s.num_balls - 1)).foldlM (fun s t =>
    (List.range' (t + 1) (s.num_balls - (t + 1))).foldlM (fun s i => do
      let temp_time ← TestBallBall.time sqrt s.p_balls dt t i
      s.record temp_time
        (fun c => { c with collID := BALL_BALL_COLLISION, object1 := t, object2 := i })) s) s

/-- The time of collision that `TestBallWall` computes for the wall `t` and the ball `i`:
-1 when the ball would not make contact with the wall. -/
def TestBallWall.time (sqrt : K → K) (p_walls : List (TWall K)) (p_balls : List (TBall K))
    (dt : K) (t i : Nat) : Except Fault K := do
  let wall ← getAt p_walls t
  let wall_point := mulVec wall.point1 wall.trans
  let wall_normal := wall.normal
  let ball ← getAt p_balls i
  if ← IsBallOnWall ball wall then
    IntersectBallPlane sqrt ball.center ball.radius (ball.vel.scale dt) wall_point wall_normal
  else pure (-1)

/-- Method `CCollisions::TestBallWall`: every wall `t` with every ball `i`. -/
def TestBallWall (sqrt : K → K) (s : CCollisions K) (dt : K) : Except Fault (CCollisions K) :=
  (List.range s.num_walls).foldlM (fun s t =>
    (List.range s.num_balls).foldlM (fun s i => do
      let temp_time ← TestBallWall.time sqrt s.p_walls s.p_balls dt t i
      s.record temp_time
        (fun c => { c with collID := BALL_WALL_COLLISION, object1 := i, object2 := t })) s) s

/-- The time of collision that `TestBoxWall` computes for the box `t` and the wall `i`,
with the normal of the wall normalised once more. -/
def TestBoxWall.time (sqrt : K → K) (p_boxes : List (TBox K)) (p_walls : List (TWall K))
    (dt : K) (t i : Nat) : Except Fault K := do
  let box ← getAt p_boxes t
  let wall ← getAt p_walls i
  let wall_point := mulVec wall.point1 wall.trans
  let wall_normal ← wall.normal.Normalize sqrt
  if ← IsBoxOnWall box wall then
    IntersectBoxPlane sqrt box.minv box.maxv (box.vel.scale dt) wall_point wall_normal
  else pure (-1)

/-- Method `CCollisions::TestBoxWall`: every box `t` with every wall `i`. -/
def TestBoxWall (sqrt : K → K) (s : CCollisions K) (dt : K) : Except Fault (CCollisions K) :=
  (List.range s.num_boxes).foldlM (fun s t =>
    (List.range s.num_walls).foldlM (fun s i => do
      let temp_time ← TestBoxWall.time sqrt s.p_boxes s.p_walls dt t i
      s.record temp_time
        (fun c => { c with collID := BOX_WALL_COLLISION, object1 := t, object2 := i })) s) s

/-- The time of collision that `TestBoxBox` computes for the boxes `t` and `i`. -/
def TestBoxBox.time (p_boxes : List (TBox K)) (dt : K) (t i : Nat) : Except Fault K := do
  let box1 ← getAt p_boxes t
  let box2 ← getAt p_boxes i
  IntersectBoxBox box1.minv box1.maxv (box1.vel.scale dt) box2.minv box2.maxv (box2.vel.scale dt)

/-- Method `CCollisions::TestBoxBox`: the pairs `t < i` of boxes. -/
def TestBoxBox (s : CCollisions K) (dt : K) : Except Fault (CCollisions K) :=
  (List.range (s.num_boxes - 1)).foldlM (fun s t =>
    (List.range' (t + 1) (s.num_boxes - (t + 1))).foldlM (fun s i => do
      let temp_time ← TestBoxBox.time s.p_boxes dt t i
      s.record temp_time
        (fun c => { c with collID := BOX_BOX_COLLISION, object1 := t, object2 := i })) s) s

end CCollisions

namespace CCollisions

open vec matrix geomath physics

variable {K : Type} [LinearOrderedField K]

/-- The variables of `TestBoxBall` that live on from one triangle test to the next:
the local variables `temp_time`, `edge_collision`, `ep1` and `ep2` and the member
`tri_coords`. -/
structure TestBoxBall.Locals (K : Type) where
  temp_time : K
  edge_collision : Bool
  ep1 : vec.TVector K
  ep2 : vec.TVector K
  tri_coords0 : vec.TVector K
  tri_coords1 : vec.TVector K
  tri_coords2 : vec.TVector K
  deriving DecidableEq, Repr

/-- One of the 10 triangle blocks of `TestBoxBall`, for the corners `i0`, `i1`, `i2` of
the box. The source writes the block 10 times; the two blocks of the top face do not
assign `edge_collision`, which is what `sets_edge = false` stands for. -/
def TestBoxBall.triangle (sqrt : K → K) (dt : K) (box : TBox K) (ball : TBall K)
    (i0 i1 i2 : Int) (sets_edge : Bool) (loc : TestBoxBall.Locals K) :
    Except Fault (TestBoxBall.Locals K) := do
  let vert0 ← box.GetVertex i0
  let vert1 ← box.GetVertex i1
  let vert2 ← box.GetVertex i2
  let hit ← IntersectBallTriangle sqrt ball.center (ball.vel.scale dt) ball.radius
    (box.vel.scale dt) vert0 vert1 vert2 1 loc.ep1 loc.ep2
  let loc := { loc with ep1 := hit.edge_p1, ep2 := hit.edge_p2 }
  if hit.t < loc.temp_time ∧ hit.t ≥ 0 then
    pure { loc with temp_time := hit.t, tri_coords0 := vert0, tri_coords1 := vert1,
                    tri_coords2 := vert2,
                    edge_collision := if sets_edge then hit.edge_collision
                                      else loc.edge_collision }
  else pure loc

/-- The 10 triangle tests that `TestBoxBall` makes for the box `t` and the ball `i`,
starting from `temp_time = 1000`: front, left, right, top and back face, two
triangles each. -/
def TestBoxBall.pair (sqrt : K → K) (p_boxes : List (TBox K)) (p_balls : List (TBall K))
    (dt : K) (t i : Nat) (loc : TestBoxBall.Locals K) : Except Fault (TestBoxBall.Locals K) := do
  let box ← getAt p_boxes t
  let ball ← getAt p_balls i
  let loc := { loc with temp_time := 1000 }
  -- front face
  let loc ← TestBoxBall.triangle sqrt dt box ball 4 5 6 true loc
  let loc ← TestBoxBall.triangle sqrt dt box ball 5 7 6 true loc
  -- left face
  let loc ← TestBoxBall.triangle sqrt dt box ball 6 0 2 true loc
  let loc ← TestBoxBall.triangle sqrt dt box ball 6 0 4 true loc
  -- right face
  let loc ← TestBoxBall.triangle sqrt dt box ball 1 3 5 true loc
  let loc ← TestBoxBall.triangle sqrt dt box ball 5 3 7 true loc
  -- top face
  let loc ← TestBoxBall.triangle sqrt dt box ball 7 3 2 false loc
  let loc ← TestBoxBall.triangle sqrt dt box ball 6 7 2 false loc
  -- back face
  let loc ← TestBoxBall.triangle sqrt dt box ball 2 3 0 true loc
  let loc ← TestBoxBall.triangle sqrt dt box ball 3 1 0 true loc
  pure loc

/-- The variables of `TestBoxBall` at its start: `edge_collision` is false, `ep1` and
`ep2` are not initialised, `tri_coords` is as the last call left it. -/
def TestBoxBall.start (s : CCollisions K) : TestBoxBall.Locals K :=
  { temp_time := 1000, edge_collision := false, ep1 := s.indeterminate,
    ep2 := s.indeterminate, tri_coords0 := s.tri_coords0, tri_coords1 := s.tri_coords1,
    tri_coords2 := s.tri_coords2 }

/-- The time of collision that `TestBoxBall` computes for the box `t` and the ball `i`:
the value of `temp_time` after the 10 triangle tests. It does not depend on the values
that the other variables have before the tests; they are taken as zero here. -/
def TestBoxBall.time (sqrt : K → K) (p_boxes : List (TBox K)) (p_balls : List (TBall K))
    (dt : K) (t i : Nat) : Except Fault K := do
  let loc ← TestBoxBall.pair sqrt p_boxes p_balls dt t i
    ⟨1000, false, ⟨0, 0, 0⟩, ⟨0, 0, 0⟩, ⟨0, 0, 0⟩, ⟨0, 0, 0⟩, ⟨0, 0, 0⟩⟩
  pure loc.temp_time

/-- Method `CCollisions::TestBoxBall`: every box `t` with every ball `i`. -/
def TestBoxBall (sqrt : K → K) (s : CCollisions K) (dt : K) : Except Fault (CCollisions K) := do
  let r ← (List.range s.num_boxes).foldlM (fun (r : CCollisions K × TestBoxBall.Locals K) t =>
    (List.range r.1.num_balls).foldlM
      (fun (r : CCollisions K × TestBoxBall.Locals K) i => do
        let loc ← TestBoxBall.pair sqrt r.1.p_boxes r.1.p_balls dt t i r.2
        let s := { r.1 with tri_coords0 := loc.tri_coords0, tri_coords1 := loc.tri_coords1,
                            tri_coords2 := loc.tri_coords2 }
        let s ← s.record loc.temp_time
          (fun c => { c with collID := BALL_BOX_COLLISION, object1 := i, object2 := t,
                             edge_collision := loc.edge_collision,
                             v1 := loc.tri_coords0, v2 := loc.tri_coords1,
                             v3 := loc.tri_coords2,
                             edge_p1 := loc.ep1, edge_p2 := loc.ep2 })
        pure (s, loc)) r) (s, TestBoxBall.start s)
  pure r.1

/-- The assignments to the axis of rotation of a ball after `BallBallResponse` and
`BallWallResponse`: `axis.x = vel.z`, `axis.z = -vel.x`, `axis.Normalize()`; the
component `axis.y` is not assigned. -/
def spinAxis (sqrt : K → K) (axis vel : TVector K) : Except Fault (TVector K) :=
  TVector.Normalize sqrt ⟨vel.z, axis.y, -vel.x⟩

/-- Method `CCollisions::BallBallResponse`. -/
def BallBallResponse (sqrt : K → K) (s : CCollisions K) (i : Nat) :
    Except Fault (CCollisions K) := do
  let cd ← getAt s.p_cdata i
  let ball1_id := cd.object1
  let ball2_id := cd.object2
  let ball1 ← getAt s.p_balls ball1_id
  let ball2 ← getAt s.p_balls ball2_id
  let (vel1, vel2) ← MObjMObjEffects sqrt ball1.vel ball1.center ball2.vel ball2.center
  -- new speed and axis of rotation for each ball
  let axis1 ← spinAxis sqrt ball1.axis vel1
  let p_balls ← modifyAt s.p_balls ball1_id (fun b => { b with vel := vel1, axis := axis1 })
  let ball2 ← getAt p_balls ball2_id
  let axis2 ← spinAxis sqrt ball2.axis vel2
  let p_balls ← modifyAt p_balls ball2_id (fun b => { b with vel := vel2, axis := axis2 })
  pure { s with p_balls := p_balls }

/-- Method `CCollisions::BallWallResponse`; the coefficient of restitution is 0.5. -/
def BallWallResponse (sqrt : K → K) (s : CCollisions K) (i : Nat) :
    Except Fault (CCollisions K) := do
  let cd ← getAt s.p_cdata i
  let ball_id := cd.object1
  let wall_id := cd.object2
  let wall ← getAt s.p_walls wall_id
  let ball ← getAt s.p_balls ball_id
  let initial_vec ← MObjSObjEffects ball.vel wall.normal (1 / 2)
  let axis ← spinAxis sqrt ball.axis initial_vec
  let p_balls ← modifyAt s.p_balls ball_id (fun b => { b with vel := initial_vec, axis := axis })
  pure { s with p_balls := p_balls }

/-- Method `CCollisions::BoxWallResponse`; the coefficient of restitution is 0.5. -/
def BoxWallResponse (s : CCollisions K) (i : Nat) : Except Fault (CCollisions K) := do
  let cd ← getAt s.p_cdata i
  let box_id := cd.object1
  let wall_id := cd.object2
  let box ← getAt s.p_boxes box_id
  let wall ← getAt s.p_walls wall_id
  let initial_vec ← MObjSObjEffects box.vel wall.normal (1 / 2)
  let p_boxes ← modifyAt s.p_boxes box_id (fun b => { b with vel := initial_vec })
  pure { s with p_boxes := p_boxes }

/-- Method `CCollisions::BoxBoxResponse`. -/
def BoxBoxResponse (sqrt : K → K) (s : CCollisions K) (i : Nat) :
    Except Fault (CCollisions K) := do
  let cd ← getAt s.p_cdata i
  let box1_id := cd.object1
  let box2_id := cd.object2
  let box1 ← getAt s.p_boxes box1_id
  let box2 ← getAt s.p_boxes box2_id
  let center1 := (box1.maxv + box1.minv).scale (1 / 2)
  let center2 := (box2.maxv + box2.minv).scale (1 / 2)
  let (vel1, vel2) ← MObjMObjEffects2 sqrt box1.vel center1 box2.vel center2
  let p_boxes ← modifyAt s.p_boxes box1_id (fun b => { b with vel := vel1 })
  let p_boxes ← modifyAt p_boxes box2_id (fun b => { b with vel := vel2 })
  pure { s with p_boxes := p_boxes }

/-- Method `CCollisions::BallBoxResponse`: the response to an edge or vertex collision
and the response to a collision with a face. -/
def BallBoxResponse (sqrt : K → K) (s : CCollisions K) (i : Nat) :
    Except Fault (CCollisions K) := do
  let cd ← getAt s.p_cdata i
  let ball_id := cd.object1
  let box_id := cd.object2
  let ball ← getAt s.p_balls ball_id
  let box ← getAt s.p_boxes box_id
  let vel1 := ball.vel
  let vel2 := box.vel
  let center1 := ball.center
  if cd.edge_collision then do
    -- project the centre onto the edge of collision
    let v := ball.center - cd.edge_p1
    let edge := cd.edge_p2 - cd.edge_p1
    let proj := v.dot edge
    let edge_point := cd.edge_p1 + lscale proj (← Normalized sqrt edge)
    -- the collision normal
    let n_col ← (ball.center - edge_point).Normalize sqrt
    -- move the ball a little bit away
    let ball := { ball with center := ball.center + n_col.scale (1 / 1000) }
    let vb := ball.vel.dot n_col
    let ball := if vb < 0 then { ball with vel := ball.vel + lscale (-2 * vb) n_col } else ball
    let n_col := n_col.scale (-1)
    -- move the box a little bit away
    let box := { box with minv := box.minv + n_col.scale (1 / 1000) }
    let vb := box.vel.dot n_col
    let box := if vb < 0 then { box with vel := box.vel + lscale (-2 * vb) n_col } else box
    let p_balls ← modifyAt s.p_balls ball_id (fun _ => ball)
    let p_boxes ← modifyAt s.p_boxes box_id (fun _ => box)
    pure { s with p_balls := p_balls, p_boxes := p_boxes }
  else do
    let v1 := cd.v1 - cd.v2
    let v2 := cd.v2 - cd.v3
    let n ← (CrossProduct v1 v2).Normalize sqrt
    -- project center of ball onto plane
    let center2 := center1 + lscale ((lscale (-1) n).dot (center1 - s.tri_coords0)) n
    let (vel1, vel2) ← MObjMObjEffects sqrt vel1 center1 vel2 center2
    let axis0 : TVector K := ⟨vel1.z, 0, -vel1.x⟩
    let axis ← if Magnitude sqrt axis0 > 0 then axis0.Normalize sqrt else pure ⟨-1, 0, 0⟩
    let p_balls ← modifyAt s.p_balls ball_id (fun b => { b with vel := vel1, axis := axis })
    let p_boxes ← modifyAt s.p_boxes box_id (fun b => { b with vel := vel2 })
    pure { s with p_balls := p_balls, p_boxes := p_boxes }

/-- The five test passes of one iteration of the loop of `Test`, after `min_time` and
`num_sim_collisions` have been reset. -/
def runTests (sqrt : K → K) (s : CCollisions K) (dt : K) : Except Fault (CCollisions K) := do
  let s := { s with min_time := 1000, num_sim_collisions := 0 }
  let s ← TestBallBall sqrt s dt
  let s ← TestBallWall sqrt s dt
  let s ← TestBoxWall sqrt s dt
  let s ← TestBoxBox s dt
  let s ← TestBoxBall sqrt s dt
  pure s

/-- The two loops of `Test` that advance the objects by the fraction `frac` of their
displacements: `center += vel * dt * frac` for the balls, `maxv` and `minv` likewise
for the boxes. -/
def advance (s : CCollisions K) (dt frac : K) : Except Fault (CCollisions K) := do
  let p_balls ← (List.range s.num_balls).foldlM (fun l i =>
    modifyAt l i (fun b => { b with center := b.center + (b.vel.scale dt).scale frac })) s.p_balls
  let p_boxes ← (List.range s.num_boxes).foldlM (fun l i =>
    modifyAt l i (fun b => { b with maxv := b.maxv + (b.vel.scale dt).scale frac,
                                    minv := b.minv + (b.vel.scale dt).scale frac })) s.p_boxes
  pure { s with p_balls := p_balls, p_boxes := p_boxes }

/-- The loop of `Test` over the collision records `0` to `num_sim_collisions - 1`: the
response that matches the kind of the collision. -/
def respond (sqrt : K → K) (s : CCollisions K) : Except Fault (CCollisions K) :=
  (List.range s.num_sim_collisions).foldlM (fun s i => do
    let cd ← getAt s.p_cdata i
    if cd.collID = BALL_BALL_COLLISION then BallBallResponse sqrt s i
    else if cd.collID = BALL_WALL_COLLISION then BallWallResponse sqrt s i
    else if cd.collID = BOX_WALL_COLLISION then BoxWallResponse s i
    else if cd.collID = BOX_BOX_COLLISION then BoxBoxResponse sqrt s i
    else if cd.collID = BALL_BOX_COLLISION then BallBoxResponse sqrt s i
    else pure s) s

/-- The body of the loop of `Test`. -/
def loopBody (sqrt : K → K) (s : CCollisions K) (dt : K) : Except Fault (CCollisions K) := do
  let s ← runTests sqrt s dt
  if s.num_sim_collisions ≠ 0 then do
    -- advance until first collision time
    let s ← s.advance dt s.min_time
    -- collision response for the objects that have collided
    let s ← respond sqrt s
    pure { s with t_left := s.t_left - s.min_time }
  else do
    -- no more collisions
    let s ← s.advance dt s.t_left
    pure { s with t_left := 0 }

/-- The first `n` iterations of the loop `while (t_left > 0.0f)` of `Test`, or all of
them when the loop ends before. -/
def iterate (sqrt : K → K) (dt : K) : Nat → CCollisions K → Except Fault (CCollisions K)
  | 0, s => pure s
  | n + 1, s => if s.t_left > 0 then do
      let s ← loopBody sqrt s dt
      iterate sqrt dt n s
    else pure s

/-- Method `CCollisions::Test` with a bound `fuel` on the number of iterations of its
loop: `some` of the final state when the loop has ended within the bound, `none` when
it is still running after `fuel` iterations. -/
def Test (sqrt : K → K) (fuel : Nat) (s : CCollisions K) (dt : K) :
    Except Fault (Option (CCollisions K)) := do
  let s ← iterate sqrt dt fuel { s with t_left := 1 }
  if s.t_left > 0 then pure none else pure (some s)

end CCollisions

/-! ## Notions used to state the properties of the scheduler -/

namespace CCollisions

open vec matrix geomath physics

variable {K : Type} [LinearOrderedField K]

/-- The pair of objects named by the kind `collID` and the indices `object1`, `object2`
of a collision record is one that the test functions examine, and the time they compute
for it is `τ`. -/
def PairTime (sqrt : K → K) (s : CCollisions K) (dt : K) (collID object1 object2 : Nat)
    (τ : K) : Prop :=
  (collID = BALL_BALL_COLLISION ∧ object1 < object2 ∧ object2 < s.num_balls
      ∧ TestBallBall.time sqrt s.p_balls dt object1 object2 = Except.ok τ)
    ∨ (collID = BALL_WALL_COLLISION ∧ object1 < s.num_balls ∧ object2 < s.num_walls
      ∧ TestBallWall.time sqrt s.p_walls s.p_balls dt object2 object1 = Except.ok τ)
    ∨ (collID = BOX_WALL_COLLISION ∧ object1 < s.num_boxes ∧ object2 < s.num_walls
      ∧ TestBoxWall.time sqrt s.p_boxes s.p_walls dt object1 object2 = Except.ok τ)
    ∨ (collID = BOX_BOX_COLLISION ∧ object1 < object2 ∧ object2 < s.num_boxes
      ∧ TestBoxBox.time s.p_boxes dt object1 object2 = Except.ok τ)
    ∨ (collID = BALL_BOX_COLLISION ∧ object1 < s.num_balls ∧ object2 < s.num_boxes
      ∧ TestBoxBall.time sqrt s.p_boxes s.p_balls dt object2 object1 = Except.ok τ)

/-- A candidate collision of one iteration: a pair that the test functions examine
and whose time lies between 0 and `t_left`. -/
def IsCandidate (sqrt : K → K) (s : CCollisions K) (dt : K) (collID object1 object2 : Nat)
    (τ : K) : Prop :=
  PairTime sqrt s dt collID object1 object2 τ ∧ 0 ≤ τ ∧ τ ≤ s.t_left

/-- The two states have the same objects, the same remaining time and the same number
of elements in the array of collision records. -/
def SameWorld (s s' : CCollisions K) : Prop :=
  s'.num_walls = s.num_walls ∧ s'.num_balls = s.num_balls ∧ s'.num_boxes = s.num_boxes
    ∧ s'.p_walls = s.p_walls ∧ s'.p_balls = s.p_balls ∧ s'.p_boxes = s.p_boxes
    ∧ s'.t_left = s.t_left ∧ s'.p_cdata.length = s.p_cdata.length

/-- What the test functions keep true of `min_time`, `num_sim_collisions` and the
collision records while they examine the pairs of the state `s0`: either nothing has
been recorded and `min_time` is 1000, or `min_time` is the time of a candidate; and
every record is a candidate whose time is within `ZERO` of `min_time`, the first one
having the time `min_time`. -/
structure Tracked (sqrt : K → K) (dt : K) (s0 s : CCollisions K) : Prop where
  same : SameWorld s0 s
  state : (s.num_sim_collisions = 0 ∧ s.min_time = 1000)
    ∨ (1 ≤ s.num_sim_collisions
        ∧ ∃ c o1 o2, IsCandidate sqrt s0 dt c o1 o2 s.min_time)
  recs : ∀ j, j < s.num_sim_collisions → ∃ cd τ, s.p_cdata[j]? = some cd
    ∧ IsCandidate sqrt s0 dt cd.collID cd.object1 cd.object2 τ
    ∧ |τ - s.min_time| ≤ ZERO ∧ (j = 0 → τ = s.min_time)

end CCollisions

/-! ## Concrete worlds -/

namespace CCollisions

open vec matrix geomath physics

variable {K : Type} [LinearOrderedField K]

/-- A collision record with all fields zero, for the content of the array of records
before anything is stored in it. -/
def blankRecord : colldata K :=
  ⟨0, 0, 0, false, ⟨0, 0, 0⟩, ⟨0, 0, 0⟩, ⟨0, 0, 0⟩, ⟨0, 0, 0⟩, ⟨0, 0, 0⟩⟩

/-- The state in which the loop of `Test` is entered for the first time in a world:
the scheduler as constructed, with `t_left = 1`. -/
def loopHead (world : CWorld K) : CCollisions K :=
  { init world blankRecord 0 with t_left := 1 }

end CCollisions

namespace CCollisions

open vec matrix geomath physics

variable {K : Type} [LinearOrderedField K]

/-- A wall in the plane `y = 0` with the normal `(0, 1, 0)`: what the constructor
`TWall(p1, p2, t, theta, 1)` builds for `p1 = (-10, -10, 0)`, `p2 = (10, 10, 0)`,
`t = (0, 0, 0)` and an angle with `sin theta = -1`, `cos theta = 0`. -/
def floorWall : TWall K :=
  { normal := ⟨0, 1, 0⟩, point1 := ⟨-10, -10, 0⟩, point2 := ⟨10, 10, 0⟩,
    trans := ⟨1, 0, 0, 0,
              0, 0, -1, 0,
              0, 1, 0, 0,
              0, 0, 0, 1⟩ }

/-- A wall in the plane `z = 0` with the normal `(0, 0, 1)`: what the constructor
`TWall(p1, p2, t, theta, 0)` builds for `p1 = (-10, -10, 0)`, `p2 = (10, 10, 0)` and
`t = (0, 0, 0)`. -/
def backWall : TWall K :=
  { normal := ⟨0, 0, 1⟩, point1 := ⟨-10, -10, 0⟩, point2 := ⟨10, 10, 0⟩,
    trans := ⟨1, 0, 0, 0,
              0, 1, 0, 0,
              0, 0, 1, 0,
              0, 0, 0, 1⟩ }

/-- One ball of radius 1 at `(0, 4, 5)` with the velocity `(0, -6, -8)` above the
corner of `floorWall` and `backWall`: after half of a step of `dt = 1` the ball is at
`(0, 1, 1)` and touches both walls. -/
def cornerWorld : CWorld K :=
  ⟨[floorWall, backWall], [{ center := ⟨0, 4, 5⟩, radius := 1, vel := ⟨0, -6, -8⟩,
                             axis := ⟨-1, 0, 0⟩ }], []⟩

/-- A wall in the plane `z = 2` with the normal `(0, 0, -1)`, facing `backWall`: what
the constructor `TWall(p1, p2, t, theta, 1)` builds for `p1 = (-10, -10, 0)`,
`p2 = (10, 10, 0)`, `t = (0, 0, 2)` and an angle with `sin theta = 0`,
`cos theta = -1`. -/
def frontWall : TWall K :=
  { normal := ⟨0, 0, -1⟩, point1 := ⟨-10, -10, 0⟩, point2 := ⟨10, 10, 0⟩,
    trans := ⟨1, 0, 0, 0,
              0, -1, 0, 0,
              0, 0, -1, 0,
              0, 0, 2, 1⟩ }

/-- Two balls of radius 1 over `floorWall`: the ball 0 at `(0, yA, 0)` with the
velocity `(0, uA, 0)`, and the ball 1 at `(5, yB, 0)` with the velocity `(0, 4, 0)`,
moving away from the floor. -/
def bounceBalls (yA uA : K) (axisA : TVector K) (yB : K) : List (TBall K) :=
  [{ center := ⟨0, yA, 0⟩, radius := 1, vel := ⟨0, uA, 0⟩, axis := axisA },
   { center := ⟨5, yB, 0⟩, radius := 1, vel := ⟨0, 4, 0⟩, axis := ⟨-1, 0, 0⟩ }]

/-- The floor and two balls: the ball 0 falls from `(0, 2, 0)` with the velocity
`(0, -2, 0)` and reaches the floor after half of a step of `dt = 1`; the ball 1 rises
from `(5, 5, 0)` and meets nothing. -/
def bounceWorld : CWorld K :=
  ⟨[floorWall], bounceBalls 2 (-2) ⟨-1, 0, 0⟩ 5, []⟩

/-- A ball of radius 65 at `(626, 743, 325)` with the velocity `(80, -60, 0)`. -/
def grazeBall : TBall K :=
  { center := ⟨626, 743, 325⟩, radius := 65, vel := ⟨80, -60, 0⟩, axis := ⟨-1, 0, 0⟩ }

/-- A box `[0, 650]^3` at rest. -/
def grazeBox : TBox K :=
  ⟨⟨⟨0, 0, 0⟩, ⟨650, 650, 650⟩⟩, ⟨0, 0, 0⟩⟩

/-- The ball `grazeBall` passes the edge `x = y = 650` of the box `grazeBox` outside of
the box: in a step of `dt = 1` its centre is within its radius 65 of the edge from
the time 1/2 to the time 1, at mid-height of the edge, and it reaches none of the
faces. -/
def grazeWorld : CWorld K :=
  ⟨[], [grazeBall], [grazeBox]⟩

/-- The state of the scheduler in `grazeWorld` after the test passes of the first
iteration of the loop of `Test` with `dt = 1`: one collision at the time 1, of the ball
0 with an edge of the box 0. -/
def grazeTested : CCollisions K :=
  { loopHead grazeWorld with
    num_sim_collisions := 1
    min_time := 1
    tri_coords0 := ⟨650, 0, 650⟩
    tri_coords1 := ⟨650, 650, 0⟩
    tri_coords2 := ⟨650, 650, 650⟩
    p_cdata := [{ collID := BALL_BOX_COLLISION, object1 := 0, object2 := 0,
                  edge_collision := true, v1 := ⟨650, 0, 650⟩, v2 := ⟨650, 650, 0⟩,
                  v3 := ⟨650, 650, 650⟩, edge_p1 := ⟨650, 650, 650⟩,
                  edge_p2 := ⟨650, 650, 0⟩ }, blankRecord] }

/-- The state of the scheduler in `grazeWorld` after the first iteration of the loop of
`Test` with `dt = 1`, when the normal of the edge collision is `n`: the ball has been
advanced by its velocity and moved by 0.001 along `n`, the corner `minv` of the box has
been moved by 0.001 along `-n`. -/
def grazeEnd (n : TVector K) : CCollisions K :=
  { grazeTested with
    p_balls := [{ grazeBall with center := ⟨706, 683, 325⟩ + n.scale (1 / 1000) }]
    p_boxes := [{ grazeBox with minv := ⟨0, 0, 0⟩ + (n.scale (-1)).scale (1 / 1000) }]
    t_left := 0 }

end CCollisions

namespace CCollisions

open vec matrix geomath physics

variable {K : Type} [LinearOrderedField K]

/-- The collision normal `n_col` of the edge branch of `CCollisions::BallBoxResponse`,
as the method computes it from the centre of the ball and the two recorded points of
the edge: `v = center - edge_p1`, `edge = edge_p2 - edge_p1`, `proj = v * edge`,
`edge_point = edge_p1 + proj * Normalized(edge)`, `n_col = center - edge_point`,
normalised. -/
def BallBoxResponse.n_col (sqrt : K → K) (center edge_p1 edge_p2 : TVector K) :
    Except Fault (TVector K) := do
  let v := center - edge_p1
  let edge := edge_p2 - edge_p1
  let proj := v.dot edge
  let edge_point := edge_p1 + lscale proj (← Normalized sqrt edge)
  (center - edge_point).Normalize sqrt

/-- The state of the scheduler in `grazeWorld` after the objects have been advanced to
the time of the collision, before the response: the ball is at `(706, 683, 325)`. -/
def grazeAdvanced : CCollisions K :=
  { grazeTested with p_balls := [{ grazeBall with center := ⟨706, 683, 325⟩ }] }

end CCollisions

namespace CCollisions

open vec matrix geomath physics

variable {K : Type} [LinearOrderedField K]

/-- A ball of radius 65 at `(325, 743, 24)` with the velocity `(0, -60, -80)`. -/
def backGrazeBall : TBall K :=
  { center := ⟨325, 743, 24⟩, radius := 65, vel := ⟨0, -60, -80⟩, axis := ⟨-1, 0, 0⟩ }

/-- The ball `backGrazeBall` passes the edge `y = 650`, `z = 0` of the box `grazeBox`,
the edge between its top face and its back face, outside of the box: in a step of
`dt = 1` its centre is within its radius 65 of the edge from the time 1/2 to the time
1, at the middle of the edge, and it reaches none of the faces. -/
def backGrazeWorld : CWorld K :=
  ⟨[], [backGrazeBall], [grazeBox]⟩

end CCollisions

namespace CCollisions

open vec matrix geomath physics

variable {K : Type} [LinearOrderedField K]

/-- A ball of radius 65 that touches the top face `y = 650` of `grazeBox` from above,
with the velocity `(10, -60, 0)`. -/
def topBall : TBall K :=
  { center := ⟨325, 715, 325⟩, radius := 65, vel := ⟨10, -60, 0⟩, axis := ⟨0, 0, -1⟩ }

/-- The record of a collision of the ball 0 with the triangle of the corners 7, 3, 2,
of the top face, of the box 0. -/
def topRecord : colldata K :=
  { collID := BALL_BOX_COLLISION, object1 := 0, object2 := 0, edge_collision := false,
    v1 := ⟨650, 650, 650⟩, v2 := ⟨650, 650, 0⟩, v3 := ⟨0, 650, 0⟩,
    edge_p1 := ⟨0, 0, 0⟩, edge_p2 := ⟨0, 0, 0⟩ }

/-- A state of the scheduler at the time of a collision of `topBall` with the top face
of `grazeBox`; the member `tri_coords` holds a triangle of the back face, the last one
that was tested. -/
def topHit : CCollisions K :=
  { init ⟨[], [topBall], [grazeBox]⟩ blankRecord 0 with
    num_sim_collisions := 1
    min_time := 1 / 2
    t_left := 1
    tri_coords0 := ⟨650, 650, 0⟩
    tri_coords1 := ⟨650, 0, 0⟩
    tri_coords2 := ⟨0, 0, 0⟩
    p_cdata := [topRecord, blankRecord] }

end CCollisions

namespace CCollisions

open vec matrix geomath physics

variable {K : Type} [LinearOrderedField K]

/-- The 10 triangle blocks of `TestBoxBall` in the order of the source: the numbers of
the three corners that the block passes to `GetVertex`, and whether the block assigns
`edge_collision`; two blocks for each of the front, left, right, top and back face. -/
def TestBoxBall.triangles : List (Int × Int × Int × Bool) :=
  [(4, 5, 6, true), (5, 7, 6, true),
   (6, 0, 2, true), (6, 0, 4, true),
   (1, 3, 5, true), (5, 3, 7, true),
   (7, 3, 2, false), (6, 7, 2, false),
   (2, 3, 0, true), (3, 1, 0, true)]

/-- The point `v` lies in the plane of a face of the box, the faces numbered as
`TestBoxBall` goes through them: 0 front (`z = max`), 1 left (`x = min`), 2 right
(`x = max`), 3 top (`y = max`), 4 back (`z = min`). -/
def OnFace (b : TAABB K) (face : Nat) (v : TVector K) : Prop :=
  match face with
  | 0 => v.z = b.maxv.z
  | 1 => v.x = b.minv.x
  | 2 => v.x = b.maxv.x
  | 3 => v.y = b.maxv.y
  | 4 => v.z = b.minv.z
  | _ => False

/-- The numbers of the four corners of a face, by the bits of `GetVertex`: bit 0
selects the maximum of x, bit 1 of y, bit 2 of z. -/
def faceCorners (face : Nat) : List Int :=
  match face with
  | 0 => [4, 5, 6, 7]
  | 1 => [0, 2, 4, 6]
  | 2 => [1, 3, 5, 7]
  | 3 => [2, 3, 6, 7]
  | 4 => [0, 1, 2, 3]
  | _ => []

/-- The numbers of the three corners of the triangle block `k` of `TestBoxBall`. -/
def TestBoxBall.corners (k : Nat) : List Int :=
  match TestBoxBall.triangles[k]? with
  | some tr => [tr.1, tr.2.1, tr.2.2.1]
  | none => []

/-- Twice the centre of a face of the box, the faces numbered as in `OnFace`: the sum
of two opposite corners of the face. -/
def faceCentre2 (b : TAABB K) (face : Nat) : TVector K :=
  match face with
  | 0 => ⟨b.minv.x + b.maxv.x, b.minv.y + b.maxv.y, b.maxv.z + b.maxv.z⟩
  | 1 => ⟨b.minv.x + b.minv.x, b.minv.y + b.maxv.y, b.minv.z + b.maxv.z⟩
  | 2 => ⟨b.maxv.x + b.maxv.x, b.minv.y + b.maxv.y, b.minv.z + b.maxv.z⟩
  | 3 => ⟨b.minv.x + b.maxv.x, b.maxv.y + b.maxv.y, b.minv.z + b.maxv.z⟩
  | 4 => ⟨b.minv.x + b.maxv.x, b.minv.y + b.maxv.y, b.minv.z + b.minv.z⟩
  | _ => ⟨0, 0, 0⟩

/-- The direction out of the box at a face, the faces numbered as in `OnFace`. -/
def outward (face : Nat) : TVector K :=
  match face with
  | 0 => ⟨0, 0, 1⟩
  | 1 => ⟨-1, 0, 0⟩
  | 2 => ⟨1, 0, 0⟩
  | 3 => ⟨0, 1, 0⟩
  | 4 => ⟨0, 0, -1⟩
  | _ => ⟨0, 0, 0⟩

end CCollisions

namespace geomath

open vec

variable {K : Type} [LinearOrderedField K]

/-- The orthogonal projection of the point `P` onto the plane through `v0` with the
normal `N`. -/
def projectOntoPlane (P N v0 : TVector K) : TVector K :=
  P - N.scale ((P - v0).dot N / N.dot N)

/-- The point `Q` is a convex combination of `v0`, `v1`, `v2`: it lies in the closed
triangle. -/
def InTriangle (Q v0 v1 v2 : TVector K) : Prop :=
  ∃ l0 l1 l2 : K, 0 ≤ l0 ∧ 0 ≤ l1 ∧ 0 ≤ l2 ∧ l0 + l1 + l2 = 1
    ∧ Q = v0.scale l0 + v1.scale l1 + v2.scale l2

end geomath

section BallConstructor

open vec

variable {K : Type} [LinearOrderedField K]

/-- The initialization constructor of `TBall` (`ball.cpp`), of which the centre, the
radius, the velocity and the axis of rotation are kept: the axis is `(vel.z, 0, -vel.x)`
normalised, or `(-1, 0, 0)` when that vector has the magnitude zero. -/
def TBall.init (sqrt : K → K) (c : TVector K) (r : K) (v : TVector K) :
    Except Fault (TBall K) := do
  let axis0 : TVector K := ⟨v.z, 0, -v.x⟩
  let axis ← if Magnitude sqrt axis0 > 0 then axis0.Normalize sqrt else pure ⟨-1, 0, 0⟩
  pure { center := c, radius := r, vel := v, axis := axis }

/-- The assertion at the head of `TMatrix::Rotate(const TVector& axis, float theta)`,
which `TBall::Rotate` calls with the axis of the ball:
`assert(fabs(axis * axis - 1.0f) < 0.01f)`. -/
def rotateAssertion (axis : TVector K) : Except Fault Unit :=
  if ¬ (|axis.dot axis - 1| < 1 / 100) then Except.error Fault.assertion else pure ()

end BallConstructor

namespace CCollisions

open vec matrix geomath physics

variable {K : Type} [LinearOrderedField K]

/-- The state of the scheduler in `bounceWorld` after the objects have been advanced to
the time 1/2 of the collision of the ball 0 with the floor, before the response. -/
def bounceAdvanced : CCollisions K :=
  { loopHead bounceWorld with
    num_sim_collisions := 1
    min_time := 1 / 2
    p_cdata := [{ (blankRecord : colldata K) with collID := BALL_WALL_COLLISION, object1 := 0,
                                                  object2 := 0 }, blankRecord]
    p_balls := bounceBalls 1 (-2) ⟨-1, 0, 0⟩ 7 }

end CCollisions

/-! ## Theorems -/

section BasicFacts

variable {K : Type} [LinearOrderedField K]

theorem fdiv_eq_ok (a : K) {b : K} (h : b ≠ 0) : fdiv a b = Except.ok (a / b) := by
  simp [fdiv, h]

theorem fdiv_zero (a : K) : fdiv a 0 = Except.error Fault.divByZero := by
  simp [fdiv]

end BasicFacts

namespace vec

section Components

variable {K : Type} [LinearOrderedField K]

@[simp] theorem add_x (a b : TVector K) : (a + b).x = a.x + b.x := rfl
@[simp] theorem add_y (a b : TVector K) : (a + b).y = a.y + b.y := rfl
@[simp] theorem add_z (a b : TVector K) : (a + b).z = a.z + b.z := rfl
@[simp] theorem sub_x (a b : TVector K) : (a - b).x = a.x - b.x := rfl
@[simp] theorem sub_y (a b : TVector K) : (a - b).y = a.y - b.y := rfl
@[simp] theorem sub_z (a b : TVector K) : (a - b).z = a.z - b.z := rfl
@[simp] theorem neg_x (a : TVector K) : (-a).x = -a.x := rfl
@[simp] theorem neg_y (a : TVector K) : (-a).y = -a.y := rfl
@[simp] theorem neg_z (a : TVector K) : (-a).z = -a.z := rfl
@[simp] theorem scale_x (a : TVector K) (k : K) : (a.scale k).x = a.x * k := rfl
@[simp] theorem scale_y (a : TVector K) (k : K) : (a.scale k).y = a.y * k := rfl
@[simp] theorem scale_z (a : TVector K) (k : K) : (a.scale k).z = a.z * k := rfl
@[simp] theorem lscale_x (k : K) (a : TVector K) : (lscale k a).x = k * a.x := rfl
@[simp] theorem lscale_y (k : K) (a : TVector K) : (lscale k a).y = k * a.y := rfl
@[simp] theorem lscale_z (k : K) (a : TVector K) : (lscale k a).z = k * a.z := rfl

theorem dot_def (a b : TVector K) : a.dot b = a.x * b.x + a.y * b.y + a.z * b.z := rfl

theorem dot_self_nonneg (v : TVector K) : 0 ≤ v.dot v := by
  rw [dot_def]
  nlinarith [mul_self_nonneg v.x, mul_self_nonneg v.y, mul_self_nonneg v.z]

/-- A vector whose squared magnitude is not positive is the zero vector. -/
theorem eq_zero_of_dot_self_not_pos (v : TVector K) (h : ¬ 0 < v.dot v) :
    v = ⟨0, 0, 0⟩ := by
  rw [dot_def] at h
  have hx := mul_self_nonneg v.x
  have hy := mul_self_nonneg v.y
  have hz := mul_self_nonneg v.z
  have h0 : v.x * v.x + v.y * v.y + v.z * v.z ≤ 0 := not_lt.mp h
  ext
  · exact mul_self_eq_zero.mp (by linarith)
  · exact mul_self_eq_zero.mp (by linarith)
  · exact mul_self_eq_zero.mp (by linarith)

theorem dot_self_pos_of_ne_zero (v : TVector K) (h : v ≠ ⟨0, 0, 0⟩) : 0 < v.dot v := by
  by_contra hc
  exact h (eq_zero_of_dot_self_not_pos v hc)

end Components

/-- Over the reals a vector of positive squared magnitude has a positive magnitude. -/
theorem Magnitude_pos (v : TVector ℝ) (h : 0 < v.dot v) : 0 < Magnitude Real.sqrt v :=
  Real.sqrt_pos.mpr h

theorem Magnitude_mul_self (v : TVector ℝ) :
    Magnitude Real.sqrt v * Magnitude Real.sqrt v = v.dot v :=
  Real.mul_self_sqrt (dot_self_nonneg v)

/-- The value of `Normalized` over the reals for a vector that is not zero. -/
theorem Normalized_of_pos (v : TVector ℝ) (h : 0 < v.dot v) :
    Normalized Real.sqrt v = Except.ok (v.scale (1 / Magnitude Real.sqrt v)) := by
  have hm : Real.sqrt (v.x * v.x + v.y * v.y + v.z * v.z) ≠ 0 :=
    ne_of_gt (Magnitude_pos v h)
  have h2 : v.x * v.x + v.y * v.y + v.z * v.z > 0 := h
  simp only [Normalized, h2, if_true, fdiv_eq_ok 1 hm]
  rfl

/-- The value of `Normalized` for the zero vector, whatever `sqrt` is. -/
theorem Normalized_of_not_pos {K : Type} [LinearOrderedField K] (sqrt : K → K)
    (v : TVector K) (h : ¬ 0 < v.dot v) :
    Normalized sqrt v = Except.ok ⟨0, 0, 0⟩ := by
  have h2 : ¬ (v.x * v.x + v.y * v.y + v.z * v.z > 0) := h
  simp only [Normalized, h2, if_false]
  rfl

end vec

namespace geomath

open vec

/-- The value of `IntersectBallPlane` over the reals when the ball approaches the
plane: the quotient of the signed gap and the closing speed. -/
theorem IntersectBallPlane_of_approaching (c : TVector ℝ) (r : ℝ) (v p n : TVector ℝ)
    (hn : n.dot n = 1) (hv : v.dot n < 0) :
    IntersectBallPlane Real.sqrt c r v p n
      = Except.ok ((p.dot n - c.dot n + r) / v.dot n) := by
  have hv0 : 0 < v.dot v := by
    by_contra hc
    have hz := eq_zero_of_dot_self_not_pos v hc
    rw [hz] at hv
    simp [dot_def] at hv
  have hm := Magnitude_pos v hv0
  have hden : (v.scale (1 / Magnitude Real.sqrt v)).dot n = v.dot n / Magnitude Real.sqrt v := by
    simp only [dot_def, scale_x, scale_y, scale_z]
    field_simp
  have hneg : v.dot n / Magnitude Real.sqrt v < 0 := div_neg_of_neg_of_pos hv hm
  have hassert : |n.dot n - 1| < 1 / 100 := by rw [hn]; norm_num
  simp only [IntersectBallPlane, hassert, not_true_eq_false, if_false, Normalized_of_pos v hv0,
    bind, Except.bind, hden, ge_iff_le, not_le.mpr hneg, fdiv_eq_ok _ (ne_of_lt hneg),
    fdiv_eq_ok _ (ne_of_gt hm)]
  congr 1
  have hm0 := ne_of_gt hm
  have hv1 := ne_of_lt hv
  field_simp
  ring

/-- The value of `IntersectBallBall` over the reals past both rejection branches, for
a relative displacement that is not zero. -/
theorem IntersectBallBall_of_accepted (c1 : TVector ℝ) (r1 : ℝ) (v1 c2 : TVector ℝ) (r2 : ℝ)
    (v2 : TVector ℝ) (hd : v2 - v1 ≠ ⟨0, 0, 0⟩)
    (hdm : Magnitude Real.sqrt (v2 - v1) ≤ r1 + r2)
    (heq : 0 ≤ ((c1 - c2).dot (v2 - v1) / Magnitude Real.sqrt (v2 - v1)) ^ 2
        + (r1 + r2) ^ 2 - (c1 - c2).dot (c1 - c2)) :
    IntersectBallBall Real.sqrt c1 r1 v1 c2 r2 v2
      = Except.ok (((c1 - c2).dot (v2 - v1) / Magnitude Real.sqrt (v2 - v1)
          - Real.sqrt (((c1 - c2).dot (v2 - v1) / Magnitude Real.sqrt (v2 - v1)) ^ 2
              + (r1 + r2) ^ 2 - (c1 - c2).dot (c1 - c2)))
          / Magnitude Real.sqrt (v2 - v1)) := by
  have hv0 : 0 < (v2 - v1).dot (v2 - v1) := dot_self_pos_of_ne_zero _ hd
  have hm := Magnitude_pos _ hv0
  have he : (⟨c1.x - c2.x, c1.y - c2.y, c1.z - c2.z⟩ : TVector ℝ) = c1 - c2 := rfl
  have hp : (c1 - c2).dot ((v2 - v1).scale (1 / Magnitude Real.sqrt (v2 - v1)))
      = (c1 - c2).dot (v2 - v1) / Magnitude Real.sqrt (v2 - v1) := by
    simp only [dot_def, scale_x, scale_y, scale_z]
    field_simp
  have heq2 : ¬ ((c1 - c2).dot (v2 - v1) / Magnitude Real.sqrt (v2 - v1)
      * ((c1 - c2).dot (v2 - v1) / Magnitude Real.sqrt (v2 - v1))
      + (r1 + r2) * (r1 + r2) - (c1 - c2).dot (c1 - c2) < 0) := by
    rw [not_lt]
    nlinarith [heq]
  simp only [IntersectBallBall, he, Normalized_of_pos _ hv0, bind, Except.bind, hp,
    gt_iff_lt, not_lt.mpr hdm, if_false, heq2, fdiv_eq_ok _ (ne_of_gt hm)]
  simp only [pow_two]

/-- Claim C1 (`IntersectBallBall` at the end-to-end scenario of the specification).
Two spheres of radius 1 at (0,0,0) and (5,0,0) with displacements (5/2,0,0) and
(-5/2,0,0) are apart at the start and first touch at the fraction 3/5 of the step:
their centres are further apart than 2 before 3/5 and exactly 2 apart at 3/5. The
function nevertheless returns -1, through its branch `dm > r`. -/
theorem IntersectBallBall_scenario_rejected :
    IntersectBallBall Real.sqrt ⟨0, 0, 0⟩ 1 ⟨5 / 2, 0, 0⟩ ⟨5, 0, 0⟩ 1 ⟨-5 / 2, 0, 0⟩
        = Except.ok (-1)
      ∧ Magnitude Real.sqrt ((⟨0, 0, 0⟩ : TVector ℝ) - ⟨5, 0, 0⟩) > 1 + 1
      ∧ Magnitude Real.sqrt (((⟨0, 0, 0⟩ : TVector ℝ) + TVector.scale ⟨5 / 2, 0, 0⟩ (3 / 5))
          - (⟨5, 0, 0⟩ + TVector.scale ⟨-5 / 2, 0, 0⟩ (3 / 5))) = 1 + 1
      ∧ ∀ s : ℝ, 0 ≤ s → s < 3 / 5 →
          Magnitude Real.sqrt (((⟨0, 0, 0⟩ : TVector ℝ) + TVector.scale ⟨5 / 2, 0, 0⟩ s)
            - (⟨5, 0, 0⟩ + TVector.scale ⟨-5 / 2, 0, 0⟩ s)) > 1 + 1 := by
  have h25 : Real.sqrt 25 = 5 := by
    rw [show (25 : ℝ) = 5 ^ 2 by norm_num]
    exact Real.sqrt_sq (by norm_num)
  refine ⟨?_, ?_, ?_, ?_⟩
  · have hmag : (-5 / 2 - 5 / 2 : ℝ) * (-5 / 2 - 5 / 2) + (0 - 0) * (0 - 0)
        + (0 - 0) * (0 - 0) = 25 := by norm_num
    have hpos : (-5 / 2 - 5 / 2 : ℝ) * (-5 / 2 - 5 / 2) + (0 - 0) * (0 - 0)
        + (0 - 0) * (0 - 0) > 0 := by norm_num
    simp only [IntersectBallBall, Normalized, Magnitude, sub_x, sub_y, sub_z, hpos, if_true,
      hmag, h25, bind, Except.bind, fdiv_eq_ok (1 : ℝ) (show (5 : ℝ) ≠ 0 by norm_num), pure,
      Except.pure]
    norm_num
  · simp only [Magnitude, sub_x, sub_y, sub_z]
    rw [show ((0 : ℝ) - 5) * (0 - 5) + (0 - 0) * (0 - 0) + (0 - 0) * (0 - 0) = 25 by norm_num,
      h25]
    norm_num
  · simp only [Magnitude, sub_x, sub_y, sub_z, add_x, add_y, add_z, scale_x, scale_y, scale_z]
    rw [show ((0 : ℝ) + 5 / 2 * (3 / 5) - (5 + -5 / 2 * (3 / 5)))
        * (0 + 5 / 2 * (3 / 5) - (5 + -5 / 2 * (3 / 5)))
        + (0 + 0 * (3 / 5) - (0 + 0 * (3 / 5))) * (0 + 0 * (3 / 5) - (0 + 0 * (3 / 5)))
        + (0 + 0 * (3 / 5) - (0 + 0 * (3 / 5))) * (0 + 0 * (3 / 5) - (0 + 0 * (3 / 5)))
        = 2 ^ 2 by norm_num, Real.sqrt_sq (by norm_num)]
    norm_num
  · intro s hs0 hs1
    simp only [Magnitude, sub_x, sub_y, sub_z, add_x, add_y, add_z, scale_x, scale_y, scale_z]
    rw [gt_iff_lt, Real.lt_sqrt (by norm_num)]
    nlinarith

/-- Claim C2 (`IntersectBallPlane`, contact at the returned time). For a unit plane
normal `n` and a displacement `v` with `v·n < 0` the function returns a time `t`, and
after advancing the centre by `t·v` its signed distance to the plane is the radius. -/
theorem IntersectBallPlane_contact (c : TVector ℝ) (r : ℝ) (v p n : TVector ℝ)
    (hn : n.dot n = 1) (hv : v.dot n < 0) :
    ∃ t, IntersectBallPlane Real.sqrt c r v p n = Except.ok t
      ∧ (c + v.scale t).dot n - p.dot n = r := by
  refine ⟨_, IntersectBallPlane_of_approaching c r v p n hn hv, ?_⟩
  have hv1 := ne_of_lt hv
  simp only [dot_def, add_x, add_y, add_z, scale_x, scale_y, scale_z] at hv1 ⊢
  field_simp
  ring

/-- Witness of claim C2: a ball of radius 1 at height 5 falling by 2 onto the plane
`z = 0`. -/
theorem IntersectBallPlane_contact_witness :
    ∃ t, IntersectBallPlane Real.sqrt ⟨0, 0, 5⟩ 1 ⟨0, 0, -2⟩ ⟨0, 0, 0⟩ ⟨0, 0, 1⟩ = Except.ok t
      ∧ ((⟨0, 0, 5⟩ : TVector ℝ) + TVector.scale ⟨0, 0, -2⟩ t).dot ⟨0, 0, 1⟩
          - TVector.dot ⟨0, 0, 0⟩ (⟨0, 0, 1⟩ : TVector ℝ) = 1 :=
  IntersectBallPlane_contact ⟨0, 0, 5⟩ 1 ⟨0, 0, -2⟩ ⟨0, 0, 0⟩ ⟨0, 0, 1⟩
    (by norm_num [dot_def]) (by norm_num [dot_def])

/-- Claim C3 (`IntersectBallPlane`, no approach). For a unit plane normal `n` and a
displacement `v` with `v·n ≥ 0` (moving away, parallel, or `v = 0`) the function
returns -1; the result is a value, so no division by zero was reached. -/
theorem IntersectBallPlane_not_approaching (c : TVector ℝ) (r : ℝ) (v p n : TVector ℝ)
    (hn : n.dot n = 1) (hv : 0 ≤ v.dot n) :
    IntersectBallPlane Real.sqrt c r v p n = Except.ok (-1) := by
  have hassert : |n.dot n - 1| < 1 / 100 := by rw [hn]; norm_num
  by_cases hv0 : 0 < v.dot v
  · have hm := Magnitude_pos v hv0
    have hden : (v.scale (1 / Magnitude Real.sqrt v)).dot n
        = v.dot n / Magnitude Real.sqrt v := by
      simp only [dot_def, scale_x, scale_y, scale_z]
      field_simp
    have hge : 0 ≤ v.dot n / Magnitude Real.sqrt v := div_nonneg hv (le_of_lt hm)
    simp only [IntersectBallPlane, hassert, not_true_eq_false, if_false,
      Normalized_of_pos v hv0, bind, Except.bind, hden, ge_iff_le, hge, if_true]
    rfl
  · have hz : (TVector.dot ⟨0, 0, 0⟩ n : ℝ) ≥ 0 := by simp [dot_def]
    simp only [IntersectBallPlane, hassert, not_true_eq_false, if_false,
      Normalized_of_not_pos Real.sqrt v hv0, bind, Except.bind, hz, if_true]
    rfl

/-- Witness of claim C3: a ball moving parallel to the plane `z = 0`. -/
theorem IntersectBallPlane_not_approaching_witness :
    IntersectBallPlane Real.sqrt ⟨0, 0, 5⟩ 1 ⟨3, 0, 0⟩ ⟨0, 0, 0⟩ ⟨0, 0, 1⟩ = Except.ok (-1) :=
  IntersectBallPlane_not_approaching ⟨0, 0, 5⟩ 1 ⟨3, 0, 0⟩ ⟨0, 0, 0⟩ ⟨0, 0, 1⟩
    (by norm_num [dot_def]) (by norm_num [dot_def])

end geomath



namespace geomath

open vec

/-- Claim C4 (`IntersectBallBall`, the spheres touch at the returned time). When the
relative displacement `d = v2 - v1` is not zero and neither rejection branch is taken
(`|d| ≤ r1 + r2` and `(e·d/|d|)² + (r1+r2)² - e·e ≥ 0` with `e = c1 - c2`), the function
returns a time `t` at which the distance of the two centres is `r1 + r2`. -/
theorem IntersectBallBall_touching (c1 : TVector ℝ) (r1 : ℝ) (v1 c2 : TVector ℝ) (r2 : ℝ)
    (v2 : TVector ℝ) (hd : v2 - v1 ≠ ⟨0, 0, 0⟩)
    (hdm : Magnitude Real.sqrt (v2 - v1) ≤ r1 + r2)
    (heq : 0 ≤ ((c1 - c2).dot (v2 - v1) / Magnitude Real.sqrt (v2 - v1)) ^ 2
        + (r1 + r2) ^ 2 - (c1 - c2).dot (c1 - c2)) :
    ∃ t, IntersectBallBall Real.sqrt c1 r1 v1 c2 r2 v2 = Except.ok t
      ∧ Magnitude Real.sqrt ((c1 + v1.scale t) - (c2 + v2.scale t)) = r1 + r2 := by
  refine ⟨_, IntersectBallBall_of_accepted c1 r1 v1 c2 r2 v2 hd hdm heq, ?_⟩
  have hv0 : 0 < (v2 - v1).dot (v2 - v1) := dot_self_pos_of_ne_zero _ hd
  have hm := Magnitude_pos _ hv0
  have hmm := Magnitude_mul_self (v2 - v1)
  have hr : 0 ≤ r1 + r2 := le_trans (le_of_lt hm) hdm
  have hs := Real.mul_self_sqrt heq
  -- abbreviations: m = |d|, p = e·d/|d|, s = sqrt eq1, t = (p - s)/m
  generalize hmdef : Magnitude Real.sqrt (v2 - v1) = m at hm hmm hs heq hdm ⊢
  generalize hsdef : Real.sqrt (((c1 - c2).dot (v2 - v1) / m) ^ 2 + (r1 + r2) ^ 2
      - (c1 - c2).dot (c1 - c2)) = s at hs ⊢
  have hm0 : m ≠ 0 := ne_of_gt hm
  have htm : ((c1 - c2).dot (v2 - v1) / m - s) / m * m = (c1 - c2).dot (v2 - v1) / m - s :=
    div_mul_cancel₀ _ hm0
  have hED : (c1 - c2).dot (v2 - v1) = (c1 - c2).dot (v2 - v1) / m * m := by
    field_simp
  generalize htdef : ((c1 - c2).dot (v2 - v1) / m - s) / m = t at htm ⊢
  generalize hpdef : (c1 - c2).dot (v2 - v1) / m = p at htm hED hs
  have hsq : ((c1 + v1.scale t) - (c2 + v2.scale t)).dot ((c1 + v1.scale t) - (c2 + v2.scale t))
      = (r1 + r2) ^ 2 := by
    have hexp : ((c1 + v1.scale t) - (c2 + v2.scale t)).dot
          ((c1 + v1.scale t) - (c2 + v2.scale t))
        = (c1 - c2).dot (c1 - c2) - 2 * t * (c1 - c2).dot (v2 - v1)
          + t ^ 2 * (v2 - v1).dot (v2 - v1) := by
      simp only [dot_def, add_x, add_y, add_z, sub_x, sub_y, sub_z, scale_x, scale_y, scale_z]
      ring
    rw [hexp, ← hmm, hED]
    linear_combination (t * m - p - s) * htm + hs
  have hmag : Magnitude Real.sqrt ((c1 + v1.scale t) - (c2 + v2.scale t))
      = Real.sqrt (((c1 + v1.scale t) - (c2 + v2.scale t)).dot
          ((c1 + v1.scale t) - (c2 + v2.scale t))) := rfl
  rw [hmag, hsq]
  exact Real.sqrt_sq hr

/-- Witness of claim C4: radius-1 spheres at (0,0,0) and (5/2,0,0) with displacements
(1/2,0,0) and (-1/2,0,0). -/
theorem IntersectBallBall_touching_witness :
    ∃ t, IntersectBallBall Real.sqrt ⟨0, 0, 0⟩ 1 ⟨1 / 2, 0, 0⟩ ⟨5 / 2, 0, 0⟩ 1 ⟨-1 / 2, 0, 0⟩
        = Except.ok t
      ∧ Magnitude Real.sqrt (((⟨0, 0, 0⟩ : TVector ℝ) + TVector.scale ⟨1 / 2, 0, 0⟩ t)
          - (⟨5 / 2, 0, 0⟩ + TVector.scale ⟨-1 / 2, 0, 0⟩ t)) = 1 + 1 := by
  have h1 : Magnitude Real.sqrt ((⟨-1 / 2, 0, 0⟩ : TVector ℝ) - ⟨1 / 2, 0, 0⟩) = 1 := by
    simp only [Magnitude, sub_x, sub_y, sub_z]
    norm_num
  refine IntersectBallBall_touching ⟨0, 0, 0⟩ 1 ⟨1 / 2, 0, 0⟩ ⟨5 / 2, 0, 0⟩ 1 ⟨-1 / 2, 0, 0⟩
    ?_ ?_ ?_
  · intro h
    have hx := congrArg TVector.x h
    norm_num at hx
  · rw [h1]
    norm_num
  · rw [h1]
    norm_num [dot_def]

/-- Claim C5 (`IntersectBallBall` is symmetric in its two spheres), for every field of
scalars and every square-root function, and for the faulting runs as well. -/
theorem IntersectBallBall_symmetric {K : Type} [LinearOrderedField K] (sqrt : K → K)
    (c1 : TVector K) (r1 : K) (v1 c2 : TVector K) (r2 : K) (v2 : TVector K) :
    IntersectBallBall sqrt c1 r1 v1 c2 r2 v2 = IntersectBallBall sqrt c2 r2 v2 c1 r1 v1 := by
  have hmag : (v1 - v2).x * (v1 - v2).x + (v1 - v2).y * (v1 - v2).y + (v1 - v2).z * (v1 - v2).z
      = (v2 - v1).x * (v2 - v1).x + (v2 - v1).y * (v2 - v1).y
        + (v2 - v1).z * (v2 - v1).z := by
    simp only [sub_x, sub_y, sub_z]
    ring
  have hr : r2 + r1 = r1 + r2 := add_comm r2 r1
  have hee : TVector.dot (⟨c2.x - c1.x, c2.y - c1.y, c2.z - c1.z⟩ : TVector K)
        ⟨c2.x - c1.x, c2.y - c1.y, c2.z - c1.z⟩
      = TVector.dot (⟨c1.x - c2.x, c1.y - c2.y, c1.z - c2.z⟩ : TVector K)
        ⟨c1.x - c2.x, c1.y - c2.y, c1.z - c2.z⟩ := by
    simp only [dot_def]
    ring
  simp only [IntersectBallBall, Normalized, Magnitude, hmag, hr, hee]
  by_cases hpos : (v2 - v1).x * (v2 - v1).x + (v2 - v1).y * (v2 - v1).y
      + (v2 - v1).z * (v2 - v1).z > 0
  · simp only [hpos, if_true]
    cases hf : fdiv (1 : K) (sqrt ((v2 - v1).x * (v2 - v1).x + (v2 - v1).y * (v2 - v1).y
        + (v2 - v1).z * (v2 - v1).z)) with
    | error err => rfl
    | ok flipped =>
      have hed : TVector.dot (⟨c2.x - c1.x, c2.y - c1.y, c2.z - c1.z⟩ : TVector K)
            ⟨(v1 - v2).x * flipped, (v1 - v2).y * flipped, (v1 - v2).z * flipped⟩
          = TVector.dot (⟨c1.x - c2.x, c1.y - c2.y, c1.z - c2.z⟩ : TVector K)
            ⟨(v2 - v1).x * flipped, (v2 - v1).y * flipped, (v2 - v1).z * flipped⟩ := by
        simp only [dot_def, sub_x, sub_y, sub_z]
        ring
      simp only [bind, Except.bind, pure, Except.pure, hed]
  · have hed : TVector.dot (⟨c2.x - c1.x, c2.y - c1.y, c2.z - c1.z⟩ : TVector K) ⟨0, 0, 0⟩
          = TVector.dot (⟨c1.x - c2.x, c1.y - c2.y, c1.z - c2.z⟩ : TVector K) ⟨0, 0, 0⟩ := by
      simp only [dot_def]
      ring
    simp only [hpos, if_false, bind, Except.bind, pure, Except.pure, hed]

end geomath

namespace geomath

open vec

/-- The squared distance of the two centres after the fraction `u` of the step, as a
quadratic in `u`. -/
theorem dist_sq_at (c1 v1 c2 v2 : TVector ℝ) (u : ℝ) :
    ((c1 + v1.scale u) - (c2 + v2.scale u)).dot ((c1 + v1.scale u) - (c2 + v2.scale u))
      = (c1 - c2).dot (c1 - c2) - 2 * u * (c1 - c2).dot (v2 - v1)
        + u ^ 2 * (v2 - v1).dot (v2 - v1) := by
  simp only [dot_def, add_x, add_y, add_z, sub_x, sub_y, sub_z, scale_x, scale_y, scale_z]
  ring

theorem Magnitude_eq_sqrt_dot (v : TVector ℝ) :
    Magnitude Real.sqrt v = Real.sqrt (v.dot v) := rfl

/-- The time returned by `IntersectBallBall` is the time of first contact whenever
the relative displacement is not longer than the sum of the radii: for spheres that
are apart at the start of the step and whose centres first reach the distance
`r1 + r2` at the fraction `s ≥ 0`, the function returns `s`, provided it does not
take its branch `dm > r`. -/
theorem IntersectBallBall_first_contact_of_slow (c1 : TVector ℝ) (r1 : ℝ) (v1 c2 : TVector ℝ)
    (r2 : ℝ) (v2 : TVector ℝ) (s : ℝ)
    (hsep : r1 + r2 < Magnitude Real.sqrt (c1 - c2))
    (hslow : Magnitude Real.sqrt (v2 - v1) ≤ r1 + r2)
    (hs0 : 0 ≤ s)
    (hat : Magnitude Real.sqrt ((c1 + v1.scale s) - (c2 + v2.scale s)) = r1 + r2)
    (hfirst : ∀ u, 0 ≤ u → u < s →
      r1 + r2 < Magnitude Real.sqrt ((c1 + v1.scale u) - (c2 + v2.scale u))) :
    IntersectBallBall Real.sqrt c1 r1 v1 c2 r2 v2 = Except.ok s := by
  have hr : 0 ≤ r1 + r2 := by
    rw [← hat]
    exact Real.sqrt_nonneg _
  have hE : (r1 + r2) ^ 2 < (c1 - c2).dot (c1 - c2) := by
    rw [Magnitude_eq_sqrt_dot, Real.lt_sqrt hr] at hsep
    exact hsep
  have hqs : (c1 - c2).dot (c1 - c2) - 2 * s * (c1 - c2).dot (v2 - v1)
      + s ^ 2 * (v2 - v1).dot (v2 - v1) = (r1 + r2) ^ 2 := by
    rw [Magnitude_eq_sqrt_dot, dist_sq_at] at hat
    have h := Real.mul_self_sqrt (by
      rw [← dist_sq_at]
      exact dot_self_nonneg _ : 0 ≤ (c1 - c2).dot (c1 - c2) - 2 * s * (c1 - c2).dot (v2 - v1)
        + s ^ 2 * (v2 - v1).dot (v2 - v1))
    rw [hat] at h
    rw [← h]
    ring
  have hfirst2 : ∀ u, 0 ≤ u → u < s →
      (r1 + r2) ^ 2 < (c1 - c2).dot (c1 - c2) - 2 * u * (c1 - c2).dot (v2 - v1)
        + u ^ 2 * (v2 - v1).dot (v2 - v1) := by
    intro u hu0 hu1
    have h := hfirst u hu0 hu1
    rw [Magnitude_eq_sqrt_dot, dist_sq_at, Real.lt_sqrt hr] at h
    exact h
  have hd : v2 - v1 ≠ ⟨0, 0, 0⟩ := by
    intro hz
    rw [hz] at hqs
    simp only [dot_def, mul_zero, add_zero] at hqs hE
    linarith
  have hv0 : 0 < (v2 - v1).dot (v2 - v1) := dot_self_pos_of_ne_zero _ hd
  have hm := Magnitude_pos _ hv0
  have hmm := Magnitude_mul_self (v2 - v1)
  have hspos : 0 < s := by
    rcases eq_or_lt_of_le hs0 with h0 | h0
    · rw [← h0] at hqs
      simp only [mul_zero, zero_mul, sub_zero, ne_eq, OfNat.ofNat_ne_zero, not_false_eq_true,
        zero_pow, add_zero] at hqs
      linarith
    · exact h0
  -- abbreviations: m = |d|, p = e·d/|d|
  generalize hmdef : Magnitude Real.sqrt (v2 - v1) = m at hm hmm hslow
  have hm0 : m ≠ 0 := ne_of_gt hm
  have hB : (c1 - c2).dot (v2 - v1) = (c1 - c2).dot (v2 - v1) / m * m :=
    (div_mul_cancel₀ _ hm0).symm
  generalize hpdef : (c1 - c2).dot (v2 - v1) / m = p at hB
  rw [hB, ← hmm] at hqs hfirst2
  have hdisc : p ^ 2 + (r1 + r2) ^ 2 - (c1 - c2).dot (c1 - c2) = (p - s * m) ^ 2 := by
    linear_combination (-1 : ℝ) * hqs
  have hge : 0 ≤ p - s * m := by
    by_contra hneg
    rw [not_le] at hneg
    have hprod : 0 < s * m * (2 * p - s * m) := by
      have : s * m * (2 * p - s * m) = (c1 - c2).dot (c1 - c2) - (r1 + r2) ^ 2 := by
        linear_combination (-1 : ℝ) * hqs
      rw [this]
      linarith
    have hsm : 0 < s * m := mul_pos hspos hm
    have h2p : 0 < 2 * p - s * m := by
      by_contra hc
      rw [not_lt] at hc
      have := mul_nonpos_of_nonneg_of_nonpos (le_of_lt hsm) hc
      linarith
    have hu0 : 0 ≤ (2 * p - s * m) / m := le_of_lt (div_pos h2p hm)
    have hu1 : (2 * p - s * m) / m < s := by
      rw [div_lt_iff₀ hm]
      linarith
    have hcon := hfirst2 _ hu0 hu1
    have hum : (2 * p - s * m) / m * m = 2 * p - s * m := div_mul_cancel₀ _ hm0
    generalize (2 * p - s * m) / m = u at hcon hum
    have : (c1 - c2).dot (c1 - c2) - 2 * u * (p * m) + u ^ 2 * (m * m) = (r1 + r2) ^ 2 := by
      linear_combination (u * m - s * m) * hum + hqs
    linarith
  have heq : 0 ≤ p ^ 2 + (r1 + r2) ^ 2 - (c1 - c2).dot (c1 - c2) := by
    rw [hdisc]
    exact sq_nonneg _
  have hval := IntersectBallBall_of_accepted c1 r1 v1 c2 r2 v2 hd
    (by rw [hmdef]; exact hslow) (by rw [hmdef, hpdef]; exact heq)
  rw [hval, hmdef, hpdef, hdisc, Real.sqrt_sq hge]
  congr 1
  field_simp

/-- An instance of `IntersectBallBall_first_contact_of_slow`: radius-1 spheres at
(0,0,0) and (5/2,0,0) with displacements (1/2,0,0) and (-1/2,0,0) first touch at 1/2,
and 1/2 is returned. -/
theorem IntersectBallBall_first_contact_of_slow_witness :
    IntersectBallBall Real.sqrt ⟨0, 0, 0⟩ 1 ⟨1 / 2, 0, 0⟩ ⟨5 / 2, 0, 0⟩ 1 ⟨-1 / 2, 0, 0⟩
      = Except.ok (1 / 2) := by
  refine IntersectBallBall_first_contact_of_slow ⟨0, 0, 0⟩ 1 ⟨1 / 2, 0, 0⟩ ⟨5 / 2, 0, 0⟩ 1
    ⟨-1 / 2, 0, 0⟩ (1 / 2) ?_ ?_ (by norm_num) ?_ ?_
  · rw [Magnitude_eq_sqrt_dot, Real.lt_sqrt (by norm_num)]
    norm_num [dot_def]
  · simp only [Magnitude, sub_x, sub_y, sub_z]
    norm_num
  · simp only [Magnitude, sub_x, sub_y, sub_z, add_x, add_y, add_z, scale_x, scale_y, scale_z]
    rw [show ((0 : ℝ) + 1 / 2 * (1 / 2) - (5 / 2 + -1 / 2 * (1 / 2)))
        * (0 + 1 / 2 * (1 / 2) - (5 / 2 + -1 / 2 * (1 / 2)))
        + (0 + 0 * (1 / 2) - (0 + 0 * (1 / 2))) * (0 + 0 * (1 / 2) - (0 + 0 * (1 / 2)))
        + (0 + 0 * (1 / 2) - (0 + 0 * (1 / 2))) * (0 + 0 * (1 / 2) - (0 + 0 * (1 / 2)))
        = 2 ^ 2 by norm_num, Real.sqrt_sq (by norm_num)]
    norm_num
  · intro u hu0 hu1
    simp only [Magnitude, sub_x, sub_y, sub_z, add_x, add_y, add_z, scale_x, scale_y, scale_z]
    rw [Real.lt_sqrt (by norm_num)]
    nlinarith

end geomath

namespace geomath

open vec

section BoxAxis

variable {K : Type} [LinearOrderedField K]

theorem ite_lt_eq_min (a b : K) : (if a < b then a else b) = min a b := by
  by_cases h : a < b
  · rw [if_pos h, min_eq_left (le_of_lt h)]
  · rw [if_neg h, min_eq_right (not_lt.mp h)]

theorem ite_lt_eq_max (a b : K) : (if a < b then b else a) = max a b := by
  by_cases h : a < b
  · rw [if_pos h, max_eq_right (le_of_lt h)]
  · rw [if_neg h, max_eq_left (not_lt.mp h)]

/-- The axis block on an axis without relative movement: a static overlap check. -/
theorem axisTest_static (a1 b1 a2 b2 te tx : K) :
    IntersectBoxBox.axisTest a1 b1 a2 b2 0 te tx
      = Except.ok (if a1 ≥ b2 ∨ b1 ≤ a2 then none else some (te, tx)) := by
  simp only [IntersectBoxBox.axisTest, if_true]
  split <;> rfl

/-- The axis block on an axis with relative movement `d`: the interval is cut down to
the times between the smaller and the larger of `(a1 - b2)/d` and `(b1 - a2)/d`. -/
theorem axisTest_moving (a1 b1 a2 b2 d te tx : K) (hd : d ≠ 0) :
    IntersectBoxBox.axisTest a1 b1 a2 b2 d te tx
      = Except.ok
          (if max te (min ((a1 - b2) / d) ((b1 - a2) / d))
                > min (max ((a1 - b2) / d) ((b1 - a2) / d)) tx then none
           else some (max te (min ((a1 - b2) / d) ((b1 - a2) / d)),
                      min (max ((a1 - b2) / d) ((b1 - a2) / d)) tx)) := by
  simp only [IntersectBoxBox.axisTest, hd, if_false, fdiv_eq_ok (1 : K) hd, bind, Except.bind,
    mul_one_div, gt_iff_lt, ite_lt_eq_min, ite_lt_eq_max,
    min_comm ((b1 - a2) / d) ((a1 - b2) / d), max_comm ((b1 - a2) / d) ((a1 - b2) / d)]
  split <;> rfl

/-- On a moving axis of two well-formed boxes the closed intervals overlap exactly
between the two times computed by the axis block. -/
theorem intervalsTouch_iff (a1 b1 a2 b2 v1 v2 s : K) (hd : v2 - v1 ≠ 0)
    (h1 : a1 ≤ b1) (h2 : a2 ≤ b2) :
    IntervalsTouch (a1 + v1 * s) (b1 + v1 * s) (a2 + v2 * s) (b2 + v2 * s)
      ↔ min ((a1 - b2) / (v2 - v1)) ((b1 - a2) / (v2 - v1)) ≤ s
        ∧ s ≤ max ((a1 - b2) / (v2 - v1)) ((b1 - a2) / (v2 - v1)) := by
  unfold IntervalsTouch
  rcases lt_or_gt_of_ne hd with hneg | hpos
  · have hle : (b1 - a2) / (v2 - v1) ≤ (a1 - b2) / (v2 - v1) :=
      (div_le_div_right_of_neg hneg).mpr (by linarith)
    rw [min_eq_right hle, max_eq_left hle, div_le_iff_of_neg hneg, le_div_iff_of_neg hneg]
    constructor
    · rintro ⟨h3, h4⟩
      constructor <;> nlinarith
    · rintro ⟨h3, h4⟩
      constructor <;> nlinarith
  · have hle : (a1 - b2) / (v2 - v1) ≤ (b1 - a2) / (v2 - v1) :=
      (div_le_div_iff_of_pos_right hpos).mpr (by linarith)
    rw [min_eq_left hle, max_eq_right hle, div_le_iff₀ hpos, le_div_iff₀ hpos]
    constructor
    · rintro ⟨h3, h4⟩
      constructor <;> nlinarith
    · rintro ⟨h3, h4⟩
      constructor <;> nlinarith

theorem intervalsApart_iff_not_touch (lo1 hi1 lo2 hi2 : K) :
    IntervalsApart lo1 hi1 lo2 hi2 ↔ ¬ IntervalsTouch lo1 hi1 lo2 hi2 := by
  unfold IntervalsApart IntervalsTouch
  rw [not_and_or, not_le, not_le]

/-- What one axis block guarantees when it does not return: the interval shrinks and
stays non-empty, the two boxes overlap on this axis throughout the new interval, and
either the entry time is unchanged or the boxes are apart on this axis before it. -/
theorem axisTest_sound (a1 b1 a2 b2 v1 v2 te tx te2 tx2 : K)
    (h1 : a1 ≤ b1) (h2 : a2 ≤ b2) (hte : te ≤ tx)
    (h : IntersectBoxBox.axisTest a1 b1 a2 b2 (v2 - v1) te tx = Except.ok (some (te2, tx2))) :
    te ≤ te2 ∧ tx2 ≤ tx ∧ te2 ≤ tx2
      ∧ (∀ s, te2 ≤ s → s ≤ tx2 →
          IntervalsTouch (a1 + v1 * s) (b1 + v1 * s) (a2 + v2 * s) (b2 + v2 * s))
      ∧ (te2 = te ∨ ∀ s, s < te2 →
          IntervalsApart (a1 + v1 * s) (b1 + v1 * s) (a2 + v2 * s) (b2 + v2 * s)) := by
  by_cases hd : v2 - v1 = 0
  · rw [hd, axisTest_static] at h
    have hv : v2 = v1 := sub_eq_zero.mp hd
    by_cases hc : a1 ≥ b2 ∨ b1 ≤ a2
    · rw [if_pos hc] at h
      cases h
    · rw [if_neg hc] at h
      injection h with h
      injection h with h
      injection h with hA hB
      subst hA
      subst hB
      rw [not_or, not_le, not_le] at hc
      refine ⟨le_refl _, le_refl _, hte, ?_, Or.inl rfl⟩
      intro s _ _
      rw [hv]
      exact ⟨by linarith [hc.1], by linarith [hc.2]⟩
  · rw [axisTest_moving _ _ _ _ _ _ _ hd] at h
    by_cases hc : max te (min ((a1 - b2) / (v2 - v1)) ((b1 - a2) / (v2 - v1)))
        > min (max ((a1 - b2) / (v2 - v1)) ((b1 - a2) / (v2 - v1))) tx
    · rw [if_pos hc] at h
      cases h
    · rw [if_neg hc] at h
      injection h with h
      injection h with h
      injection h with hA hB
      subst hA
      subst hB
      refine ⟨le_max_left _ _, min_le_right _ _, not_lt.mp hc, ?_, ?_⟩
      · intro s hs1 hs2
        rw [intervalsTouch_iff a1 b1 a2 b2 v1 v2 s hd h1 h2]
        exact ⟨le_trans (le_max_right _ _) hs1, le_trans hs2 (min_le_left _ _)⟩
      · by_cases hm : min ((a1 - b2) / (v2 - v1)) ((b1 - a2) / (v2 - v1)) ≤ te
        · exact Or.inl (max_eq_left hm)
        · right
          intro s hs
          rw [max_eq_right (le_of_lt (not_le.mp hm))] at hs
          rw [intervalsApart_iff_not_touch, intervalsTouch_iff a1 b1 a2 b2 v1 v2 s hd h1 h2]
          intro hcon
          exact absurd hcon.1 (not_le.mpr hs)

/-- An axis block never divides by zero. -/
theorem axisTest_ok (a1 b1 a2 b2 d te tx : K) :
    ∃ o, IntersectBoxBox.axisTest a1 b1 a2 b2 d te tx = Except.ok o := by
  by_cases hd : d = 0
  · rw [hd, axisTest_static]
    exact ⟨_, rfl⟩
  · rw [axisTest_moving _ _ _ _ _ _ _ hd]
    exact ⟨_, rfl⟩

/-- An axis on which the interiors of the boxes overlap at the start leaves the entry
time at zero and the exit time positive. -/
theorem axisTest_of_interiorsMeet (a1 b1 a2 b2 d tx : K)
    (h : InteriorsMeet a1 b1 a2 b2) (htx : 0 < tx) :
    ∃ tx2, 0 < tx2 ∧ IntersectBoxBox.axisTest a1 b1 a2 b2 d 0 tx = Except.ok (some (0, tx2)) := by
  obtain ⟨h1, h2⟩ := h
  by_cases hd : d = 0
  · rw [hd, axisTest_static]
    have hc : ¬ (a1 ≥ b2 ∨ b1 ≤ a2) := by
      rw [not_or, not_le, not_le]
      exact ⟨h1, h2⟩
    rw [if_neg hc]
    exact ⟨tx, htx, rfl⟩
  · rw [axisTest_moving _ _ _ _ _ _ _ hd]
    have hlo : min ((a1 - b2) / d) ((b1 - a2) / d) < 0 := by
      rcases lt_or_gt_of_ne hd with hneg | hpos
      · exact lt_of_le_of_lt (min_le_right _ _) (div_neg_of_pos_of_neg (by linarith) hneg)
      · exact lt_of_le_of_lt (min_le_left _ _) (div_neg_of_neg_of_pos (by linarith) hpos)
    have hhi : 0 < max ((a1 - b2) / d) ((b1 - a2) / d) := by
      rcases lt_or_gt_of_ne hd with hneg | hpos
      · exact lt_of_lt_of_le (div_pos_of_neg_of_neg (by linarith) hneg) (le_max_left _ _)
      · exact lt_of_lt_of_le (div_pos (by linarith) hpos) (le_max_right _ _)
    have hte : max 0 (min ((a1 - b2) / d) ((b1 - a2) / d)) = 0 := max_eq_left (le_of_lt hlo)
    have hpos2 : 0 < min (max ((a1 - b2) / d) ((b1 - a2) / d)) tx := lt_min hhi htx
    rw [hte, if_neg (not_lt.mpr (le_of_lt hpos2))]
    exact ⟨_, hpos2, rfl⟩

end BoxAxis

end geomath

namespace geomath

open vec

section BoxBox

variable {K : Type} [LinearOrderedField K]

/-- The run of `IntersectBoxBox` in terms of its three axis blocks, when none of them
returns early. -/
theorem IntersectBoxBox_of_axes (min1 max1 v1 min2 max2 v2 : TVector K)
    (te1 tx1 te2 tx2 te3 tx3 : K)
    (hx : IntersectBoxBox.axisTest min1.x max1.x min2.x max2.x (v2.x - v1.x) 0 1
      = Except.ok (some (te1, tx1)))
    (hy : IntersectBoxBox.axisTest min1.y max1.y min2.y max2.y (v2.y - v1.y) te1 tx1
      = Except.ok (some (te2, tx2)))
    (hz : IntersectBoxBox.axisTest min1.z max1.z min2.z max2.z (v2.z - v1.z) te2 tx2
      = Except.ok (some (te3, tx3))) :
    IntersectBoxBox min1 max1 v1 min2 max2 v2
      = Except.ok (if te3 > 0 then te3 else -1) := by
  simp only [IntersectBoxBox, sub_x, sub_y, sub_z, hx, hy, hz, bind, Except.bind]
  split <;> rfl

/-- Every run of `IntersectBoxBox` either returns -1 or passes all three axis blocks
and returns a positive final entry time. -/
theorem IntersectBoxBox_cases (min1 max1 v1 min2 max2 v2 : TVector K) :
    IntersectBoxBox min1 max1 v1 min2 max2 v2 = Except.ok (-1)
      ∨ ∃ te1 tx1 te2 tx2 te3 tx3,
          IntersectBoxBox.axisTest min1.x max1.x min2.x max2.x (v2.x - v1.x) 0 1
              = Except.ok (some (te1, tx1))
            ∧ IntersectBoxBox.axisTest min1.y max1.y min2.y max2.y (v2.y - v1.y) te1 tx1
              = Except.ok (some (te2, tx2))
            ∧ IntersectBoxBox.axisTest min1.z max1.z min2.z max2.z (v2.z - v1.z) te2 tx2
              = Except.ok (some (te3, tx3))
            ∧ 0 < te3
            ∧ IntersectBoxBox min1 max1 v1 min2 max2 v2 = Except.ok te3 := by
  obtain ⟨ox, hx⟩ := axisTest_ok min1.x max1.x min2.x max2.x (v2.x - v1.x) 0 1
  cases ox with
  | none =>
    left
    simp only [IntersectBoxBox, sub_x, hx, bind, Except.bind]
    rfl
  | some px =>
    obtain ⟨te1, tx1⟩ := px
    obtain ⟨oy, hy⟩ := axisTest_ok min1.y max1.y min2.y max2.y (v2.y - v1.y) te1 tx1
    cases oy with
    | none =>
      left
      simp only [IntersectBoxBox, sub_x, sub_y, hx, hy, bind, Except.bind]
      rfl
    | some py =>
      obtain ⟨te2, tx2⟩ := py
      obtain ⟨oz, hz⟩ := axisTest_ok min1.z max1.z min2.z max2.z (v2.z - v1.z) te2 tx2
      cases oz with
      | none =>
        left
        simp only [IntersectBoxBox, sub_x, sub_y, sub_z, hx, hy, hz, bind, Except.bind]
        rfl
      | some pz =>
        obtain ⟨te3, tx3⟩ := pz
        have hrun := IntersectBoxBox_of_axes min1 max1 v1 min2 max2 v2 _ _ _ _ _ _ hx hy hz
        by_cases hpos : te3 > 0
        · right
          rw [if_pos hpos] at hrun
          exact ⟨te1, tx1, te2, tx2, te3, tx3, hx, hy, hz, hpos, hrun⟩
        · left
          rw [if_neg hpos] at hrun
          exact hrun

/-- Claim C6 (`IntersectBoxBox` returns the first time of contact). For well-formed
boxes, a returned value `t` other than -1 satisfies `0 < t ≤ 1`, the moved boxes
overlap as closed intervals on all three axes at `t`, and at every `s` with
`0 ≤ s < t` they are strictly separated on at least one axis. -/
theorem IntersectBoxBox_first_contact (min1 max1 v1 min2 max2 v2 : TVector K) (t : K)
    (hw1 : WellFormedBox min1 max1) (hw2 : WellFormedBox min2 max2)
    (h : IntersectBoxBox min1 max1 v1 min2 max2 v2 = Except.ok t) (hne : t ≠ -1) :
    0 < t ∧ t ≤ 1 ∧ BoxesTouchAt min1 max1 v1 min2 max2 v2 t
      ∧ ∀ s, 0 ≤ s → s < t → BoxesApartAt min1 max1 v1 min2 max2 v2 s := by
  rcases IntersectBoxBox_cases min1 max1 v1 min2 max2 v2 with hm | hrun
  · rw [hm] at h
    injection h with h
    exact absurd h.symm hne
  · obtain ⟨te1, tx1, te2, tx2, te3, tx3, hx, hy, hz, hpos, hres⟩ := hrun
    rw [hres] at h
    injection h with h
    subst h
    obtain ⟨hx1, hx2, hx3, hx4, hx5⟩ :=
      axisTest_sound _ _ _ _ _ _ _ _ _ _ hw1.1 hw2.1 zero_le_one hx
    obtain ⟨hy1, hy2, hy3, hy4, hy5⟩ :=
      axisTest_sound _ _ _ _ _ _ _ _ _ _ hw1.2.1 hw2.2.1 hx3 hy
    obtain ⟨hz1, hz2, hz3, hz4, hz5⟩ :=
      axisTest_sound _ _ _ _ _ _ _ _ _ _ hw1.2.2 hw2.2.2 hy3 hz
    refine ⟨hpos, by linarith, ⟨?_, ?_, ?_⟩, ?_⟩
    · exact hx4 te3 (by linarith) (by linarith)
    · exact hy4 te3 (by linarith) (by linarith)
    · exact hz4 te3 (le_refl _) hz3
    · intro s _ hs
      rcases hz5 with hz5 | hz5
      · rcases hy5 with hy5 | hy5
        · rcases hx5 with hx5 | hx5
          · rw [hz5, hy5, hx5] at hpos
            exact absurd hpos (lt_irrefl _)
          · exact Or.inl (hx5 s (by rw [← hy5, ← hz5]; exact hs))
        · exact Or.inr (Or.inl (hy5 s (by rw [← hz5]; exact hs)))
      · exact Or.inr (Or.inr (hz5 s hs))

/-- Witness of claim C6: the unit box at rest and a unit box three units to its right
moving four units to the left; the test returns 1/2. -/
theorem IntersectBoxBox_first_contact_witness :
    (0 : ℚ) < 1 / 2 ∧ (1 / 2 : ℚ) ≤ 1
      ∧ BoxesTouchAt (K := ℚ) ⟨0, 0, 0⟩ ⟨1, 1, 1⟩ ⟨0, 0, 0⟩ ⟨3, 0, 0⟩ ⟨4, 1, 1⟩ ⟨-4, 0, 0⟩ (1 / 2)
      ∧ ∀ s : ℚ, 0 ≤ s → s < 1 / 2 →
          BoxesApartAt (K := ℚ) ⟨0, 0, 0⟩ ⟨1, 1, 1⟩ ⟨0, 0, 0⟩ ⟨3, 0, 0⟩ ⟨4, 1, 1⟩ ⟨-4, 0, 0⟩ s :=
  IntersectBoxBox_first_contact (K := ℚ) ⟨0, 0, 0⟩ ⟨1, 1, 1⟩ ⟨0, 0, 0⟩ ⟨3, 0, 0⟩ ⟨4, 1, 1⟩
    ⟨-4, 0, 0⟩ (1 / 2)
    (by unfold WellFormedBox; norm_num) (by unfold WellFormedBox; norm_num)
    (by
      rw [IntersectBoxBox_of_axes (K := ℚ) _ _ _ _ _ _ (1 / 2) 1 (1 / 2) 1 (1 / 2) 1]
      · norm_num
      · rw [axisTest_moving _ _ _ _ _ _ _ (by norm_num)]
        norm_num
      · rw [show ((0 : ℚ) - 0) = 0 by norm_num, axisTest_static]
        norm_num
      · rw [show ((0 : ℚ) - 0) = 0 by norm_num, axisTest_static]
        norm_num)
    (by norm_num)

/-- Claim C7 (`IntersectBoxBox` does not report an overlap that exists already). When
the interiors of the two boxes overlap on all three axes at the start of the step the
function returns -1 whatever the displacements are, and for two boxes with equal
displacements, overlapping or not, it returns -1. -/
theorem IntersectBoxBox_existing_overlap (min1 max1 v1 min2 max2 v2 : TVector K) :
    (BoxInteriorsOverlap min1 max1 min2 max2 →
        IntersectBoxBox min1 max1 v1 min2 max2 v2 = Except.ok (-1))
      ∧ IntersectBoxBox min1 max1 v1 min2 max2 v1 = Except.ok (-1) := by
  constructor
  · rintro ⟨hx, hy, hz⟩
    obtain ⟨tx1, h1, hx1⟩ := axisTest_of_interiorsMeet _ _ _ _ (v2.x - v1.x) 1 hx zero_lt_one
    obtain ⟨tx2, h2, hy1⟩ := axisTest_of_interiorsMeet _ _ _ _ (v2.y - v1.y) tx1 hy h1
    obtain ⟨tx3, _, hz1⟩ := axisTest_of_interiorsMeet _ _ _ _ (v2.z - v1.z) tx2 hz h2
    rw [IntersectBoxBox_of_axes min1 max1 v1 min2 max2 v2 _ _ _ _ _ _ hx1 hy1 hz1,
      if_neg (lt_irrefl _)]
  · rcases IntersectBoxBox_cases min1 max1 v1 min2 max2 v1 with hm | hrun
    · exact hm
    · obtain ⟨te1, tx1, te2, tx2, te3, tx3, hx, hy, hz, hpos, _⟩ := hrun
      rw [sub_self, axisTest_static] at hx hy hz
      by_cases hcx : min1.x ≥ max2.x ∨ max1.x ≤ min2.x
      · rw [if_pos hcx] at hx
        cases hx
      · rw [if_neg hcx] at hx
        injection hx with hx
        injection hx with hx
        injection hx with hA hB
        subst hA
        by_cases hcy : min1.y ≥ max2.y ∨ max1.y ≤ min2.y
        · rw [if_pos hcy] at hy
          cases hy
        · rw [if_neg hcy] at hy
          injection hy with hy
          injection hy with hy
          injection hy with hC hD
          subst hC
          by_cases hcz : min1.z ≥ max2.z ∨ max1.z ≤ min2.z
          · rw [if_pos hcz] at hz
            cases hz
          · rw [if_neg hcz] at hz
            injection hz with hz
            injection hz with hz
            injection hz with hE hF
            subst hE
            exact absurd hpos (lt_irrefl _)

/-- Witness of claim C7: two boxes whose interiors overlap, moving towards each other. -/
theorem IntersectBoxBox_existing_overlap_witness :
    IntersectBoxBox (K := ℚ) ⟨0, 0, 0⟩ ⟨2, 2, 2⟩ ⟨1, 0, 0⟩ ⟨1, 1, 1⟩ ⟨3, 3, 3⟩ ⟨-1, 0, 0⟩
        = Except.ok (-1)
      ∧ IntersectBoxBox (K := ℚ) ⟨0, 0, 0⟩ ⟨2, 2, 2⟩ ⟨1, 0, 0⟩ ⟨1, 1, 1⟩ ⟨3, 3, 3⟩ ⟨1, 0, 0⟩
        = Except.ok (-1) :=
  ⟨(IntersectBoxBox_existing_overlap (K := ℚ) ⟨0, 0, 0⟩ ⟨2, 2, 2⟩ ⟨1, 0, 0⟩ ⟨1, 1, 1⟩ ⟨3, 3, 3⟩
      ⟨-1, 0, 0⟩).1 (by unfold BoxInteriorsOverlap InteriorsMeet; norm_num),
   (IntersectBoxBox_existing_overlap (K := ℚ) ⟨0, 0, 0⟩ ⟨2, 2, 2⟩ ⟨1, 0, 0⟩ ⟨1, 1, 1⟩ ⟨3, 3, 3⟩
      ⟨-1, 0, 0⟩).2⟩

end BoxBox

end geomath

namespace vec

/-- The value of `TVector.Normalize` over the reals for a vector that is not zero. -/
theorem Normalize_of_pos (v : TVector ℝ) (h : 0 < v.dot v) :
    v.Normalize Real.sqrt = Except.ok (v.scale (1 / Magnitude Real.sqrt v)) := by
  have hm : Real.sqrt (v.x * v.x + v.y * v.y + v.z * v.z) ≠ 0 :=
    ne_of_gt (Magnitude_pos v h)
  have h2 : v.x * v.x + v.y * v.y + v.z * v.z > 0 := h
  simp only [TVector.Normalize, h2, if_true, fdiv_eq_ok 1 hm]
  rfl

/-- The value of `TVector.Normalize` for the zero vector, whatever `sqrt` is. -/
theorem Normalize_of_not_pos {K : Type} [LinearOrderedField K] (sqrt : K → K)
    (v : TVector K) (h : ¬ 0 < v.dot v) :
    v.Normalize sqrt = Except.ok ⟨0, 0, 0⟩ := by
  have h2 : ¬ (v.x * v.x + v.y * v.y + v.z * v.z > 0) := h
  have hz := eq_zero_of_dot_self_not_pos v h
  simp only [TVector.Normalize, h2, if_false]
  rw [hz]
  rfl

theorem Magnitude_sub_comm (a b : TVector ℝ) :
    Magnitude Real.sqrt (a - b) = Magnitude Real.sqrt (b - a) := by
  simp only [Magnitude, sub_x, sub_y, sub_z]
  congr 1
  ring

/-- A normalised vector has squared magnitude one. -/
theorem dot_self_scale_inv_Magnitude (v : TVector ℝ) (h : 0 < v.dot v) :
    (v.scale (1 / Magnitude Real.sqrt v)).dot (v.scale (1 / Magnitude Real.sqrt v)) = 1 := by
  have hm := ne_of_gt (Magnitude_pos v h)
  have hmm := Magnitude_mul_self v
  simp only [dot_def, scale_x, scale_y, scale_z] at hmm ⊢
  field_simp
  linarith

end vec

namespace physics

open vec

/-- The value of `MObjMObjEffects` over the reals: the components along an axis `n`
are exchanged, where `n` is the unit vector along the line of centres, or the zero
vector when the centres coincide. -/
theorem MObjMObjEffects_value (v1 c1 v2 c2 : TVector ℝ) :
    ∃ n : TVector ℝ, (n.dot n = 1 ∨ n = ⟨0, 0, 0⟩)
      ∧ (c1 ≠ c2 → n = lineOfCentres Real.sqrt c1 c2)
      ∧ MObjMObjEffects Real.sqrt v1 c1 v2 c2 = Except.ok (exchangeAlong n v1 v2) := by
  by_cases hpos : 0 < (c2 - c1).dot (c2 - c1)
  · have hpos2 : 0 < (c1 - c2).dot (c1 - c2) := by
      have : (c1 - c2).dot (c1 - c2) = (c2 - c1).dot (c2 - c1) := by
        simp only [dot_def, sub_x, sub_y, sub_z]
        ring
      rw [this]
      exact hpos
    refine ⟨lineOfCentres Real.sqrt c1 c2, Or.inl (dot_self_scale_inv_Magnitude _ hpos),
      fun _ => rfl, ?_⟩
    simp only [MObjMObjEffects, Normalize_of_pos _ hpos, Normalize_of_pos _ hpos2, bind,
      Except.bind, Magnitude_sub_comm c1 c2, pure, Except.pure, exchangeAlong, lineOfCentres]
    congr 1
    refine Prod.ext ?_ ?_
    · ext <;> simp only [dot_def, add_x, add_y, add_z, sub_x, sub_y, sub_z, scale_x, scale_y,
        scale_z] <;> ring
    · ext <;> simp only [dot_def, add_x, add_y, add_z, sub_x, sub_y, sub_z, scale_x, scale_y,
        scale_z] <;> ring
  · have hpos2 : ¬ 0 < (c1 - c2).dot (c1 - c2) := by
      have : (c1 - c2).dot (c1 - c2) = (c2 - c1).dot (c2 - c1) := by
        simp only [dot_def, sub_x, sub_y, sub_z]
        ring
      rw [this]
      exact hpos
    refine ⟨⟨0, 0, 0⟩, Or.inr rfl, ?_, ?_⟩
    · intro hne
      exfalso
      apply hne
      have hz := eq_zero_of_dot_self_not_pos _ hpos
      have hx := congrArg TVector.x hz
      have hy := congrArg TVector.y hz
      have hzz := congrArg TVector.z hz
      simp only [sub_x, sub_y, sub_z] at hx hy hzz
      ext <;> linarith
    · simp only [MObjMObjEffects, Normalize_of_not_pos Real.sqrt _ hpos,
        Normalize_of_not_pos Real.sqrt _ hpos2, bind, Except.bind, pure, Except.pure,
        exchangeAlong]
      congr 1
      refine Prod.ext ?_ ?_
      · ext <;> simp only [dot_def, add_x, add_y, add_z, sub_x, sub_y, sub_z, scale_x, scale_y,
          scale_z] <;> ring
      · ext <;> simp only [dot_def, add_x, add_y, add_z, sub_x, sub_y, sub_z, scale_x, scale_y,
          scale_z] <;> ring

end physics

namespace physics

open vec

/-- Claim C8 (`MObjMObjEffects` exchanges the components along the line of centres).
For distinct centres and `n = (c2 - c1)/|c2 - c1|` the new velocities are
`v1 - (n·v1)n + (n·v2)n` and `v2 - (n·v2)n + (n·v1)n`: their components along `n`
are those of the other object before, their tangential parts are unchanged. Head-on
velocities `(v,0,0)` and `(-v,0,0)` with centres on the x axis become `(-v,0,0)` and
`(v,0,0)`. -/
theorem MObjMObjEffects_exchanges_normal (v1 c1 v2 c2 : TVector ℝ) (hc : c1 ≠ c2) :
    MObjMObjEffects Real.sqrt v1 c1 v2 c2
        = Except.ok (exchangeAlong (lineOfCentres Real.sqrt c1 c2) v1 v2)
      ∧ (lineOfCentres Real.sqrt c1 c2).dot
            (exchangeAlong (lineOfCentres Real.sqrt c1 c2) v1 v2).1
          = (lineOfCentres Real.sqrt c1 c2).dot v2
      ∧ (lineOfCentres Real.sqrt c1 c2).dot
            (exchangeAlong (lineOfCentres Real.sqrt c1 c2) v1 v2).2
          = (lineOfCentres Real.sqrt c1 c2).dot v1
      ∧ (exchangeAlong (lineOfCentres Real.sqrt c1 c2) v1 v2).1
            - (lineOfCentres Real.sqrt c1 c2).scale ((lineOfCentres Real.sqrt c1 c2).dot
                (exchangeAlong (lineOfCentres Real.sqrt c1 c2) v1 v2).1)
          = v1 - (lineOfCentres Real.sqrt c1 c2).scale
              ((lineOfCentres Real.sqrt c1 c2).dot v1)
      ∧ (exchangeAlong (lineOfCentres Real.sqrt c1 c2) v1 v2).2
            - (lineOfCentres Real.sqrt c1 c2).scale ((lineOfCentres Real.sqrt c1 c2).dot
                (exchangeAlong (lineOfCentres Real.sqrt c1 c2) v1 v2).2)
          = v2 - (lineOfCentres Real.sqrt c1 c2).scale
              ((lineOfCentres Real.sqrt c1 c2).dot v2)
      ∧ ∀ v a b : ℝ, a ≠ b →
          MObjMObjEffects Real.sqrt ⟨v, 0, 0⟩ ⟨a, 0, 0⟩ ⟨-v, 0, 0⟩ ⟨b, 0, 0⟩
            = Except.ok (⟨-v, 0, 0⟩, ⟨v, 0, 0⟩) := by
  obtain ⟨n, hn, hline, hval⟩ := MObjMObjEffects_value v1 c1 v2 c2
  have hnl := hline hc
  subst hnl
  have hn1 : (lineOfCentres Real.sqrt c1 c2).dot (lineOfCentres Real.sqrt c1 c2) = 1 := by
    rcases hn with h | h
    · exact h
    · exfalso
      apply hc
      have hm : 0 < (c2 - c1).dot (c2 - c1) := by
        apply dot_self_pos_of_ne_zero
        intro hz
        apply hc
        have hx := congrArg TVector.x hz
        have hy := congrArg TVector.y hz
        have hzz := congrArg TVector.z hz
        simp only [sub_x, sub_y, sub_z] at hx hy hzz
        ext <;> linarith
      have h1 := dot_self_scale_inv_Magnitude _ hm
      have h0 : (lineOfCentres Real.sqrt c1 c2).dot (lineOfCentres Real.sqrt c1 c2) = 0 := by
        rw [h]
        simp [dot_def]
      rw [lineOfCentres] at h0
      rw [h0] at h1
      exact absurd h1 zero_ne_one
  generalize lineOfCentres Real.sqrt c1 c2 = n at hval hn1
  refine ⟨hval, ?_, ?_, ?_, ?_, ?_⟩
  · simp only [exchangeAlong, dot_def, add_x, add_y, add_z, sub_x, sub_y, sub_z, scale_x,
      scale_y, scale_z] at hn1 ⊢
    linear_combination (n.x * v2.x + n.y * v2.y + n.z * v2.z
      - (n.x * v1.x + n.y * v1.y + n.z * v1.z)) * hn1
  · simp only [exchangeAlong, dot_def, add_x, add_y, add_z, sub_x, sub_y, sub_z, scale_x,
      scale_y, scale_z] at hn1 ⊢
    linear_combination (n.x * v1.x + n.y * v1.y + n.z * v1.z
      - (n.x * v2.x + n.y * v2.y + n.z * v2.z)) * hn1
  · simp only [exchangeAlong, dot_def] at hn1 ⊢
    ext <;> simp only [add_x, add_y, add_z, sub_x, sub_y, sub_z, scale_x, scale_y, scale_z]
    · linear_combination (-(n.x * (n.x * v2.x + n.y * v2.y + n.z * v2.z
        - (n.x * v1.x + n.y * v1.y + n.z * v1.z)))) * hn1
    · linear_combination (-(n.y * (n.x * v2.x + n.y * v2.y + n.z * v2.z
        - (n.x * v1.x + n.y * v1.y + n.z * v1.z)))) * hn1
    · linear_combination (-(n.z * (n.x * v2.x + n.y * v2.y + n.z * v2.z
        - (n.x * v1.x + n.y * v1.y + n.z * v1.z)))) * hn1
  · simp only [exchangeAlong, dot_def] at hn1 ⊢
    ext <;> simp only [add_x, add_y, add_z, sub_x, sub_y, sub_z, scale_x, scale_y, scale_z]
    · linear_combination (-(n.x * (n.x * v1.x + n.y * v1.y + n.z * v1.z
        - (n.x * v2.x + n.y * v2.y + n.z * v2.z)))) * hn1
    · linear_combination (-(n.y * (n.x * v1.x + n.y * v1.y + n.z * v1.z
        - (n.x * v2.x + n.y * v2.y + n.z * v2.z)))) * hn1
    · linear_combination (-(n.z * (n.x * v1.x + n.y * v1.y + n.z * v1.z
        - (n.x * v2.x + n.y * v2.y + n.z * v2.z)))) * hn1
  · intro v a b hab
    obtain ⟨m, hm, hmline, hmval⟩ :=
      MObjMObjEffects_value ⟨v, 0, 0⟩ ⟨a, 0, 0⟩ ⟨-v, 0, 0⟩ ⟨b, 0, 0⟩
    have hne : (⟨a, 0, 0⟩ : TVector ℝ) ≠ ⟨b, 0, 0⟩ := by
      intro h
      exact hab (congrArg TVector.x h)
    have hml := hmline hne
    have hy : m.y = 0 := by
      rw [hml]
      simp [lineOfCentres]
    have hz : m.z = 0 := by
      rw [hml]
      simp [lineOfCentres]
    have hm1 : m.x * m.x = 1 := by
      rcases hm with h | h
      · rw [dot_def, hy, hz] at h
        linarith
      · exfalso
        have hpos : 0 < ((⟨b, 0, 0⟩ : TVector ℝ) - ⟨a, 0, 0⟩).dot (⟨b, 0, 0⟩ - ⟨a, 0, 0⟩) := by
          apply dot_self_pos_of_ne_zero
          intro hzero
          have hx := congrArg TVector.x hzero
          simp only [sub_x] at hx
          exact hab (by linarith)
        have h1 := dot_self_scale_inv_Magnitude _ hpos
        rw [hml] at h
        rw [lineOfCentres] at h
        rw [h] at h1
        simp [dot_def] at h1
    rw [hmval]
    congr 1
    refine Prod.ext ?_ ?_
    · ext <;> simp only [exchangeAlong, dot_def, add_x, add_y, add_z, sub_x, sub_y, sub_z,
        scale_x, scale_y, scale_z, hy, hz]
      · linear_combination (-2 * v) * hm1
      · ring
      · ring
    · ext <;> simp only [exchangeAlong, dot_def, add_x, add_y, add_z, sub_x, sub_y, sub_z,
        scale_x, scale_y, scale_z, hy, hz]
      · linear_combination (2 * v) * hm1
      · ring
      · ring

end physics

namespace physics

open vec

/-- Witness of claim C8: centres (0,0,0) and (4,0,0), velocities (3,1,0) and (-3,2,0). -/
theorem MObjMObjEffects_exchanges_normal_witness :
    MObjMObjEffects Real.sqrt ⟨3, 1, 0⟩ ⟨0, 0, 0⟩ ⟨-3, 2, 0⟩ ⟨4, 0, 0⟩
      = Except.ok (exchangeAlong (lineOfCentres Real.sqrt ⟨0, 0, 0⟩ ⟨4, 0, 0⟩)
          ⟨3, 1, 0⟩ ⟨-3, 2, 0⟩) :=
  (MObjMObjEffects_exchanges_normal ⟨3, 1, 0⟩ ⟨0, 0, 0⟩ ⟨-3, 2, 0⟩ ⟨4, 0, 0⟩
    (by
      intro h
      have hx := congrArg TVector.x h
      norm_num at hx)).1

/-- Claim C9 (`MObjMObjEffects` conserves momentum and kinetic energy). For all
velocities and all centres, coincident centres included, the function returns new
velocities whose sum and whose sum of squared magnitudes are those of the old ones. -/
theorem MObjMObjEffects_conserves (v1 c1 v2 c2 : TVector ℝ) :
    ∃ w1 w2 : TVector ℝ, MObjMObjEffects Real.sqrt v1 c1 v2 c2 = Except.ok (w1, w2)
      ∧ w1 + w2 = v1 + v2
      ∧ w1.dot w1 + w2.dot w2 = v1.dot v1 + v2.dot v2 := by
  obtain ⟨n, hn, _, hval⟩ := MObjMObjEffects_value v1 c1 v2 c2
  refine ⟨(exchangeAlong n v1 v2).1, (exchangeAlong n v1 v2).2, hval, ?_, ?_⟩
  · ext <;> simp only [exchangeAlong, add_x, add_y, add_z, sub_x, sub_y, sub_z, scale_x,
      scale_y, scale_z] <;> ring
  · rcases hn with h1 | h0
    · simp only [exchangeAlong, dot_def, add_x, add_y, add_z, sub_x, sub_y, sub_z, scale_x,
        scale_y, scale_z] at h1 ⊢
      linear_combination (2 * (n.x * v1.x + n.y * v1.y + n.z * v1.z
        - (n.x * v2.x + n.y * v2.y + n.z * v2.z)) ^ 2) * h1
    · subst h0
      simp only [exchangeAlong, dot_def, add_x, add_y, add_z, sub_x, sub_y, sub_z, scale_x,
        scale_y, scale_z]
      ring

end physics

namespace physics

open vec

section StaticObject

variable {K : Type} [LinearOrderedField K]

/-- Claim C10 (`MObjSObjEffects` reflects the velocity about the plane normal). For a
unit normal `n` and a restitution `e` in `[0,1]` the new velocity is
`v - (1+e)(v·n)n`; its component along the normal is `-e·(v·n)` and its tangential
part is that of `v`. With `e = 1/2` and `v·n = -10` the outgoing normal component
is 5. -/
theorem MObjSObjEffects_reflects (v n : TVector K) (e : K)
    (hn : n.dot n = 1) (he0 : 0 ≤ e) (he1 : e ≤ 1) :
    MObjSObjEffects v n e = Except.ok (v - lscale ((1 + e) * v.dot n) n)
      ∧ (v - lscale ((1 + e) * v.dot n) n).dot n = -e * v.dot n
      ∧ (v - lscale ((1 + e) * v.dot n) n)
            - lscale ((v - lscale ((1 + e) * v.dot n) n).dot n) n
          = v - lscale (v.dot n) n
      ∧ (e = 1 / 2 → v.dot n = -10 → (v - lscale ((1 + e) * v.dot n) n).dot n = 5) := by
  have hdot : (v - lscale ((1 + e) * v.dot n) n).dot n = -e * v.dot n := by
    simp only [dot_def, sub_x, sub_y, sub_z, lscale_x, lscale_y, lscale_z] at hn ⊢
    linear_combination (-((1 + e) * (v.x * n.x + v.y * n.y + v.z * n.z))) * hn
  refine ⟨?_, hdot, ?_, ?_⟩
  · have hassert : ¬ ¬ (e ≥ 0 ∧ e ≤ 1) := not_not.mpr ⟨he0, he1⟩
    rw [MObjSObjEffects, if_neg hassert]
    simp only [pure, Except.pure]
    congr 1
    ext <;> simp only [dot_def, add_x, add_y, add_z, sub_x, sub_y, sub_z, neg_x, neg_y, neg_z,
      lscale_x, lscale_y, lscale_z] <;> ring
  · rw [hdot]
    ext <;> simp only [dot_def, sub_x, sub_y, sub_z, lscale_x, lscale_y, lscale_z] <;> ring
  · intro he hv
    rw [hdot, he, hv]
    norm_num

/-- Witness of claim C10: the velocity (3,-10,0) against the floor normal (0,1,0) with
restitution 1/2; the outgoing velocity along the normal is 5. -/
theorem MObjSObjEffects_reflects_witness :
    MObjSObjEffects (K := ℚ) ⟨3, -10, 0⟩ ⟨0, 1, 0⟩ (1 / 2) = Except.ok ⟨3, 5, 0⟩
      ∧ TVector.dot (K := ℚ) ⟨3, 5, 0⟩ ⟨0, 1, 0⟩ = 5 := by
  have h := MObjSObjEffects_reflects (K := ℚ) ⟨3, -10, 0⟩ ⟨0, 1, 0⟩ (1 / 2)
    (by norm_num [dot_def]) (by norm_num) (by norm_num)
  have hv : (⟨3, -10, 0⟩ : TVector ℚ) - lscale ((1 + 1 / 2) * TVector.dot ⟨3, -10, 0⟩ ⟨0, 1, 0⟩)
      ⟨0, 1, 0⟩ = ⟨3, 5, 0⟩ := by
    ext <;> simp only [dot_def, sub_x, sub_y, sub_z, lscale_x, lscale_y, lscale_z] <;> norm_num
  rw [hv] at h
  exact ⟨h.1, h.2.2.2 rfl (by norm_num [dot_def])⟩

end StaticObject

end physics

namespace physics

open vec

/-- The values of `MObjMObjEffects` and `MObjMObjEffects2` over the reals, along one
and the same axis `n`: the unit vector along the line of centres, or the zero vector
when the centres coincide. -/
theorem MObjMObjEffects2_value (v1 c1 v2 c2 : TVector ℝ) :
    ∃ n : TVector ℝ, (n.dot n = 1 ∨ n = ⟨0, 0, 0⟩)
      ∧ MObjMObjEffects Real.sqrt v1 c1 v2 c2 = Except.ok (exchangeAlong n v1 v2)
      ∧ MObjMObjEffects2 Real.sqrt v1 c1 v2 c2
          = Except.ok (exchangeNormalAndTangential n v1 v2) := by
  have hsymm : (c1 - c2).dot (c1 - c2) = (c2 - c1).dot (c2 - c1) := by
    simp only [dot_def, sub_x, sub_y, sub_z]
    ring
  by_cases hpos : 0 < (c2 - c1).dot (c2 - c1)
  · have hpos2 : 0 < (c1 - c2).dot (c1 - c2) := by
      rw [hsymm]
      exact hpos
    refine ⟨lineOfCentres Real.sqrt c1 c2, Or.inl (dot_self_scale_inv_Magnitude _ hpos), ?_, ?_⟩
    · simp only [MObjMObjEffects, Normalize_of_pos _ hpos, Normalize_of_pos _ hpos2, bind,
        Except.bind, Magnitude_sub_comm c1 c2, pure, Except.pure, exchangeAlong, lineOfCentres]
      congr 1
      refine Prod.ext ?_ ?_
      · ext <;> simp only [dot_def, add_x, add_y, add_z, sub_x, sub_y, sub_z, scale_x, scale_y,
          scale_z] <;> ring
      · ext <;> simp only [dot_def, add_x, add_y, add_z, sub_x, sub_y, sub_z, scale_x, scale_y,
          scale_z] <;> ring
    · simp only [MObjMObjEffects2, Normalize_of_pos _ hpos, Normalize_of_pos _ hpos2, bind,
        Except.bind, Magnitude_sub_comm c1 c2, pure, Except.pure, exchangeNormalAndTangential,
        lineOfCentres]
      congr 1
      refine Prod.ext ?_ ?_
      · ext <;> simp only [dot_def, add_x, add_y, add_z, sub_x, sub_y, sub_z, scale_x, scale_y,
          scale_z] <;> ring
      · ext <;> simp only [dot_def, add_x, add_y, add_z, sub_x, sub_y, sub_z, scale_x, scale_y,
          scale_z] <;> ring
  · have hpos2 : ¬ 0 < (c1 - c2).dot (c1 - c2) := by
      rw [hsymm]
      exact hpos
    refine ⟨⟨0, 0, 0⟩, Or.inr rfl, ?_, ?_⟩
    · simp only [MObjMObjEffects, Normalize_of_not_pos Real.sqrt _ hpos,
        Normalize_of_not_pos Real.sqrt _ hpos2, bind, Except.bind, pure, Except.pure,
        exchangeAlong]
      congr 1
      refine Prod.ext ?_ ?_
      · ext <;> simp only [dot_def, add_x, add_y, add_z, sub_x, sub_y, sub_z, scale_x, scale_y,
          scale_z] <;> ring
      · ext <;> simp only [dot_def, add_x, add_y, add_z, sub_x, sub_y, sub_z, scale_x, scale_y,
          scale_z] <;> ring
    · simp only [MObjMObjEffects2, Normalize_of_not_pos Real.sqrt _ hpos,
        Normalize_of_not_pos Real.sqrt _ hpos2, bind, Except.bind, pure, Except.pure,
        exchangeNormalAndTangential]
      congr 1
      refine Prod.ext ?_ ?_
      · ext <;> simp only [dot_def, add_x, add_y, add_z, sub_x, sub_y, sub_z, scale_x, scale_y,
          scale_z] <;> ring
      · ext <;> simp only [dot_def, add_x, add_y, add_z, sub_x, sub_y, sub_z, scale_x, scale_y,
          scale_z] <;> ring

/-- Exchanging both the normal and the tangential parts swaps the two velocities,
whatever the axis is. -/
theorem exchangeNormalAndTangential_eq_swap {K : Type} [LinearOrderedField K]
    (n v1 v2 : TVector K) : exchangeNormalAndTangential n v1 v2 = (v2, v1) := by
  refine Prod.ext ?_ ?_
  · ext <;> simp only [exchangeNormalAndTangential, add_x, add_y, add_z, sub_x, sub_y, sub_z,
      scale_x, scale_y, scale_z] <;> ring
  · ext <;> simp only [exchangeNormalAndTangential, add_x, add_y, add_z, sub_x, sub_y, sub_z,
      scale_x, scale_y, scale_z] <;> ring

/-- Claim C11 (`MObjMObjEffects2` swaps the two velocities). For all velocities and
all centres the function returns `(v2, v1)`. It is the exchange of the normal and of
the tangential parts along the axis `n` that `MObjMObjEffects` uses, and the parts
along `n` of its two results are those of the results of `MObjMObjEffects`. -/
theorem MObjMObjEffects2_swaps (v1 c1 v2 c2 : TVector ℝ) :
    MObjMObjEffects2 Real.sqrt v1 c1 v2 c2 = Except.ok (v2, v1)
      ∧ ∃ n w1 w2 : TVector ℝ,
          MObjMObjEffects Real.sqrt v1 c1 v2 c2 = Except.ok (w1, w2)
            ∧ (w1, w2) = exchangeAlong n v1 v2
            ∧ MObjMObjEffects2 Real.sqrt v1 c1 v2 c2
                = Except.ok (exchangeNormalAndTangential n v1 v2)
            ∧ n.dot w1 = n.dot v2 ∧ n.dot w2 = n.dot v1 := by
  obtain ⟨n, hn, h1, h2⟩ := MObjMObjEffects2_value v1 c1 v2 c2
  refine ⟨by rw [h2, exchangeNormalAndTangential_eq_swap], n, (exchangeAlong n v1 v2).1,
    (exchangeAlong n v1 v2).2, h1, rfl, h2, ?_, ?_⟩
  · rcases hn with hn1 | hn0
    · simp only [exchangeAlong, dot_def, add_x, add_y, add_z, sub_x, sub_y, sub_z, scale_x,
        scale_y, scale_z] at hn1 ⊢
      linear_combination (n.x * v2.x + n.y * v2.y + n.z * v2.z
        - (n.x * v1.x + n.y * v1.y + n.z * v1.z)) * hn1
    · subst hn0
      simp [dot_def]
  · rcases hn with hn1 | hn0
    · simp only [exchangeAlong, dot_def, add_x, add_y, add_z, sub_x, sub_y, sub_z, scale_x,
        scale_y, scale_z] at hn1 ⊢
      linear_combination (n.x * v1.x + n.y * v1.y + n.z * v1.z
        - (n.x * v2.x + n.y * v2.y + n.z * v2.z)) * hn1
    · subst hn0
      simp [dot_def]

end physics

section CornerFacts

open vec

variable {K : Type}

/-- Every corner index from 0 to 7 gives a corner, each of whose coordinates is the
one of `minv` or the one of `maxv`. -/
theorem TAABB.GetVertex_coords (b : TAABB K) (i : Int) (h0 : 0 ≤ i) (h7 : i ≤ 7) :
    ∃ v, b.GetVertex i = Except.ok v
      ∧ (v.x = b.minv.x ∨ v.x = b.maxv.x) ∧ (v.y = b.minv.y ∨ v.y = b.maxv.y)
      ∧ (v.z = b.minv.z ∨ v.z = b.maxv.z) := by
  have hge : i ≥ 0 := h0
  refine ⟨_, by simp only [TAABB.GetVertex, hge, h7, not_true_eq_false, if_false]; rfl, ?_, ?_, ?_⟩
  · by_cases h : Int.land i 1 ≠ 0
    · exact Or.inr (if_pos h)
    · exact Or.inl (if_neg h)
  · by_cases h : Int.land i 2 ≠ 0
    · exact Or.inr (if_pos h)
    · exact Or.inl (if_neg h)
  · by_cases h : Int.land i 4 ≠ 0
    · exact Or.inr (if_pos h)
    · exact Or.inl (if_neg h)

/-- The corner with the chosen coordinates: bit 0 of the index selects x, bit 1
selects y, bit 2 selects z. -/
theorem TAABB.GetVertex_select (b : TAABB K) (bx bY bz : Bool) :
    ∃ i : Int, 0 ≤ i ∧ i ≤ 7 ∧ b.GetVertex i
      = Except.ok ⟨if bx then b.maxv.x else b.minv.x, if bY then b.maxv.y else b.minv.y,
          if bz then b.maxv.z else b.minv.z⟩ := by
  refine ⟨(if bx then 1 else 0) + (if bY then 2 else 0) + (if bz then 4 else 0), ?_, ?_, ?_⟩
  · cases bx <;> cases bY <;> cases bz <;> decide
  · cases bx <;> cases bY <;> cases bz <;> decide
  · cases bx <;> cases bY <;> cases bz <;> rfl

end CornerFacts

namespace geomath

open vec

section Projections

variable {K : Type} [LinearOrderedField K]

/-- For a coordinate `c` between `lo` and `hi`, the product `a * c` lies between the
two products chosen by the sign of `a`. -/
theorem select_le_mul (a lo hi c : K) (h1 : lo ≤ c) (h2 : c ≤ hi) :
    (if a > 0 then a * lo else a * hi) ≤ a * c
      ∧ a * c ≤ (if a > 0 then a * hi else a * lo) := by
  by_cases ha : a > 0
  · rw [if_pos ha, if_pos ha]
    exact ⟨mul_le_mul_of_nonneg_left h1 (le_of_lt ha), mul_le_mul_of_nonneg_left h2 (le_of_lt ha)⟩
  · rw [if_neg ha, if_neg ha]
    have ha2 : a ≤ 0 := not_lt.mp ha
    exact ⟨mul_le_mul_of_nonpos_left h2 ha2, mul_le_mul_of_nonpos_left h1 ha2⟩

/-- Claim C19 (`minD` and `maxD` of `IntersectBoxPlane` are the extreme corner
projections). For a well-formed box and every normal `n`, the projection `n·v` of
each of the 8 corners `v = GetVertex(i)`, `i = 0..7`, lies between `minD` and `maxD`,
and both values are the projection of one of the corners. -/
theorem IntersectBoxPlane_minD_maxD_extrema (b : TAABB K) (n : TVector K)
    (hw : WellFormedBox b.minv b.maxv) :
    (∀ i : Int, 0 ≤ i → i ≤ 7 → ∃ v, b.GetVertex i = Except.ok v
        ∧ IntersectBoxPlane.minD n b.minv b.maxv ≤ n.dot v
        ∧ n.dot v ≤ IntersectBoxPlane.maxD n b.minv b.maxv)
      ∧ (∃ i : Int, 0 ≤ i ∧ i ≤ 7 ∧ ∃ v, b.GetVertex i = Except.ok v
          ∧ n.dot v = IntersectBoxPlane.minD n b.minv b.maxv)
      ∧ (∃ i : Int, 0 ≤ i ∧ i ≤ 7 ∧ ∃ v, b.GetVertex i = Except.ok v
          ∧ n.dot v = IntersectBoxPlane.maxD n b.minv b.maxv) := by
  obtain ⟨hx, hy, hz⟩ := hw
  refine ⟨?_, ?_, ?_⟩
  · intro i h0 h7
    obtain ⟨v, hv, hvx, hvy, hvz⟩ := b.GetVertex_coords i h0 h7
    have bx : b.minv.x ≤ v.x ∧ v.x ≤ b.maxv.x := by
      rcases hvx with h | h <;> rw [h] <;> exact ⟨by linarith, by linarith⟩
    have bY : b.minv.y ≤ v.y ∧ v.y ≤ b.maxv.y := by
      rcases hvy with h | h <;> rw [h] <;> exact ⟨by linarith, by linarith⟩
    have bz : b.minv.z ≤ v.z ∧ v.z ≤ b.maxv.z := by
      rcases hvz with h | h <;> rw [h] <;> exact ⟨by linarith, by linarith⟩
    have ex := select_le_mul n.x _ _ _ bx.1 bx.2
    have ey := select_le_mul n.y _ _ _ bY.1 bY.2
    have ez := select_le_mul n.z _ _ _ bz.1 bz.2
    refine ⟨v, hv, ?_, ?_⟩
    · simp only [IntersectBoxPlane.minD, dot_def]
      linarith [ex.1, ey.1, ez.1]
    · simp only [IntersectBoxPlane.maxD, dot_def]
      linarith [ex.2, ey.2, ez.2]
  · obtain ⟨i, h0, h7, hv⟩ :=
      b.GetVertex_select (!decide (n.x > 0)) (!decide (n.y > 0)) (!decide (n.z > 0))
    refine ⟨i, h0, h7, _, hv, ?_⟩
    simp only [IntersectBoxPlane.minD, dot_def]
    by_cases h1 : n.x > 0 <;> by_cases h2 : n.y > 0 <;> by_cases h3 : n.z > 0 <;>
      simp only [h1, h2, h3, decide_True, decide_False, Bool.not_true, Bool.not_false,
        if_true, if_false, Bool.false_eq_true]
  · obtain ⟨i, h0, h7, hv⟩ :=
      b.GetVertex_select (decide (n.x > 0)) (decide (n.y > 0)) (decide (n.z > 0))
    refine ⟨i, h0, h7, _, hv, ?_⟩
    simp only [IntersectBoxPlane.maxD, dot_def]
    by_cases h1 : n.x > 0 <;> by_cases h2 : n.y > 0 <;> by_cases h3 : n.z > 0 <;>
      simp only [h1, h2, h3, decide_True, decide_False, Bool.not_true, Bool.not_false,
        if_true, if_false, Bool.false_eq_true]

/-- Witness of claim C19: the box from (0,0,0) to (1,2,3) and the normal (1,-1,0). -/
theorem IntersectBoxPlane_minD_maxD_extrema_witness :
    (∀ i : Int, 0 ≤ i → i ≤ 7 → ∃ v, TAABB.GetVertex (K := ℚ) ⟨⟨0, 0, 0⟩, ⟨1, 2, 3⟩⟩ i = Except.ok v
        ∧ IntersectBoxPlane.minD (K := ℚ) ⟨1, -1, 0⟩ ⟨0, 0, 0⟩ ⟨1, 2, 3⟩ ≤ TVector.dot ⟨1, -1, 0⟩ v
        ∧ TVector.dot ⟨1, -1, 0⟩ v ≤ IntersectBoxPlane.maxD (K := ℚ) ⟨1, -1, 0⟩ ⟨0, 0, 0⟩ ⟨1, 2, 3⟩)
      ∧ (∃ i : Int, 0 ≤ i ∧ i ≤ 7 ∧ ∃ v, TAABB.GetVertex (K := ℚ) ⟨⟨0, 0, 0⟩, ⟨1, 2, 3⟩⟩ i
            = Except.ok v
          ∧ TVector.dot ⟨1, -1, 0⟩ v = IntersectBoxPlane.minD (K := ℚ) ⟨1, -1, 0⟩ ⟨0, 0, 0⟩ ⟨1, 2, 3⟩)
      ∧ (∃ i : Int, 0 ≤ i ∧ i ≤ 7 ∧ ∃ v, TAABB.GetVertex (K := ℚ) ⟨⟨0, 0, 0⟩, ⟨1, 2, 3⟩⟩ i
            = Except.ok v
          ∧ TVector.dot ⟨1, -1, 0⟩ v
            = IntersectBoxPlane.maxD (K := ℚ) ⟨1, -1, 0⟩ ⟨0, 0, 0⟩ ⟨1, 2, 3⟩) :=
  IntersectBoxPlane_minD_maxD_extrema (K := ℚ) ⟨⟨0, 0, 0⟩, ⟨1, 2, 3⟩⟩ ⟨1, -1, 0⟩
    (by unfold WellFormedBox; norm_num)

/-- Moving the box by `u` moves `minD` by `n·u`. -/
theorem IntersectBoxPlane.minD_add (n box_min box_max u : TVector K) :
    IntersectBoxPlane.minD n (box_min + u) (box_max + u)
      = IntersectBoxPlane.minD n box_min box_max + n.dot u := by
  simp only [IntersectBoxPlane.minD, dot_def, add_x, add_y, add_z]
  split_ifs <;> ring

end Projections

end geomath

namespace geomath

open vec

/-- The glancing angle `theta` of `IntersectBoxPlane` over the reals: the value of
`Normalized` and the sign of its product with the normal. -/
theorem Normalized_dot (v n : TVector ℝ) :
    ∃ dn, Normalized Real.sqrt v = Except.ok dn
      ∧ (0 ≤ n.dot dn ↔ 0 ≤ n.dot v)
      ∧ (0 < v.dot v → n.dot dn = n.dot v / Magnitude Real.sqrt v) := by
  by_cases hv0 : 0 < v.dot v
  · have hm := Magnitude_pos v hv0
    have hd : n.dot (v.scale (1 / Magnitude Real.sqrt v)) = n.dot v / Magnitude Real.sqrt v := by
      simp only [dot_def, scale_x, scale_y, scale_z]
      field_simp
    refine ⟨_, Normalized_of_pos v hv0, ?_, fun _ => hd⟩
    rw [hd]
    constructor
    · intro h
      by_contra hc
      rw [not_le] at hc
      exact absurd h (not_le.mpr (div_neg_of_neg_of_pos hc hm))
    · intro h
      exact div_nonneg h (le_of_lt hm)
  · refine ⟨_, Normalized_of_not_pos Real.sqrt v hv0, ?_, fun h => absurd h hv0⟩
    have hz := eq_zero_of_dot_self_not_pos v hv0
    rw [hz]

/-- The value of `IntersectBoxPlane` over the reals for a unit normal. -/
theorem IntersectBoxPlane_value (box_min box_max v p n : TVector ℝ) (hn : n.dot n = 1) :
    IntersectBoxPlane Real.sqrt box_min box_max v p n
      = Except.ok
          (if 0 ≤ n.dot v then -1
           else if IntersectBoxPlane.maxD n box_min box_max ≤ n.dot p then -1
           else if n.dot p - IntersectBoxPlane.minD n box_min box_max > 0 then 0
           else (n.dot p - IntersectBoxPlane.minD n box_min box_max) / n.dot v) := by
  have hassert : |n.dot n - 1| < 1 / 100 := by rw [hn]; norm_num
  obtain ⟨dn, hdn, hsign, hval⟩ := Normalized_dot v n
  simp only [IntersectBoxPlane, hassert, not_true_eq_false, if_false, hdn, bind, Except.bind]
  by_cases h1 : 0 ≤ n.dot v
  · have h1b : n.dot dn ≥ 0 := hsign.mpr h1
    rw [if_pos h1b, if_pos h1]
    rfl
  · have h1b : ¬ (n.dot dn ≥ 0) := fun h => h1 (hsign.mp h)
    rw [if_neg h1b, if_neg h1]
    by_cases h2 : IntersectBoxPlane.maxD n box_min box_max ≤ n.dot p
    · rw [if_pos h2, if_pos h2]
      rfl
    · rw [if_neg h2, if_neg h2]
      have hv0 : 0 < v.dot v := by
        by_contra hc
        have hz := eq_zero_of_dot_self_not_pos v hc
        rw [hz] at h1
        simp [dot_def] at h1
      have hm := Magnitude_pos v hv0
      have hth := hval hv0
      have hneg : n.dot v < 0 := not_le.mp h1
      have hthneg : n.dot dn < 0 := by
        rw [hth]
        exact div_neg_of_neg_of_pos hneg hm
      rw [fdiv_eq_ok _ (ne_of_lt hthneg)]
      by_cases h3 : n.dot p - IntersectBoxPlane.minD n box_min box_max > 0
      · have h3b : (n.dot p - IntersectBoxPlane.minD n box_min box_max) / n.dot dn < 0 :=
          div_neg_of_pos_of_neg h3 hthneg
        simp only [h3b, if_true, h3]
        rfl
      · have h3b : ¬ ((n.dot p - IntersectBoxPlane.minD n box_min box_max) / n.dot dn < 0) := by
          rw [not_lt]
          exact div_nonneg_of_nonpos (not_lt.mp h3) (le_of_lt hthneg)
        simp only [h3b, if_false, h3, fdiv_eq_ok _ (ne_of_gt hm)]
        congr 1
        rw [hth]
        have hm0 := ne_of_gt hm
        have hv1 := ne_of_lt hneg
        field_simp
        ring

/-- Claim C18 (`IntersectBoxPlane`, the supporting corner reaches the plane). For a
unit normal `n`, a displacement `v` with `n·v < 0` and a box whose value `minD` is at
least the plane distance `p·n` and whose value `maxD` is greater than it, the function
returns `t = (p·n - minD)/(n·v)`, which is not negative, and the value `minD` of the
box moved by `t·v` is the plane distance. For a well-formed box `minD` and `maxD` are
the minimum and the maximum projection of the box onto `n`. -/
theorem IntersectBoxPlane_supporting_corner (box_min box_max v p n : TVector ℝ)
    (hn : n.dot n = 1) (hv : n.dot v < 0)
    (hmin : p.dot n ≤ IntersectBoxPlane.minD n box_min box_max)
    (hmax : p.dot n < IntersectBoxPlane.maxD n box_min box_max) :
    IntersectBoxPlane Real.sqrt box_min box_max v p n
        = Except.ok ((p.dot n - IntersectBoxPlane.minD n box_min box_max) / n.dot v)
      ∧ 0 ≤ (p.dot n - IntersectBoxPlane.minD n box_min box_max) / n.dot v
      ∧ IntersectBoxPlane.minD n
            (box_min + v.scale ((p.dot n - IntersectBoxPlane.minD n box_min box_max) / n.dot v))
            (box_max + v.scale ((p.dot n - IntersectBoxPlane.minD n box_min box_max) / n.dot v))
          = p.dot n := by
  have hpn : p.dot n = n.dot p := by
    simp only [dot_def]
    ring
  rw [hpn] at hmin hmax ⊢
  refine ⟨?_, ?_, ?_⟩
  · rw [IntersectBoxPlane_value _ _ _ _ _ hn, if_neg (not_le.mpr hv), if_neg (not_le.mpr hmax),
      if_neg (by linarith)]
  · exact div_nonneg_of_nonpos (by linarith) (le_of_lt hv)
  · rw [IntersectBoxPlane.minD_add]
    have hv1 := ne_of_lt hv
    simp only [dot_def, scale_x, scale_y, scale_z] at hv1 ⊢
    field_simp
    ring

/-- Witness of claim C18: the unit box two units above the floor `y = 0`, falling by
four units. -/
theorem IntersectBoxPlane_supporting_corner_witness :
    IntersectBoxPlane Real.sqrt ⟨0, 2, 0⟩ ⟨1, 3, 1⟩ ⟨0, -4, 0⟩ ⟨0, 0, 0⟩ ⟨0, 1, 0⟩
      = Except.ok ((TVector.dot (⟨0, 0, 0⟩ : TVector ℝ) ⟨0, 1, 0⟩
          - IntersectBoxPlane.minD (⟨0, 1, 0⟩ : TVector ℝ) ⟨0, 2, 0⟩ ⟨1, 3, 1⟩)
          / TVector.dot (⟨0, 1, 0⟩ : TVector ℝ) ⟨0, -4, 0⟩) :=
  (IntersectBoxPlane_supporting_corner ⟨0, 2, 0⟩ ⟨1, 3, 1⟩ ⟨0, -4, 0⟩ ⟨0, 0, 0⟩ ⟨0, 1, 0⟩
    (by norm_num [dot_def]) (by norm_num [dot_def])
    (by norm_num [dot_def, IntersectBoxPlane.minD])
    (by norm_num [dot_def, IntersectBoxPlane.maxD])).1

/-- Claim C20 (`IntersectBoxPlane` returns -1 exactly for a box that moves away or that
is on the far side). For a unit normal `n` the function returns a value; the value is
-1 if and only if `n·v ≥ 0` (moving away or parallel, `v = 0` included) or `maxD` is
at most the plane distance `p·n`, and in every other case it is not negative. -/
theorem IntersectBoxPlane_rejects_iff (box_min box_max v p n : TVector ℝ)
    (hn : n.dot n = 1) :
    ∃ t, IntersectBoxPlane Real.sqrt box_min box_max v p n = Except.ok t
      ∧ (t = -1 ↔ (0 ≤ n.dot v ∨ IntersectBoxPlane.maxD n box_min box_max ≤ p.dot n))
      ∧ (¬ (0 ≤ n.dot v ∨ IntersectBoxPlane.maxD n box_min box_max ≤ p.dot n) → 0 ≤ t) := by
  have hpn : p.dot n = n.dot p := by
    simp only [dot_def]
    ring
  rw [hpn]
  refine ⟨_, IntersectBoxPlane_value _ _ _ _ _ hn, ?_, ?_⟩
  · by_cases h1 : 0 ≤ n.dot v
    · rw [if_pos h1]
      exact ⟨fun _ => Or.inl h1, fun _ => rfl⟩
    · rw [if_neg h1]
      by_cases h2 : IntersectBoxPlane.maxD n box_min box_max ≤ n.dot p
      · rw [if_pos h2]
        exact ⟨fun _ => Or.inr h2, fun _ => rfl⟩
      · rw [if_neg h2]
        have hno : ¬ (0 ≤ n.dot v ∨ IntersectBoxPlane.maxD n box_min box_max ≤ n.dot p) := by
          rintro (h | h)
          · exact h1 h
          · exact h2 h
        by_cases h3 : n.dot p - IntersectBoxPlane.minD n box_min box_max > 0
        · rw [if_pos h3]
          constructor
          · intro h
            norm_num at h
          · intro h
            exact absurd h hno
        · rw [if_neg h3]
          constructor
          · intro h
            have hnn : 0 ≤ (n.dot p - IntersectBoxPlane.minD n box_min box_max) / n.dot v :=
              div_nonneg_of_nonpos (not_lt.mp h3) (le_of_lt (not_le.mp h1))
            rw [h] at hnn
            norm_num at hnn
          · intro h
            exact absurd h hno
  · intro hno
    rw [not_or] at hno
    rw [if_neg hno.1, if_neg hno.2]
    by_cases h3 : n.dot p - IntersectBoxPlane.minD n box_min box_max > 0
    · rw [if_pos h3]
    · rw [if_neg h3]
      exact div_nonneg_of_nonpos (not_lt.mp h3) (le_of_lt (not_le.mp hno.1))

/-- Witness of claim C20: the unit box two units above the floor `y = 0`, falling by
four units, reaches the floor at 1/2. -/
theorem IntersectBoxPlane_rejects_iff_witness :
    ∃ t, IntersectBoxPlane Real.sqrt ⟨0, 2, 0⟩ ⟨1, 3, 1⟩ ⟨0, -4, 0⟩ ⟨0, 0, 0⟩ ⟨0, 1, 0⟩
        = Except.ok t
      ∧ (t = -1 ↔ (0 ≤ TVector.dot (⟨0, 1, 0⟩ : TVector ℝ) ⟨0, -4, 0⟩
          ∨ IntersectBoxPlane.maxD (⟨0, 1, 0⟩ : TVector ℝ) ⟨0, 2, 0⟩ ⟨1, 3, 1⟩
              ≤ TVector.dot (⟨0, 0, 0⟩ : TVector ℝ) ⟨0, 1, 0⟩))
      ∧ (¬ (0 ≤ TVector.dot (⟨0, 1, 0⟩ : TVector ℝ) ⟨0, -4, 0⟩
          ∨ IntersectBoxPlane.maxD (⟨0, 1, 0⟩ : TVector ℝ) ⟨0, 2, 0⟩ ⟨1, 3, 1⟩
              ≤ TVector.dot (⟨0, 0, 0⟩ : TVector ℝ) ⟨0, 1, 0⟩) → 0 ≤ t) :=
  IntersectBoxPlane_rejects_iff ⟨0, 2, 0⟩ ⟨1, 3, 1⟩ ⟨0, -4, 0⟩ ⟨0, 0, 0⟩ ⟨0, 1, 0⟩
    (by norm_num [dot_def])

end geomath

/-! ## The scheduler: general facts -/

section MonadFacts

theorem bind_eq_ok {α β : Type} (x : Except Fault α) (f : α → Except Fault β) (b : β) :
    (x >>= f) = Except.ok b ↔ ∃ a, x = Except.ok a ∧ f a = Except.ok b := by
  cases x with
  | error e => simp [bind, Except.bind]
  | ok a => simp [bind, Except.bind]

theorem getAt_eq_ok {α : Type} (l : List α) (i : Nat) (a : α) :
    getAt l i = Except.ok a ↔ l[i]? = some a := by
  unfold getAt
  cases h : l[i]? with
  | none => simp
  | some b =>
    simp only [Option.some.injEq]
    constructor
    · intro hb
      injection hb
    · intro hb
      rw [hb]

end MonadFacts

namespace CCollisions

open vec matrix geomath physics

theorem SameWorld.refl {K : Type} (s : CCollisions K) : SameWorld s s :=
  ⟨rfl, rfl, rfl, rfl, rfl, rfl, rfl, rfl⟩

theorem SameWorld.trans {K : Type} {s1 s2 s3 : CCollisions K} (h12 : SameWorld s1 s2)
    (h23 : SameWorld s2 s3) : SameWorld s1 s3 := by
  obtain ⟨a1, a2, a3, a4, a5, a6, a7, a8⟩ := h12
  obtain ⟨b1, b2, b3, b4, b5, b6, b7, b8⟩ := h23
  exact ⟨b1.trans a1, b2.trans a2, b3.trans a3, b4.trans a4, b5.trans a5, b6.trans a6,
    b7.trans a7, b8.trans a8⟩

section Record

variable {K : Type} [LinearOrderedField K]

/-- The state in which the test functions start, `min_time` and `num_sim_collisions`
being reset, is tracked. -/
theorem Tracked.start (sqrt : K → K) (dt : K) (s : CCollisions K) :
    Tracked sqrt dt { s with min_time := 1000, num_sim_collisions := 0 }
      { s with min_time := 1000, num_sim_collisions := 0 } :=
  ⟨SameWorld.refl _, Or.inl ⟨rfl, rfl⟩, fun j hj => absurd hj (Nat.not_lt_zero j)⟩

end Record

end CCollisions

namespace CCollisions

open vec matrix geomath physics

section Passes

variable {K : Type} [LinearOrderedField K]

end Passes

end CCollisions

namespace CCollisions

open vec matrix geomath physics

section Independence

variable {K : Type} [LinearOrderedField K]

end Independence

end CCollisions

/-! ### Worlds without balls and walls -/

namespace CCollisions

open vec matrix geomath physics

section BoxesOnly

variable {K : Type} [LinearOrderedField K]

theorem TestBallBall_no_pair (sqrt : K → K) (s : CCollisions K) (dt : K)
    (h : s.num_balls ≤ 1) : TestBallBall sqrt s dt = Except.ok s := by
  unfold TestBallBall
  rw [Nat.sub_eq_zero_of_le h]
  rfl

theorem TestBallWall_no_walls (sqrt : K → K) (s : CCollisions K) (dt : K)
    (h : s.num_walls = 0) : TestBallWall sqrt s dt = Except.ok s := by
  unfold TestBallWall
  rw [h]
  rfl

/-- A loop whose inner loop has no element to run over leaves the state as it is. -/
theorem foldlM_empty_inner {α β γ : Type} (l : List α) (inner : β → α → List γ)
    (g : α → β → γ → Except Fault β) (P : β → Prop)
    (hP : ∀ b a, P b → inner b a = []) (b : β) (hb : P b) :
    l.foldlM (fun b a => (inner b a).foldlM (g a) b) b = Except.ok b := by
  induction l with
  | nil => rfl
  | cons a l ih =>
    rw [List.foldlM_cons, hP b a hb]
    exact ih

theorem TestBoxWall_no_walls (sqrt : K → K) (s : CCollisions K) (dt : K)
    (h : s.num_walls = 0) : TestBoxWall sqrt s dt = Except.ok s := by
  unfold TestBoxWall
  exact foldlM_empty_inner (List.range s.num_boxes) (fun b _ => List.range b.num_walls) _
    (fun b => b.num_walls = 0) (fun b a hb => by dsimp only at hb ⊢; rw [hb]; rfl) s h

theorem TestBoxBox_no_pair (s : CCollisions K) (dt : K)
    (h : s.num_boxes ≤ 1) : TestBoxBox s dt = Except.ok s := by
  unfold TestBoxBox
  rw [Nat.sub_eq_zero_of_le h]
  rfl

/-- A fault in `TestBallWall` is a fault of the five test passes when there are not
two balls. -/
theorem runTests_error_of_TestBallWall (sqrt : K → K) (s : CCollisions K) (dt : K) (e : Fault)
    (hb : s.num_balls ≤ 1)
    (h : TestBallWall sqrt { s with min_time := 1000, num_sim_collisions := 0 } dt
      = Except.error e) :
    runTests sqrt s dt = Except.error e := by
  unfold runTests
  dsimp only
  have hb0 : ({ s with min_time := 1000, num_sim_collisions := 0 } : CCollisions K).num_balls ≤ 1 :=
    hb
  rw [TestBallBall_no_pair sqrt _ dt hb0]
  simp only [bind, Except.bind]
  rw [h]

/-- A fault in the test passes is a fault of the body of the loop. -/
theorem loopBody_error_of_runTests (sqrt : K → K) (s : CCollisions K) (dt : K) (e : Fault)
    (h : runTests sqrt s dt = Except.error e) : loopBody sqrt s dt = Except.error e := by
  unfold loopBody
  rw [h]
  rfl

/-- A fault in the first iteration of the loop is a fault of `Test`. -/
theorem Test_error_of_loopBody (sqrt : K → K) (fuel : Nat) (s : CCollisions K) (dt : K)
    (e : Fault) (h : loopBody sqrt { s with t_left := 1 } dt = Except.error e) :
    Test sqrt (fuel + 1) s dt = Except.error e := by
  have h1 : ({ s with t_left := 1 } : CCollisions K).t_left > 0 := by
    show (1 : K) > 0
    norm_num
  unfold Test
  rw [iterate, if_pos h1, h]
  rfl

end BoxesOnly

end CCollisions

/-! ### The recording block on given times -/

namespace CCollisions

open vec matrix geomath physics

section RecordEval

variable {K : Type} [LinearOrderedField K]

/-- A time between 0 and `t_left` that is sooner than `min_time` by more than `ZERO`
starts the list of records again. -/
theorem record_of_sooner (s : CCollisions K) (τ : K) (store : colldata K → colldata K)
    (cd : colldata K) (h0 : 0 ≤ τ) (h1 : τ ≤ s.t_left) (hfar : ¬ |τ - s.min_time| ≤ ZERO)
    (hlt : τ < s.min_time) (hcd : s.p_cdata[0]? = some cd) :
    s.record τ store = Except.ok { s with num_sim_collisions := 1, min_time := τ,
                                          p_cdata := s.p_cdata.set 0 (store cd) } := by
  unfold record
  rw [if_pos ⟨h0, h1⟩, if_neg hfar, if_pos hlt]
  simp only [modifyAt, Nat.sub_self, hcd, bind, Except.bind, pure, Except.pure]

/-- A time between 0 and `t_left` that is within `ZERO` of `min_time` is added to the
list of records. -/
theorem record_of_near (s : CCollisions K) (τ : K) (store : colldata K → colldata K)
    (cd : colldata K) (h0 : 0 ≤ τ) (h1 : τ ≤ s.t_left) (hnear : |τ - s.min_time| ≤ ZERO)
    (hcd : s.p_cdata[s.num_sim_collisions]? = some cd) :
    s.record τ store
      = Except.ok { s with num_sim_collisions := s.num_sim_collisions + 1,
                           p_cdata := s.p_cdata.set s.num_sim_collisions (store cd) } := by
  unfold record
  rw [if_pos ⟨h0, h1⟩, if_pos hnear]
  simp only [modifyAt, Nat.add_sub_cancel, hcd, bind, Except.bind, pure, Except.pure]

/-- A time between 0 and `t_left` that is within `ZERO` of `min_time` is written past
the end of the array of records when `num_sim_collisions` is the length of the array
already. -/
theorem record_of_near_full (s : CCollisions K) (τ : K) (store : colldata K → colldata K)
    (h0 : 0 ≤ τ) (h1 : τ ≤ s.t_left) (hnear : |τ - s.min_time| ≤ ZERO)
    (hfull : s.p_cdata.length ≤ s.num_sim_collisions) :
    s.record τ store = Except.error Fault.outOfBounds := by
  unfold record
  rw [if_pos ⟨h0, h1⟩, if_pos hnear]
  simp only [modifyAt, Nat.add_sub_cancel, List.getElem?_eq_none hfull, bind, Except.bind]

/-- A time later than `min_time` by more than `ZERO` is not recorded. -/
theorem record_of_later (s : CCollisions K) (τ : K) (store : colldata K → colldata K)
    (hfar : ¬ |τ - s.min_time| ≤ ZERO) (hlt : ¬ τ < s.min_time) :
    s.record τ store = Except.ok s := by
  unfold record
  by_cases h : τ ≥ 0 ∧ τ ≤ s.t_left
  · rw [if_pos h, if_neg hfar, if_neg hlt]
    rfl
  · rw [if_neg h]
    rfl

end RecordEval

end CCollisions

/-! ### The minimum time and the collision records after the test passes -/

namespace CCollisions

open vec matrix geomath physics

section Passes

variable {K : Type} [LinearOrderedField K]

end Passes

end CCollisions

namespace CCollisions

open vec matrix geomath physics

section Records

variable {K : Type} [LinearOrderedField K]

end Records

end CCollisions

/-! ### One ball and the two walls of a corner -/

namespace CCollisions

open vec matrix geomath physics

section Corner

variable {K : Type} [LinearOrderedField K]

theorem floorWall_eq_init (sin cos : K → K) (m : TMatrix K) (theta : K)
    (hs : sin theta = -1) (hc : cos theta = 0) :
    TWall.init sin cos m ⟨-10, -10, 0⟩ ⟨10, 10, 0⟩ ⟨0, 0, 0⟩ theta 1 = floorWall := by
  simp [TWall.init, TMatrix.Rotate, TMatrix.Translate, mulVec, floorWall, hs, hc]

theorem backWall_eq_init (sin cos : K → K) (m : TMatrix K) (theta : K) :
    TWall.init sin cos m ⟨-10, -10, 0⟩ ⟨10, 10, 0⟩ ⟨0, 0, 0⟩ theta 0 = backWall := by
  simp [TWall.init, TMatrix.LoadIdentity, TMatrix.Translate, mulVec, backWall]

theorem TWall_GetVertex_0 (w : TWall K) :
    w.GetVertex 0 = Except.ok ⟨w.point1.x, w.point1.y, 0⟩ := rfl

theorem TWall_GetVertex_1 (w : TWall K) :
    w.GetVertex 1 = Except.ok ⟨w.point2.x, w.point1.y, 0⟩ := rfl

theorem TWall_GetVertex_2 (w : TWall K) :
    w.GetVertex 2 = Except.ok ⟨w.point1.x, w.point2.y, 0⟩ := rfl

theorem TWall_GetVertex_3 (w : TWall K) :
    w.GetVertex 3 = Except.ok ⟨w.point2.x, w.point2.y, 0⟩ := rfl

/-- A ball is on `floorWall` when its centre has `x` and `z` between -10 and 10. -/
theorem IsBallOnWall_floorWall (ball : TBall K) (hx1 : -10 ≤ ball.center.x)
    (hx2 : ball.center.x ≤ 10) (hz1 : -10 ≤ ball.center.z) (hz2 : ball.center.z ≤ 10) :
    IsBallOnWall ball floorWall = Except.ok true := by
  simp only [IsBallOnWall, TWall_GetVertex_0, TWall_GetVertex_1, TWall_GetVertex_2,
    TWall_GetVertex_3, bind, Except.bind, pure, Except.pure, floorWall, mulVec, edgeSide,
    CrossProduct, dot_def, lscale_x, lscale_y, lscale_z, add_x, add_y, add_z, sub_x, sub_y,
    sub_z]
  norm_num
  rw [if_neg (by nlinarith), if_neg (not_lt.mpr hz2), if_neg (not_lt.mpr hx2),
    if_neg (by nlinarith)]

/-- A ball is on `backWall` when its centre has `x` and `y` between -10 and 10. -/
theorem IsBallOnWall_backWall (ball : TBall K) (hx1 : -10 ≤ ball.center.x)
    (hx2 : ball.center.x ≤ 10) (hy1 : -10 ≤ ball.center.y) (hy2 : ball.center.y ≤ 10) :
    IsBallOnWall ball backWall = Except.ok true := by
  simp only [IsBallOnWall, TWall_GetVertex_0, TWall_GetVertex_1, TWall_GetVertex_2,
    TWall_GetVertex_3, bind, Except.bind, pure, Except.pure, backWall, mulVec, edgeSide,
    CrossProduct, dot_def, lscale_x, lscale_y, lscale_z, add_x, add_y, add_z, sub_x, sub_y,
    sub_z]
  norm_num
  rw [if_neg (by nlinarith), if_neg (by nlinarith), if_neg (not_lt.mpr hx2),
    if_neg (not_lt.mpr hy2)]

/-- In `cornerWorld` the ball reaches the wall 0, the floor, at the time 1/2. -/
theorem cornerWorld_time_floor :
    TestBallWall.time Real.sqrt (cornerWorld (K := ℝ)).p_walls cornerWorld.p_balls 1 0 0
      = Except.ok (1 / 2) := by
  simp only [TestBallWall.time, cornerWorld, getAt, List.getElem?_cons_zero, bind, Except.bind]
  rw [IsBallOnWall_floorWall _ (by norm_num) (by norm_num) (by norm_num) (by norm_num)]
  simp only [if_true]
  rw [IntersectBallPlane_of_approaching _ _ _ _ _ (by norm_num [floorWall, dot_def])
    (by norm_num [floorWall, dot_def, scale_x, scale_y, scale_z])]
  norm_num [floorWall, dot_def, mulVec, scale_x, scale_y, scale_z]

/-- In `cornerWorld` the ball reaches the wall 1, the back wall, at the time 1/2. -/
theorem cornerWorld_time_back :
    TestBallWall.time Real.sqrt (cornerWorld (K := ℝ)).p_walls cornerWorld.p_balls 1 1 0
      = Except.ok (1 / 2) := by
  simp only [TestBallWall.time, cornerWorld, getAt, List.getElem?_cons_zero,
    List.getElem?_cons_succ, bind, Except.bind]
  rw [IsBallOnWall_backWall _ (by norm_num) (by norm_num) (by norm_num) (by norm_num)]
  simp only [if_true]
  rw [IntersectBallPlane_of_approaching _ _ _ _ _ (by norm_num [backWall, dot_def])
    (by norm_num [backWall, dot_def, scale_x, scale_y, scale_z])]
  norm_num [backWall, dot_def, mulVec, scale_x, scale_y, scale_z]

/-- In `cornerWorld` the second write of `TestBallWall` to the array of records is
past its end. -/
theorem TestBallWall_cornerWorld :
    TestBallWall Real.sqrt
      { init (cornerWorld (K := ℝ)) blankRecord 0 with t_left := 1, min_time := 1000,
                                                       num_sim_collisions := 0 } 1
      = Except.error Fault.outOfBounds := by
  have h0 := cornerWorld_time_floor
  have h1 := cornerWorld_time_back
  simp only [TestBallWall, init, cornerWorld, List.length_cons, List.length_nil, List.range,
    List.range.loop, List.foldlM, bind, Except.bind, List.replicate] at h0 h1 ⊢
  rw [h0]
  simp only []
  rw [record_of_sooner _ _ _ blankRecord]
  · simp only [pure, Except.pure, List.range.loop, List.foldlM, bind, Except.bind]
    rw [h1]
    simp only []
    rw [record_of_near_full]
    · norm_num
    · norm_num
    · norm_num [ZERO]
    · simp
  · norm_num
  · norm_num
  · rw [abs_of_neg (by norm_num)]
    norm_num [ZERO]
  · norm_num
  · rfl

/-- Claim C17 (the array of collision records is not large enough). In `cornerWorld`,
one ball and the two walls of a corner that the ball reaches at the same time 1/2, the
array `p_cdata` has `num_balls + num_boxes = 1` element; `TestBallWall` records the
first wall in `p_cdata[0]` and then writes the second wall to `p_cdata[1]`, past the
end of the array, in the first iteration of the loop of `Test`. -/
theorem Test_cornerWorld_out_of_bounds (fuel : Nat) :
    (init (cornerWorld (K := ℝ)) blankRecord 0).p_cdata.length = 1
      ∧ Test Real.sqrt (fuel + 1) (init cornerWorld blankRecord 0) 1
        = Except.error Fault.outOfBounds :=
  ⟨rfl, Test_error_of_loopBody _ _ _ _ _ (loopBody_error_of_runTests _ _ _ _
    (runTests_error_of_TestBallWall _ _ _ _ (le_refl 1) TestBallWall_cornerWorld))⟩

end Corner

end CCollisions

/-! ### One ball between two parallel walls that it touches -/

namespace geomath

open vec

/-- The value of `IntersectBallPlane` over the reals when the ball does not approach
the plane. -/
theorem IntersectBallPlane_of_receding (c : TVector ℝ) (r : ℝ) (v p n : TVector ℝ)
    (hn : n.dot n = 1) (hv : 0 ≤ v.dot n) :
    IntersectBallPlane Real.sqrt c r v p n = Except.ok (-1) := by
  have hassert : |n.dot n - 1| < 1 / 100 := by rw [hn]; norm_num
  by_cases hv0 : 0 < v.dot v
  · have hm := Magnitude_pos v hv0
    have hden : (v.scale (1 / Magnitude Real.sqrt v)).dot n = v.dot n / Magnitude Real.sqrt v := by
      simp only [dot_def, scale_x, scale_y, scale_z]
      field_simp
    have hge : (v.scale (1 / Magnitude Real.sqrt v)).dot n ≥ 0 := by
      rw [hden]
      exact div_nonneg hv (le_of_lt hm)
    simp only [IntersectBallPlane, hassert, not_true_eq_false, if_false, Normalized_of_pos v hv0,
      bind, Except.bind, hge, if_true]
    rfl
  · have hge : (⟨0, 0, 0⟩ : TVector ℝ).dot n ≥ 0 := by
      simp [dot_def]
    simp only [IntersectBallPlane, hassert, not_true_eq_false, if_false,
      Normalized_of_not_pos Real.sqrt v hv0, bind, Except.bind, hge, if_true]
    rfl

end geomath

namespace CCollisions

open vec matrix geomath physics

section Squeezed

variable {K : Type} [LinearOrderedField K]

theorem frontWall_eq_init (sin cos : K → K) (m : TMatrix K) (theta : K)
    (hs : sin theta = 0) (hc : cos theta = -1) :
    TWall.init sin cos m ⟨-10, -10, 0⟩ ⟨10, 10, 0⟩ ⟨0, 0, 2⟩ theta 1 = frontWall := by
  simp [TWall.init, TMatrix.Rotate, TMatrix.Translate, mulVec, frontWall, hs, hc]

end Squeezed

end CCollisions

namespace CCollisions
open vec matrix geomath physics

section Advance

variable {K : Type} [LinearOrderedField K]

end Advance

end CCollisions

namespace CCollisions
open vec matrix geomath physics

end CCollisions

namespace CCollisions
open vec matrix geomath physics

end CCollisions

/-! ### What the responses and the advance leave as it is -/

namespace CCollisions

open vec matrix geomath physics

section Frame

variable {K : Type}

variable [LinearOrderedField K]

end Frame

end CCollisions

/-! ### The remaining time in the loop of `Test` -/

namespace CCollisions

open vec matrix geomath physics

section Loop

variable {K : Type} [LinearOrderedField K]

end Loop

end CCollisions

/-! ### A ball that bounces off the floor and a ball that meets nothing -/

namespace geomath

open vec

end geomath

namespace CCollisions

open vec matrix geomath physics

end CCollisions

namespace CCollisions

open vec matrix geomath physics

end CCollisions

namespace CCollisions

open vec matrix geomath physics

theorem Normalize_ok (v : TVector ℝ) : ∃ w, v.Normalize Real.sqrt = Except.ok w := by
  by_cases h : 0 < v.dot v
  · exact ⟨_, Normalize_of_pos v h⟩
  · exact ⟨_, Normalize_of_not_pos Real.sqrt v h⟩

theorem MObjSObjEffects_floor (u : ℝ) :
    MObjSObjEffects (⟨0, u, 0⟩ : TVector ℝ) ⟨0, 1, 0⟩ (1 / 2) = Except.ok ⟨0, -u / 2, 0⟩ := by
  have he : (1 / 2 : ℝ) ≥ 0 ∧ (1 / 2 : ℝ) ≤ 1 := by norm_num
  simp only [MObjSObjEffects, he, not_true_eq_false, if_false, pure, Except.pure]
  refine congrArg Except.ok ?_
  ext <;> simp [add_x, add_y, add_z, lscale_x, lscale_y, lscale_z, dot_def, neg_x, neg_y, neg_z]
  ring

end CCollisions

namespace CCollisions

open vec matrix geomath physics

end CCollisions

namespace CCollisions

open vec matrix geomath physics

end CCollisions

/-! ### Progress and termination of the loop of `Test` -/

namespace CCollisions

open vec matrix geomath physics

section LoopClaims

variable {K : Type} [LinearOrderedField K]

end LoopClaims

end CCollisions

/-! ### The tests of a ball against the triangles of a box -/

namespace geomath

open vec

section EdgeTests

variable {K : Type} [LinearOrderedField K]

/-- `Solve2ODE` returns -1 when the discriminant is negative. -/
theorem Solve2ODE_of_neg (sqrt : K → K) (a b c t_left : K) (h : b * b - 4 * a * c < 0) :
    Solve2ODE sqrt a b c t_left = Except.ok (-1) := by
  unfold Solve2ODE
  simp only [h, if_true]
  rfl

/-- `IntersectBallEdge` returns -1 for a ball that moves away from the line of the
edge. -/
theorem IntersectBallEdge_of_away (sqrt : K → K) (center velocity : TVector K) (radius : K)
    (point1 point2 : TVector K) (test_vertices : Bool) (t_left : K)
    (h : (CrossProduct (center - point1) (point2 - point1)).dot
        (CrossProduct velocity (point2 - point1)) * 2 > 0) :
    IntersectBallEdge sqrt center velocity radius point1 point2 test_vertices t_left
      = Except.ok (-1) := by
  unfold IntersectBallEdge
  simp only [h, if_true]
  rfl

/-- `IntersectBallEdge` returns -1 for a ball outside of the cylinder of its radius
about the line of the edge whose path does not meet the cylinder. -/
theorem IntersectBallEdge_of_miss (sqrt : K → K) (center velocity : TVector K) (radius : K)
    (point1 point2 : TVector K) (test_vertices : Bool) (t_left : K)
    (hc : (CrossProduct (center - point1) (point2 - point1)).dot
        (CrossProduct (center - point1) (point2 - point1))
          - radius * radius * (point2 - point1).dot (point2 - point1) > 0)
    (hd : (CrossProduct (center - point1) (point2 - point1)).dot
          (CrossProduct velocity (point2 - point1)) * 2
        * ((CrossProduct (center - point1) (point2 - point1)).dot
          (CrossProduct velocity (point2 - point1)) * 2)
        - 4 * (CrossProduct velocity (point2 - point1)).dot
            (CrossProduct velocity (point2 - point1))
          * ((CrossProduct (center - point1) (point2 - point1)).dot
              (CrossProduct (center - point1) (point2 - point1))
            - radius * radius * (point2 - point1).dot (point2 - point1)) < 0) :
    IntersectBallEdge sqrt center velocity radius point1 point2 test_vertices t_left
      = Except.ok (-1) := by
  unfold IntersectBallEdge
  by_cases hb : (CrossProduct (center - point1) (point2 - point1)).dot
        (CrossProduct velocity (point2 - point1)) * 2 > 0
  · simp only [hb, if_true]
    rfl
  · simp only [hb, if_false, hc, if_true, Solve2ODE_of_neg sqrt _ _ _ _ hd, bind, Except.bind]
    have : (-1 : K) < 0 := by norm_num
    simp only [this, if_true]
    rfl

/-- `IntersectBallTriangle` when the point on the plane is not in the triangle and
none of the three edges is reached: the time 1000, with the edge points as they were. -/
theorem IntersectBallTriangle_of_no_hit (sqrt : K → K) (center ball_vel : TVector K) (radius : K)
    (tri_vel v0 v1 v2 : TVector K) (t_left : K) (edge_p1 edge_p2 : TVector K)
    (normal : TVector K) (t : K)
    (hn : (CrossProduct (v1 - v0) (v2 - v1)).Normalize sqrt = Except.ok normal)
    (ht : IntersectBallPlane sqrt center radius (ball_vel - tri_vel) v0 normal = Except.ok t)
    (hout : IsPointInTriangle (center + (ball_vel - tri_vel).scale t) normal v0 v1 v2 = false)
    (h1 : IntersectBallEdge sqrt center (ball_vel - tri_vel) radius v0 v1 true t_left
      = Except.ok (-1))
    (h2 : IntersectBallEdge sqrt center (ball_vel - tri_vel) radius v1 v2 true t_left
      = Except.ok (-1))
    (h3 : IntersectBallEdge sqrt center (ball_vel - tri_vel) radius v2 v0 true t_left
      = Except.ok (-1)) :
    IntersectBallTriangle sqrt center ball_vel radius tri_vel v0 v1 v2 t_left edge_p1 edge_p2
      = Except.ok { t := 1000, edge_collision := true, edge_p1 := edge_p1,
                    edge_p2 := edge_p2 } := by
  have hneg : ¬ ((-1 : K) < 1000 ∧ (-1 : K) ≥ 0) := by norm_num
  simp only [IntersectBallTriangle, hn, ht, hout, bind, Except.bind, IntersectBallTriangle.edge,
    h1, h2, h3, hneg, if_false, Bool.false_eq_true, pure, Except.pure]

end EdgeTests

end geomath

namespace CCollisions

open vec matrix geomath physics

/-- The value of `Normalize` over the reals for a vector of known length. -/
theorem Normalize_of_length (v : TVector ℝ) (m : ℝ) (hm : 0 < m) (h : v.dot v = m * m) :
    v.Normalize Real.sqrt = Except.ok (v.scale (1 / m)) := by
  have hpos : 0 < v.dot v := by rw [h]; exact mul_pos hm hm
  rw [Normalize_of_pos v hpos]
  have : Magnitude Real.sqrt v = m := by
    rw [Magnitude_eq_sqrt_dot, h]
    exact Real.sqrt_mul_self (le_of_lt hm)
  rw [this]

end CCollisions

namespace CCollisions

open vec matrix geomath physics

theorem graze_sqrt : Real.sqrt 4462656250000000000 = 2112500000 := by
  rw [show (4462656250000000000 : ℝ) = 2112500000 * 2112500000 by norm_num]
  exact Real.sqrt_mul_self (by norm_num)

end CCollisions

namespace CCollisions

open vec matrix geomath physics

theorem grazeBox_vertex_0 : (grazeBox (K := ℝ)).GetVertex 0 = Except.ok ⟨0, 0, 0⟩ := rfl
theorem grazeBox_vertex_1 : (grazeBox (K := ℝ)).GetVertex 1 = Except.ok ⟨650, 0, 0⟩ := rfl
theorem grazeBox_vertex_2 : (grazeBox (K := ℝ)).GetVertex 2 = Except.ok ⟨0, 650, 0⟩ := rfl
theorem grazeBox_vertex_3 : (grazeBox (K := ℝ)).GetVertex 3 = Except.ok ⟨650, 650, 0⟩ := rfl
theorem grazeBox_vertex_4 : (grazeBox (K := ℝ)).GetVertex 4 = Except.ok ⟨0, 0, 650⟩ := rfl
theorem grazeBox_vertex_5 : (grazeBox (K := ℝ)).GetVertex 5 = Except.ok ⟨650, 0, 650⟩ := rfl
theorem grazeBox_vertex_6 : (grazeBox (K := ℝ)).GetVertex 6 = Except.ok ⟨0, 650, 650⟩ := rfl
theorem grazeBox_vertex_7 : (grazeBox (K := ℝ)).GetVertex 7 = Except.ok ⟨650, 650, 650⟩ := rfl

end CCollisions

namespace CCollisions

open vec matrix geomath physics

end CCollisions

namespace CCollisions

open vec matrix geomath physics

/-- The value of `Normalized` over the reals for a vector of known length. -/
theorem Normalized_of_length (v : TVector ℝ) (m : ℝ) (hm : 0 < m) (h : v.dot v = m * m) :
    Normalized Real.sqrt v = Except.ok (v.scale (1 / m)) := by
  have hpos : 0 < v.dot v := by rw [h]; exact mul_pos hm hm
  rw [Normalized_of_pos v hpos]
  have : Magnitude Real.sqrt v = m := by
    rw [Magnitude_eq_sqrt_dot, h]
    exact Real.sqrt_mul_self (le_of_lt hm)
  rw [this]

end CCollisions

/-! ### The displacement of the objects over the loop of `Test` -/

namespace CCollisions

open vec matrix geomath physics

section Displacement

variable {K : Type} [LinearOrderedField K]

end Displacement

end CCollisions

/-! ### The roots of the quadratic and the test of a ball against a vertex -/

namespace geomath

open vec

/-- The value of `Solve2ODE` over the reals for `a > 0` and a discriminant that is not
negative: with `lo ≤ hi` the two roots, -1 when `lo < 0` or `hi > t_left`, else `hi`
when it is positive, else `lo`. -/
theorem Solve2ODE_of_pos (a b c t_left : ℝ) (ha : 0 < a) (hd : 0 ≤ b * b - 4 * a * c) :
    Solve2ODE Real.sqrt a b c t_left
      = Except.ok
          (if (-b - Real.sqrt (b * b - 4 * a * c)) * (1 / (2 * a)) < 0
              ∨ (-b + Real.sqrt (b * b - 4 * a * c)) * (1 / (2 * a)) > t_left then -1
           else if (-b + Real.sqrt (b * b - 4 * a * c)) * (1 / (2 * a)) > 0 then
             (-b + Real.sqrt (b * b - 4 * a * c)) * (1 / (2 * a))
           else (-b - Real.sqrt (b * b - 4 * a * c)) * (1 / (2 * a))) := by
  have h2a : (2 * a) ≠ 0 := by positivity
  have hden : 0 < 1 / (2 * a) := by positivity
  have hs := Real.sqrt_nonneg (b * b - 4 * a * c)
  have hle : (-b - Real.sqrt (b * b - 4 * a * c)) * (1 / (2 * a))
      ≤ (-b + Real.sqrt (b * b - 4 * a * c)) * (1 / (2 * a)) :=
    mul_le_mul_of_nonneg_right (by linarith) (le_of_lt hden)
  have hhi : (if (-b - Real.sqrt (b * b - 4 * a * c)) * (1 / (2 * a))
        < (-b + Real.sqrt (b * b - 4 * a * c)) * (1 / (2 * a))
      then (-b + Real.sqrt (b * b - 4 * a * c)) * (1 / (2 * a))
      else (-b - Real.sqrt (b * b - 4 * a * c)) * (1 / (2 * a)))
      = (-b + Real.sqrt (b * b - 4 * a * c)) * (1 / (2 * a)) := by
    split
    · rfl
    · linarith
  have hlo : (if (-b - Real.sqrt (b * b - 4 * a * c)) * (1 / (2 * a))
        < (-b + Real.sqrt (b * b - 4 * a * c)) * (1 / (2 * a))
      then (-b - Real.sqrt (b * b - 4 * a * c)) * (1 / (2 * a))
      else (-b + Real.sqrt (b * b - 4 * a * c)) * (1 / (2 * a)))
      = (-b - Real.sqrt (b * b - 4 * a * c)) * (1 / (2 * a)) := by
    split
    · rfl
    · linarith
  unfold Solve2ODE
  simp only [not_lt.mpr hd, if_false, fdiv_eq_ok 1 h2a, bind, Except.bind, hhi, hlo]
  split
  · rfl
  · split <;> rfl

/-- A root returned by `Solve2ODE` for `a > 0`: it lies in `[0, t_left]` and solves the
equation. -/
theorem Solve2ODE_sound (a b c t_left t : ℝ) (ha : 0 < a)
    (h : Solve2ODE Real.sqrt a b c t_left = Except.ok t) (h0 : 0 ≤ t) :
    t ≤ t_left ∧ a * t * t + b * t + c = 0 := by
  by_cases hd : 0 ≤ b * b - 4 * a * c
  · rw [Solve2ODE_of_pos a b c t_left ha hd] at h
    injection h with h
    have hsq := Real.mul_self_sqrt hd
    have h2a : (2 * a) ≠ 0 := by positivity
    have hden : 0 < 1 / (2 * a) := by positivity
    have hs := Real.sqrt_nonneg (b * b - 4 * a * c)
    have hle : (-b - Real.sqrt (b * b - 4 * a * c)) * (1 / (2 * a))
        ≤ (-b + Real.sqrt (b * b - 4 * a * c)) * (1 / (2 * a)) :=
      mul_le_mul_of_nonneg_right (by linarith) (le_of_lt hden)
    have hroot1 : a * ((-b + Real.sqrt (b * b - 4 * a * c)) * (1 / (2 * a)))
          * ((-b + Real.sqrt (b * b - 4 * a * c)) * (1 / (2 * a)))
        + b * ((-b + Real.sqrt (b * b - 4 * a * c)) * (1 / (2 * a))) + c = 0 := by
      field_simp
      nlinarith
    have hroot0 : a * ((-b - Real.sqrt (b * b - 4 * a * c)) * (1 / (2 * a)))
          * ((-b - Real.sqrt (b * b - 4 * a * c)) * (1 / (2 * a)))
        + b * ((-b - Real.sqrt (b * b - 4 * a * c)) * (1 / (2 * a))) + c = 0 := by
      field_simp
      nlinarith
    split at h
    · rw [← h] at h0
      norm_num at h0
    · rename_i hguard
      rw [not_or, not_lt, not_lt] at hguard
      split at h
      · rw [← h]
        exact ⟨hguard.2, hroot1⟩
      · rw [← h]
        exact ⟨le_trans hle hguard.2, hroot0⟩
  · rw [Solve2ODE_of_neg Real.sqrt a b c t_left (not_le.mp hd)] at h
    injection h with h
    rw [← h] at h0
    norm_num at h0

end geomath

namespace geomath

open vec

/-- Claim C21 (`Solve2ODE` with one root in range). For `a = 1`, `b = -2`, `c = 3/4`
and `t_left = 1` the discriminant is 1 and the roots are 1/2 and 3/2: the larger root
is beyond `t_left`, the smaller root lies within `[0, t_left]`, and the function
returns -1, not the root 1/2. -/
theorem Solve2ODE_rejects_root_in_range :
    Solve2ODE Real.sqrt 1 (-2) (3 / 4) 1 = Except.ok (-1)
      ∧ (0 : ℝ) ≤ (-2) * (-2) - 4 * 1 * (3 / 4)
      ∧ (1 : ℝ) * (1 / 2) * (1 / 2) + (-2) * (1 / 2) + 3 / 4 = 0
      ∧ (1 : ℝ) * (3 / 2) * (3 / 2) + (-2) * (3 / 2) + 3 / 4 = 0
      ∧ (0 : ℝ) ≤ 1 / 2 ∧ (1 / 2 : ℝ) ≤ 1 ∧ ¬ ((3 / 2 : ℝ) ≤ 1) := by
  refine ⟨?_, by norm_num, by norm_num, by norm_num, by norm_num, by norm_num, by norm_num⟩
  rw [Solve2ODE_of_pos 1 (-2) (3 / 4) 1 (by norm_num) (by norm_num)]
  have h1 : ((-2 : ℝ) * (-2) - 4 * 1 * (3 / 4)) = 1 := by norm_num
  rw [h1, Real.sqrt_one]
  norm_num

/-- The test of the sphere of radius 1 at `(-2, 0, 0)` with the displacement
`(4, 0, 0)` against the vertex `(0, 0, 0)`: the time 3/4, the larger root. -/
theorem IntersectBallVertex_through :
    IntersectBallVertex Real.sqrt ⟨-2, 0, 0⟩ ⟨4, 0, 0⟩ 1 ⟨0, 0, 0⟩ 1 = Except.ok (3 / 4) := by
  have hb : ¬ (2 * ((⟨4, 0, 0⟩ : TVector ℝ).dot ((⟨-2, 0, 0⟩ : TVector ℝ) - ⟨0, 0, 0⟩)) > 0) := by
    norm_num [dot_def, sub_x, sub_y, sub_z]
  have hc : ¬ (((⟨-2, 0, 0⟩ : TVector ℝ) - ⟨0, 0, 0⟩).dot ((⟨-2, 0, 0⟩ : TVector ℝ) - ⟨0, 0, 0⟩)
      - 1 * 1 < 0) := by
    norm_num [dot_def, sub_x, sub_y, sub_z]
  have hs : Real.sqrt 64 = 8 := by
    rw [show (64 : ℝ) = 8 * 8 by norm_num]
    exact Real.sqrt_mul_self (by norm_num)
  unfold IntersectBallVertex
  simp only [hb, hc, if_false]
  rw [Solve2ODE_of_pos _ _ _ _ (by norm_num [dot_def]) (by norm_num [dot_def, sub_x, sub_y, sub_z])]
  have hd : (2 * ((⟨4, 0, 0⟩ : TVector ℝ).dot ((⟨-2, 0, 0⟩ : TVector ℝ) - ⟨0, 0, 0⟩)))
        * (2 * ((⟨4, 0, 0⟩ : TVector ℝ).dot ((⟨-2, 0, 0⟩ : TVector ℝ) - ⟨0, 0, 0⟩)))
      - 4 * (⟨4, 0, 0⟩ : TVector ℝ).dot ⟨4, 0, 0⟩
        * (((⟨-2, 0, 0⟩ : TVector ℝ) - ⟨0, 0, 0⟩).dot ((⟨-2, 0, 0⟩ : TVector ℝ) - ⟨0, 0, 0⟩)
          - 1 * 1) = 64 := by
    norm_num [dot_def, sub_x, sub_y, sub_z]
  rw [hd, hs]
  norm_num [dot_def, sub_x, sub_y, sub_z, bind, Except.bind, pure, Except.pure]

/-- Claim C25 (`IntersectBallVertex` and the first contact). The sphere of radius 1 at
`(-2, 0, 0)` with the displacement `(4, 0, 0)` starts outside of the vertex
`(0, 0, 0)`, approaches it, and its centre is at the distance 1 of the vertex at the
times 1/4 and 3/4 of `[0, 1]` and at no time before 1/4; the function returns 3/4,
the time at which the sphere leaves the vertex. -/
theorem IntersectBallVertex_returns_last_contact :
    IntersectBallVertex Real.sqrt ⟨-2, 0, 0⟩ ⟨4, 0, 0⟩ 1 ⟨0, 0, 0⟩ 1 = Except.ok (3 / 4)
      ∧ Magnitude Real.sqrt ((⟨-2, 0, 0⟩ : TVector ℝ) - ⟨0, 0, 0⟩) > 1
      ∧ (⟨4, 0, 0⟩ : TVector ℝ).dot ((⟨-2, 0, 0⟩ : TVector ℝ) - ⟨0, 0, 0⟩) ≤ 0
      ∧ Magnitude Real.sqrt ((⟨-2, 0, 0⟩ : TVector ℝ) + TVector.scale ⟨4, 0, 0⟩ (1 / 4)
          - ⟨0, 0, 0⟩) = 1
      ∧ (∀ s : ℝ, 0 ≤ s → s < 1 / 4 →
          Magnitude Real.sqrt ((⟨-2, 0, 0⟩ : TVector ℝ) + TVector.scale ⟨4, 0, 0⟩ s
            - ⟨0, 0, 0⟩) ≠ 1) := by
  refine ⟨IntersectBallVertex_through, ?_, ?_, ?_, ?_⟩
  · rw [Magnitude_eq_sqrt_dot, gt_iff_lt, Real.lt_sqrt (by norm_num)]
    norm_num [dot_def, sub_x, sub_y, sub_z]
  · norm_num [dot_def, sub_x, sub_y, sub_z]
  · rw [Magnitude_eq_sqrt_dot]
    have : TVector.dot
        ((⟨-2, 0, 0⟩ : TVector ℝ) + TVector.scale ⟨4, 0, 0⟩ (1 / 4) - (⟨0, 0, 0⟩ : TVector ℝ))
        ((⟨-2, 0, 0⟩ : TVector ℝ) + TVector.scale ⟨4, 0, 0⟩ (1 / 4) - (⟨0, 0, 0⟩ : TVector ℝ))
          = (1 : ℝ) := by
      norm_num [dot_def, sub_x, sub_y, sub_z, add_x, add_y, add_z, scale_x, scale_y, scale_z]
    rw [this, Real.sqrt_one]
  · intro s hs0 hs1 h
    rw [Magnitude_eq_sqrt_dot, Real.sqrt_eq_one] at h
    simp only [dot_def, sub_x, sub_y, sub_z, add_x, add_y, add_z, scale_x, scale_y,
      scale_z] at h
    nlinarith

/-- Claim C26 (`IntersectBallVertex`, soundness of the returned time). For a velocity
that is not zero, a radius that is not negative and a sphere whose centre is not
closer to the vertex than its radius, the function returns a value, and a returned
time `t ≥ 0` lies in `[0, t_left]` with the centre at `t` exactly at the distance of
the radius from the vertex. -/
theorem IntersectBallVertex_sound (center velocity : TVector ℝ) (radius : ℝ)
    (vertex : TVector ℝ) (t_left : ℝ) (hv : velocity ≠ ⟨0, 0, 0⟩) (hr : 0 ≤ radius)
    (hout : radius ≤ Magnitude Real.sqrt (center - vertex)) :
    (∃ t, IntersectBallVertex Real.sqrt center velocity radius vertex t_left = Except.ok t)
    ∧ ∀ t, IntersectBallVertex Real.sqrt center velocity radius vertex t_left = Except.ok t →
        0 ≤ t →
        0 ≤ t ∧ t ≤ t_left
          ∧ Magnitude Real.sqrt (center + velocity.scale t - vertex) = radius := by
  have ha := dot_self_pos_of_ne_zero velocity hv
  have hc : ¬ ((center - vertex).dot (center - vertex) - radius * radius < 0) := by
    rw [Magnitude_eq_sqrt_dot] at hout
    have h1 := Real.mul_self_sqrt (dot_self_nonneg (center - vertex))
    have h2 := mul_le_mul hout hout hr (Real.sqrt_nonneg _)
    linarith
  have hsolve : ∃ t0, Solve2ODE Real.sqrt (velocity.dot velocity)
      (2 * velocity.dot (center - vertex))
      ((center - vertex).dot (center - vertex) - radius * radius) t_left = Except.ok t0 := by
    by_cases hd : 0 ≤ (2 * velocity.dot (center - vertex)) * (2 * velocity.dot (center - vertex))
        - 4 * velocity.dot velocity
          * ((center - vertex).dot (center - vertex) - radius * radius)
    · exact ⟨_, Solve2ODE_of_pos _ _ _ _ ha hd⟩
    · exact ⟨_, Solve2ODE_of_neg Real.sqrt _ _ _ _ (not_le.mp hd)⟩
  obtain ⟨t0, ht0⟩ := hsolve
  constructor
  · unfold IntersectBallVertex
    simp only [hc, if_false, ht0, bind, Except.bind]
    split
    · exact ⟨_, rfl⟩
    · split
      · exact ⟨_, rfl⟩
      · exact ⟨_, rfl⟩
  · intro t h h0
    unfold IntersectBallVertex at h
    simp only [hc, if_false, ht0, bind, Except.bind] at h
    split at h
    · injection h with h
      rw [← h] at h0
      norm_num at h0
    · split at h
      · injection h with h
        rw [← h] at h0
        norm_num at h0
      · injection h with h
        subst h
        obtain ⟨hle, hroot⟩ := Solve2ODE_sound _ _ _ _ _ ha ht0 h0
        refine ⟨h0, hle, ?_⟩
        rw [Magnitude_eq_sqrt_dot]
        have hsq : (center + velocity.scale t0 - vertex).dot (center + velocity.scale t0 - vertex)
            = radius * radius := by
          simp only [dot_def, sub_x, sub_y, sub_z, add_x, add_y, add_z, scale_x, scale_y,
            scale_z] at hroot ⊢
          linarith
        rw [hsq]
        exact Real.sqrt_mul_self hr

/-- Witness of claim C26: the sphere of radius 1 at `(-2, 0, 0)` with the displacement
`(4, 0, 0)` and the vertex `(0, 0, 0)`; the returned time 3/4 lies in `[0, 1]` and the
centre is then at `(1, 0, 0)`, at the distance 1 of the vertex. -/
theorem IntersectBallVertex_sound_witness :
    (0 : ℝ) ≤ 3 / 4 ∧ (3 / 4 : ℝ) ≤ 1
      ∧ Magnitude Real.sqrt ((⟨-2, 0, 0⟩ : TVector ℝ) + TVector.scale ⟨4, 0, 0⟩ (3 / 4)
          - ⟨0, 0, 0⟩) = 1 :=
  (IntersectBallVertex_sound ⟨-2, 0, 0⟩ ⟨4, 0, 0⟩ 1 ⟨0, 0, 0⟩ 1
    (by intro h; have := congrArg TVector.x h; norm_num at this) (by norm_num)
    (by
      rw [Magnitude_eq_sqrt_dot]
      refine Real.le_sqrt_of_sq_le ?_
      norm_num [dot_def, sub_x, sub_y, sub_z])).2 (3 / 4) IntersectBallVertex_through
    (by norm_num)

end geomath

/-! ### The value with which `IntersectBallTriangle` signals that there is no collision -/

namespace geomath

open vec

section NoCollision

variable {K : Type} [LinearOrderedField K]

end NoCollision

end geomath

/-! ### The normal of a wall and the normalisation of a vector -/

section WallNormal

open vec matrix

variable {K : Type} [LinearOrderedField K]

/-- Claim C23 (the normal of a constructed wall). For a rotation selector `axis` in
`{0, 1, 2, 3}`, any angle `theta` with `sin² + cos² = 1` and any translation `t`, the
wall built by the constructor has a normal of squared length 1, so of length 1 for a
square root with `sqrt 1 = 1`; the normal is the image of `(0, 0, 1)` under the
rotation of the wall (its transformation without the translation), and it is the same
for every translation. -/
theorem TWall_init_normal_unit (sin cos : K → K) (indeterminate : TMatrix K)
    (p1 p2 t : TVector K) (theta : K) (axis : Int)
    (hax : axis = 0 ∨ axis = 1 ∨ axis = 2 ∨ axis = 3)
    (hsc : sin theta * sin theta + cos theta * cos theta = 1) :
    (TWall.init sin cos indeterminate p1 p2 t theta axis).normal.dot
        (TWall.init sin cos indeterminate p1 p2 t theta axis).normal = 1
    ∧ (∀ sqrt : K → K, sqrt 1 = 1 →
        Magnitude sqrt (TWall.init sin cos indeterminate p1 p2 t theta axis).normal = 1)
    ∧ (TWall.init sin cos indeterminate p1 p2 t theta axis).normal
        = mulVec ⟨0, 0, 1⟩
            ((TWall.init sin cos indeterminate p1 p2 t theta axis).trans.Translate ⟨0, 0, 0⟩)
    ∧ ∀ t2 : TVector K, (TWall.init sin cos indeterminate p1 p2 t2 theta axis).normal
        = (TWall.init sin cos indeterminate p1 p2 t theta axis).normal := by
  have hdot : (TWall.init sin cos indeterminate p1 p2 t theta axis).normal.dot
      (TWall.init sin cos indeterminate p1 p2 t theta axis).normal = 1 := by
    rcases hax with h | h | h | h <;> subst h <;>
      simp [TWall.init, TMatrix.Rotate, TMatrix.LoadIdentity, mulVec, dot_def]
    · linarith
    · linarith
  refine ⟨hdot, ?_, ?_, fun _ => rfl⟩
  · intro sqrt h1
    unfold Magnitude
    rw [dot_def] at hdot
    rw [hdot, h1]
  · rcases hax with h | h | h | h <;> subst h <;>
      simp [TWall.init, TMatrix.Rotate, TMatrix.LoadIdentity, TMatrix.Translate, mulVec]

end WallNormal

section WallNormalWitness

open vec matrix

/-- Witness of claim C23: the wall rotated by 1 radian about the y-axis and translated
by `(2, 3, 4)`, over the reals with the sine and the cosine. -/
theorem TWall_init_normal_unit_witness :
    (TWall.init Real.sin Real.cos TMatrix.LoadIdentity ⟨0, 0, 0⟩ ⟨1, 1, 0⟩ ⟨2, 3, 4⟩ 1 2).normal.dot
        (TWall.init Real.sin Real.cos TMatrix.LoadIdentity ⟨0, 0, 0⟩ ⟨1, 1, 0⟩ ⟨2, 3, 4⟩ 1
          2).normal = 1
    ∧ Magnitude Real.sqrt
        (TWall.init Real.sin Real.cos TMatrix.LoadIdentity ⟨0, 0, 0⟩ ⟨1, 1, 0⟩ ⟨2, 3, 4⟩ 1
          2).normal = 1 := by
  have h := TWall_init_normal_unit Real.sin Real.cos TMatrix.LoadIdentity ⟨0, 0, 0⟩ ⟨1, 1, 0⟩
    ⟨2, 3, 4⟩ 1 2 (Or.inr (Or.inr (Or.inl rfl)))
    (by have := Real.sin_sq_add_cos_sq 1; nlinarith)
  exact ⟨h.1, h.2.1 Real.sqrt Real.sqrt_one⟩

end WallNormalWitness

namespace vec

/-- Claim C24 (normalising a vector). Over the reals the zero vector is normalised to
the zero vector by `Normalize` and by `Normalized`; a vector `v` that is not zero is
normalised by both to `v` scaled by `1 / |v|`, a positive factor, and the result has
the magnitude 1. Both always return a value: no division by zero is reached. -/
theorem Normalize_unit_or_zero (v : TVector ℝ) :
    ((⟨0, 0, 0⟩ : TVector ℝ).Normalize Real.sqrt = Except.ok ⟨0, 0, 0⟩
      ∧ Normalized Real.sqrt (⟨0, 0, 0⟩ : TVector ℝ) = Except.ok ⟨0, 0, 0⟩)
    ∧ ((∃ w, v.Normalize Real.sqrt = Except.ok w) ∧ ∃ w, Normalized Real.sqrt v = Except.ok w)
    ∧ (v ≠ ⟨0, 0, 0⟩ →
        v.Normalize Real.sqrt = Except.ok (v.scale (1 / Magnitude Real.sqrt v))
        ∧ Normalized Real.sqrt v = Except.ok (v.scale (1 / Magnitude Real.sqrt v))
        ∧ 0 < 1 / Magnitude Real.sqrt v
        ∧ Magnitude Real.sqrt (v.scale (1 / Magnitude Real.sqrt v)) = 1) := by
  have hz : ¬ 0 < (⟨0, 0, 0⟩ : TVector ℝ).dot ⟨0, 0, 0⟩ := by norm_num [dot_def]
  refine ⟨⟨Normalize_of_not_pos Real.sqrt _ hz, Normalized_of_not_pos Real.sqrt _ hz⟩, ?_, ?_⟩
  · by_cases h : 0 < v.dot v
    · exact ⟨⟨_, Normalize_of_pos v h⟩, ⟨_, Normalized_of_pos v h⟩⟩
    · exact ⟨⟨_, Normalize_of_not_pos Real.sqrt v h⟩, ⟨_, Normalized_of_not_pos Real.sqrt v h⟩⟩
  · intro hv
    have h := dot_self_pos_of_ne_zero v hv
    have hm := Magnitude_pos v h
    refine ⟨Normalize_of_pos v h, Normalized_of_pos v h, by positivity, ?_⟩
    rw [geomath.Magnitude_eq_sqrt_dot, dot_self_scale_inv_Magnitude v h, Real.sqrt_one]

/-- Witness of claim C24: the vector `(3, 4, 0)`. -/
theorem Normalize_unit_or_zero_witness :
    (⟨3, 4, 0⟩ : TVector ℝ).Normalize Real.sqrt
        = Except.ok ((⟨3, 4, 0⟩ : TVector ℝ).scale (1 / Magnitude Real.sqrt ⟨3, 4, 0⟩))
    ∧ Normalized Real.sqrt (⟨3, 4, 0⟩ : TVector ℝ)
        = Except.ok ((⟨3, 4, 0⟩ : TVector ℝ).scale (1 / Magnitude Real.sqrt ⟨3, 4, 0⟩))
    ∧ 0 < 1 / Magnitude Real.sqrt (⟨3, 4, 0⟩ : TVector ℝ)
    ∧ Magnitude Real.sqrt
        ((⟨3, 4, 0⟩ : TVector ℝ).scale (1 / Magnitude Real.sqrt ⟨3, 4, 0⟩)) = 1 :=
  (Normalize_unit_or_zero ⟨3, 4, 0⟩).2.2
    (by intro h; have := congrArg TVector.x h; norm_num at this)

end vec

/-! ### The equation solved by `IntersectBallPlane` -/

namespace geomath

open vec

/-- Counterexample to claim C27 as stated. For the plane `y = 0` with the unit normal
`(0, 1, 0)`, so `plane_distance = 0`, the sphere of radius 1 at `(0, 5, 0)` and the
displacement `(0, -2, 0)` the function returns 2, and `(P + d·2)·n = 1`: that is
`plane_distance + radius`, not `plane_distance - radius = -1`. -/
theorem IntersectBallPlane_not_minus_radius :
    (⟨0, 1, 0⟩ : TVector ℝ).dot ⟨0, 1, 0⟩ = 1
    ∧ (⟨0, -2, 0⟩ : TVector ℝ).dot ⟨0, 1, 0⟩ < 0
    ∧ IntersectBallPlane Real.sqrt ⟨0, 5, 0⟩ 1 ⟨0, -2, 0⟩ ⟨0, 0, 0⟩ ⟨0, 1, 0⟩ = Except.ok 2
    ∧ ((⟨0, 5, 0⟩ : TVector ℝ) + TVector.scale ⟨0, -2, 0⟩ 2).dot ⟨0, 1, 0⟩
        ≠ (⟨0, 0, 0⟩ : TVector ℝ).dot ⟨0, 1, 0⟩ - 1 := by
  refine ⟨by norm_num [dot_def], by norm_num [dot_def], ?_, ?_⟩
  · rw [IntersectBallPlane_of_approaching _ _ _ _ _ (by norm_num [dot_def])
      (by norm_num [dot_def])]
    refine congrArg Except.ok ?_
    norm_num [dot_def]
  · norm_num [dot_def, add_x, add_y, add_z, scale_x, scale_y, scale_z]

/-- Claim C27, amended (the equation solved by `IntersectBallPlane`). For a unit
normal `n` and a displacement `d` with `d·n < 0` the function returns a time `t` that
solves `(P + d·t)·n = plane_distance + radius`, where `plane_distance` is
`plane_point·n`: at `t` the centre is at the distance of the radius from the plane, on
the side of the normal. -/
theorem IntersectBallPlane_solves (P : TVector ℝ) (radius : ℝ) (d plane_point n : TVector ℝ)
    (hn : n.dot n = 1) (hd : d.dot n < 0) :
    ∃ t, IntersectBallPlane Real.sqrt P radius d plane_point n = Except.ok t
      ∧ (P + d.scale t).dot n = plane_point.dot n + radius := by
  refine ⟨_, IntersectBallPlane_of_approaching P radius d plane_point n hn hd, ?_⟩
  have hne := ne_of_lt hd
  have hsplit : (P + d.scale ((plane_point.dot n - P.dot n + radius) / d.dot n)).dot n
      = P.dot n + (plane_point.dot n - P.dot n + radius) / d.dot n * d.dot n := by
    simp only [dot_def, add_x, add_y, add_z, scale_x, scale_y, scale_z]
    ring
  rw [hsplit, div_mul_cancel₀ _ hne]
  ring

/-- Witness of claim C27, amended: the sphere of radius 1 at `(0, 5, 0)` falling by 2
onto the plane `y = 0`. -/
theorem IntersectBallPlane_solves_witness :
    ∃ t, IntersectBallPlane Real.sqrt ⟨0, 5, 0⟩ 1 ⟨0, -2, 0⟩ ⟨0, 0, 0⟩ ⟨0, 1, 0⟩ = Except.ok t
      ∧ ((⟨0, 5, 0⟩ : TVector ℝ) + TVector.scale ⟨0, -2, 0⟩ t).dot ⟨0, 1, 0⟩
          = TVector.dot ⟨0, 0, 0⟩ (⟨0, 1, 0⟩ : TVector ℝ) + 1 :=
  IntersectBallPlane_solves ⟨0, 5, 0⟩ 1 ⟨0, -2, 0⟩ ⟨0, 0, 0⟩ ⟨0, 1, 0⟩
    (by norm_num [dot_def]) (by norm_num [dot_def])

end geomath

/-! ### The response to a collision of a ball with an edge of a box -/

namespace CCollisions

open vec matrix geomath physics

section EdgeResponse

variable {K : Type} [LinearOrderedField K]

/-- The edge branch of `BallBoxResponse` in terms of the collision normal: the centre of
the ball is moved by `0.001 n_col` and the corner `minv` of the box by `-0.001 n_col`;
a velocity is reflected when it is against the normal. -/
theorem BallBoxResponse_edge (sqrt : K → K) (s : CCollisions K) (i : Nat) (cd : colldata K)
    (ball : TBall K) (box : TBox K) (n : TVector K) (hcd : s.p_cdata[i]? = some cd)
    (he : cd.edge_collision = true) (hball : s.p_balls[cd.object1]? = some ball)
    (hbox : s.p_boxes[cd.object2]? = some box)
    (hn : BallBoxResponse.n_col sqrt ball.center cd.edge_p1 cd.edge_p2 = Except.ok n) :
    BallBoxResponse sqrt s i = Except.ok
      { s with
        p_balls := s.p_balls.set cd.object1
          (if ball.vel.dot n < 0 then
            { ball with center := ball.center + n.scale (1 / 1000),
                        vel := ball.vel + lscale (-2 * ball.vel.dot n) n }
           else { ball with center := ball.center + n.scale (1 / 1000) }),
        p_boxes := s.p_boxes.set cd.object2
          (if box.vel.dot (n.scale (-1)) < 0 then
            { box with minv := box.minv + (n.scale (-1)).scale (1 / 1000),
                       vel := box.vel + lscale (-2 * box.vel.dot (n.scale (-1))) (n.scale (-1)) }
           else { box with minv := box.minv + (n.scale (-1)).scale (1 / 1000) }) } := by
  unfold BallBoxResponse.n_col at hn
  obtain ⟨e, hnorm, hn⟩ := (bind_eq_ok _ _ _).mp hn
  simp only [BallBoxResponse, getAt, hcd, hball, hbox, he, if_true, bind, Except.bind, hnorm, hn,
    modifyAt, pure, Except.pure]

end EdgeResponse

/-- The collision normal that `BallBoxResponse` computes in `grazeWorld`: the unit vector
of the direction `(56, 33, 210925)`. -/
theorem graze_n_col :
    BallBoxResponse.n_col Real.sqrt ⟨706, 683, 325⟩ ⟨650, 650, 650⟩ ⟨650, 650, 0⟩
      = Except.ok ((⟨56, 33, 210925⟩ : TVector ℝ).scale
          (1 / Magnitude Real.sqrt ⟨56, 33, 210925⟩)) := by
  have hpos : 0 < (⟨56, 33, 210925⟩ : TVector ℝ).dot ⟨56, 33, 210925⟩ := by
    norm_num [dot_def]
  have hedge : Normalized Real.sqrt ((⟨650, 650, 0⟩ : TVector ℝ) - ⟨650, 650, 650⟩)
      = Except.ok ⟨0, 0, -1⟩ := by
    rw [Normalized_of_length _ 650 (by norm_num) (by norm_num [dot_def, sub_x, sub_y, sub_z])]
    refine congrArg Except.ok ?_
    ext <;> norm_num [sub_x, sub_y, sub_z, scale_x, scale_y, scale_z]
  have hn0 : (⟨706, 683, 325⟩ : TVector ℝ)
      - ((⟨650, 650, 650⟩ : TVector ℝ)
        + lscale (((⟨706, 683, 325⟩ : TVector ℝ) - ⟨650, 650, 650⟩).dot
            ((⟨650, 650, 0⟩ : TVector ℝ) - ⟨650, 650, 650⟩)) ⟨0, 0, -1⟩)
      = ⟨56, 33, 210925⟩ := by
    ext <;> norm_num [add_x, add_y, add_z, sub_x, sub_y, sub_z, lscale_x, lscale_y, lscale_z,
      dot_def]
  simp only [BallBoxResponse.n_col, hedge, bind, Except.bind, hn0]
  exact Normalize_of_pos _ hpos

/-- The response to the edge collision in `grazeWorld`, with `n` the unit vector of the
direction `(56, 33, 210925)`: the ball is moved by `0.001 n`, the corner `minv` of the
box by `-0.001 n`, and the corner `maxv` and the velocities stay as they are. -/
theorem graze_response :
    BallBoxResponse Real.sqrt (grazeAdvanced (K := ℝ)) 0
      = Except.ok { grazeEnd ((⟨56, 33, 210925⟩ : TVector ℝ).scale
          (1 / Magnitude Real.sqrt ⟨56, 33, 210925⟩)) with t_left := 1 } := by
  have hpos : 0 < (⟨56, 33, 210925⟩ : TVector ℝ).dot ⟨56, 33, 210925⟩ := by
    norm_num [dot_def]
  have hm := Magnitude_pos _ hpos
  rw [BallBoxResponse_edge Real.sqrt grazeAdvanced 0
    { collID := BALL_BOX_COLLISION, object1 := 0, object2 := 0, edge_collision := true,
      v1 := ⟨650, 0, 650⟩, v2 := ⟨650, 650, 0⟩, v3 := ⟨650, 650, 650⟩,
      edge_p1 := ⟨650, 650, 650⟩, edge_p2 := ⟨650, 650, 0⟩ }
    { grazeBall with center := ⟨706, 683, 325⟩ } grazeBox _ rfl rfl rfl rfl graze_n_col]
  have hvb : ¬ ((⟨80, -60, 0⟩ : TVector ℝ).dot ((⟨56, 33, 210925⟩ : TVector ℝ).scale
      (1 / Magnitude Real.sqrt ⟨56, 33, 210925⟩)) < 0) := by
    simp only [dot_def, scale_x, scale_y, scale_z, not_lt]
    have : 0 ≤ 1 / Magnitude Real.sqrt (⟨56, 33, 210925⟩ : TVector ℝ) := by positivity
    nlinarith
  have hvx : ¬ ((⟨0, 0, 0⟩ : TVector ℝ).dot (((⟨56, 33, 210925⟩ : TVector ℝ).scale
      (1 / Magnitude Real.sqrt ⟨56, 33, 210925⟩)).scale (-1)) < 0) := by
    simp [dot_def]
  refine congrArg Except.ok ?_
  simp only [grazeAdvanced, grazeEnd, grazeTested, loopHead, init, grazeWorld, grazeBall,
    grazeBox, hvb, hvx, if_false, List.set_cons_zero]

/-- Claim C29 (the collision normal of the edge branch of `BallBoxResponse`, at the
failing input). In `grazeWorld` the recorded edge runs from `(650, 650, 650)` to
`(650, 650, 0)` and the ball is at `(706, 683, 325)` at the time of the collision. The
orthogonal projection of the centre onto the line of the edge is `(650, 650, 325)`,
which gives the normal `(56, 33, 0) / 65`, perpendicular to the edge. The method
computes the unit vector of `(56, 33, 210925)` and moves the ball along it: this
normal is not perpendicular to the edge. -/
theorem BallBoxResponse_normal_not_perpendicular :
    ∃ n s, BallBoxResponse.n_col Real.sqrt ⟨706, 683, 325⟩ ⟨650, 650, 650⟩ ⟨650, 650, 0⟩
        = Except.ok n
      ∧ n = (⟨56, 33, 210925⟩ : TVector ℝ).scale (1 / Magnitude Real.sqrt ⟨56, 33, 210925⟩)
      ∧ n.dot ((⟨650, 650, 0⟩ : TVector ℝ) - ⟨650, 650, 650⟩) ≠ 0
      ∧ ((⟨706, 683, 325⟩ : TVector ℝ) - ⟨650, 650, 325⟩).dot
          ((⟨650, 650, 0⟩ : TVector ℝ) - ⟨650, 650, 650⟩) = 0
      ∧ BallBoxResponse Real.sqrt (grazeAdvanced (K := ℝ)) 0 = Except.ok s
      ∧ s.p_balls = [{ grazeBall with center := ⟨706, 683, 325⟩ + n.scale (1 / 1000) }] := by
  have hpos : 0 < (⟨56, 33, 210925⟩ : TVector ℝ).dot ⟨56, 33, 210925⟩ := by
    norm_num [dot_def]
  have hm := Magnitude_pos _ hpos
  refine ⟨_, _, graze_n_col, rfl, ?_, ?_, graze_response, rfl⟩
  · simp only [dot_def, scale_x, scale_y, scale_z, sub_x, sub_y, sub_z]
    have : 0 < 1 / Magnitude Real.sqrt (⟨56, 33, 210925⟩ : TVector ℝ) := by positivity
    nlinarith
  · norm_num [dot_def, sub_x, sub_y, sub_z]

/-- Claim C30 (the two objects are moved apart in the edge branch of `BallBoxResponse`,
at the failing input). In `grazeWorld`, with `n` the collision normal that the method
computes, the centre of the ball is moved by `0.001 n` and the corner `minv` of the
box by `-0.001 n`, but the corner `maxv` of the box stays at `(650, 650, 650)`: the
box is not translated, its extents `maxv - minv` change. -/
theorem BallBoxResponse_moves_minv_only :
    ∃ n s box, BallBoxResponse.n_col Real.sqrt ⟨706, 683, 325⟩ ⟨650, 650, 650⟩ ⟨650, 650, 0⟩
        = Except.ok n
      ∧ BallBoxResponse Real.sqrt (grazeAdvanced (K := ℝ)) 0 = Except.ok s
      ∧ s.p_balls = [{ grazeBall with center := ⟨706, 683, 325⟩ + n.scale (1 / 1000) }]
      ∧ s.p_boxes = [box]
      ∧ box.minv = (grazeBox (K := ℝ)).minv + (n.scale (-1)).scale (1 / 1000)
      ∧ box.maxv = (grazeBox (K := ℝ)).maxv
      ∧ box.maxv ≠ (grazeBox (K := ℝ)).maxv + (n.scale (-1)).scale (1 / 1000)
      ∧ box.maxv - box.minv ≠ (grazeBox (K := ℝ)).maxv - (grazeBox (K := ℝ)).minv := by
  have hpos : 0 < (⟨56, 33, 210925⟩ : TVector ℝ).dot ⟨56, 33, 210925⟩ := by
    norm_num [dot_def]
  have hm := Magnitude_pos _ hpos
  have hk : 0 < 1 / Magnitude Real.sqrt (⟨56, 33, 210925⟩ : TVector ℝ) := by positivity
  refine ⟨_, _, _, graze_n_col, graze_response, rfl, rfl, rfl, rfl, ?_, ?_⟩
  · intro h
    have hx := congrArg TVector.x h
    simp only [grazeEnd, grazeBox, add_x, scale_x] at hx
    nlinarith
  · intro h
    have hx := congrArg TVector.x h
    simp only [grazeEnd, grazeBox, add_x, sub_x, scale_x] at hx
    nlinarith

end CCollisions

namespace CCollisions

open vec matrix geomath physics

theorem backGraze_velocity :
    (⟨0, -60, -80⟩ : TVector ℝ).scale 1 - (⟨0, 0, 0⟩ : TVector ℝ).scale 1 = ⟨0, -60, -80⟩ := by
  ext <;> simp [sub_x, sub_y, sub_z, scale_x, scale_y, scale_z]

/-- The ball `backGrazeBall` does not reach the triangle of the corners 4, 5, 6 of
`grazeBox`. -/
theorem backGraze_triangle_456 (ep1 ep2 : TVector ℝ) :
    IntersectBallTriangle Real.sqrt ⟨325, 743, 24⟩ ((⟨0, -60, -80⟩ : TVector ℝ).scale 1) 65
        ((⟨0, 0, 0⟩ : TVector ℝ).scale 1) ⟨0, 0, 650⟩ ⟨650, 0, 650⟩ ⟨0, 650, 650⟩ 1 ep1 ep2
      = Except.ok { t := 1000, edge_collision := true, edge_p1 := ep1, edge_p2 := ep2 } := by
  refine IntersectBallTriangle_of_no_hit _ _ _ _ _ _ _ _ _ _ _ ⟨0, 0, 1⟩ (-691 / 80) ?_ ?_ ?_ ?_ ?_ ?_
  · rw [Normalize_of_length _ 422500 (by norm_num)
      (by norm_num [dot_def, CrossProduct, sub_x, sub_y, sub_z])]
    refine congrArg Except.ok ?_
    ext <;> norm_num [CrossProduct, sub_x, sub_y, sub_z, scale_x, scale_y, scale_z]
  · rw [backGraze_velocity, IntersectBallPlane_of_approaching _ _ _ _ _ (by norm_num [dot_def])
      (by norm_num [dot_def])]
    refine congrArg Except.ok ?_
    norm_num [dot_def]
  · rw [backGraze_velocity]
    norm_num [IsPointInTriangle, edgeSide, CrossProduct, dot_def, sub_x, sub_y, sub_z, add_x,
      add_y, add_z, scale_x, scale_y, scale_z]
  all_goals
    rw [backGraze_velocity]
    apply IntersectBallEdge_of_away
    norm_num [CrossProduct, dot_def, sub_x, sub_y, sub_z]

/-- The ball `backGrazeBall` does not reach the triangle of the corners 5, 7, 6 of
`grazeBox`. -/
theorem backGraze_triangle_576 (ep1 ep2 : TVector ℝ) :
    IntersectBallTriangle Real.sqrt ⟨325, 743, 24⟩ ((⟨0, -60, -80⟩ : TVector ℝ).scale 1) 65
        ((⟨0, 0, 0⟩ : TVector ℝ).scale 1) ⟨650, 0, 650⟩ ⟨650, 650, 650⟩ ⟨0, 650, 650⟩ 1 ep1 ep2
      = Except.ok { t := 1000, edge_collision := true, edge_p1 := ep1, edge_p2 := ep2 } := by
  refine IntersectBallTriangle_of_no_hit _ _ _ _ _ _ _ _ _ _ _ ⟨0, 0, 1⟩ (-691 / 80) ?_ ?_ ?_ ?_ ?_ ?_
  · rw [Normalize_of_length _ 422500 (by norm_num)
      (by norm_num [dot_def, CrossProduct, sub_x, sub_y, sub_z])]
    refine congrArg Except.ok ?_
    ext <;> norm_num [CrossProduct, sub_x, sub_y, sub_z, scale_x, scale_y, scale_z]
  · rw [backGraze_velocity, IntersectBallPlane_of_approaching _ _ _ _ _ (by norm_num [dot_def])
      (by norm_num [dot_def])]
    refine congrArg Except.ok ?_
    norm_num [dot_def]
  · rw [backGraze_velocity]
    norm_num [IsPointInTriangle, edgeSide, CrossProduct, dot_def, sub_x, sub_y, sub_z, add_x,
      add_y, add_z, scale_x, scale_y, scale_z]
  all_goals
    rw [backGraze_velocity]
    apply IntersectBallEdge_of_away
    norm_num [CrossProduct, dot_def, sub_x, sub_y, sub_z]

/-- The ball `backGrazeBall` does not reach the triangle of the corners 6, 0, 2 of
`grazeBox`. -/
theorem backGraze_triangle_602 (ep1 ep2 : TVector ℝ) :
    IntersectBallTriangle Real.sqrt ⟨325, 743, 24⟩ ((⟨0, -60, -80⟩ : TVector ℝ).scale 1) 65
        ((⟨0, 0, 0⟩ : TVector ℝ).scale 1) ⟨0, 650, 650⟩ ⟨0, 0, 0⟩ ⟨0, 650, 0⟩ 1 ep1 ep2
      = Except.ok { t := 1000, edge_collision := true, edge_p1 := ep1, edge_p2 := ep2 } := by
  refine IntersectBallTriangle_of_no_hit _ _ _ _ _ _ _ _ _ _ _ ⟨1, 0, 0⟩ (-1) ?_ ?_ ?_ ?_ ?_ ?_
  · rw [Normalize_of_length _ 422500 (by norm_num)
      (by norm_num [dot_def, CrossProduct, sub_x, sub_y, sub_z])]
    refine congrArg Except.ok ?_
    ext <;> norm_num [CrossProduct, sub_x, sub_y, sub_z, scale_x, scale_y, scale_z]
  · rw [backGraze_velocity]
    exact IntersectBallPlane_of_receding _ _ _ _ _ (by norm_num [dot_def])
      (by norm_num [dot_def])
  · rw [backGraze_velocity]
    norm_num [IsPointInTriangle, edgeSide, CrossProduct, dot_def, sub_x, sub_y, sub_z, add_x,
      add_y, add_z, scale_x, scale_y, scale_z]
  all_goals
    rw [backGraze_velocity]
    first
    | (apply IntersectBallEdge_of_away
       norm_num [CrossProduct, dot_def, sub_x, sub_y, sub_z]
       done)
    | (apply IntersectBallEdge_of_miss
       · norm_num [CrossProduct, dot_def, sub_x, sub_y, sub_z]
       · norm_num [CrossProduct, dot_def, sub_x, sub_y, sub_z])

/-- The ball `backGrazeBall` does not reach the triangle of the corners 6, 0, 4 of
`grazeBox`. -/
theorem backGraze_triangle_604 (ep1 ep2 : TVector ℝ) :
    IntersectBallTriangle Real.sqrt ⟨325, 743, 24⟩ ((⟨0, -60, -80⟩ : TVector ℝ).scale 1) 65
        ((⟨0, 0, 0⟩ : TVector ℝ).scale 1) ⟨0, 650, 650⟩ ⟨0, 0, 0⟩ ⟨0, 0, 650⟩ 1 ep1 ep2
      = Except.ok { t := 1000, edge_collision := true, edge_p1 := ep1, edge_p2 := ep2 } := by
  refine IntersectBallTriangle_of_no_hit _ _ _ _ _ _ _ _ _ _ _ ⟨-1, 0, 0⟩ (-1) ?_ ?_ ?_ ?_ ?_ ?_
  · rw [Normalize_of_length _ 422500 (by norm_num)
      (by norm_num [dot_def, CrossProduct, sub_x, sub_y, sub_z])]
    refine congrArg Except.ok ?_
    ext <;> norm_num [CrossProduct, sub_x, sub_y, sub_z, scale_x, scale_y, scale_z]
  · rw [backGraze_velocity]
    exact IntersectBallPlane_of_receding _ _ _ _ _ (by norm_num [dot_def])
      (by norm_num [dot_def])
  · rw [backGraze_velocity]
    norm_num [IsPointInTriangle, edgeSide, CrossProduct, dot_def, sub_x, sub_y, sub_z, add_x,
      add_y, add_z, scale_x, scale_y, scale_z]
  all_goals
    rw [backGraze_velocity]
    first
    | (apply IntersectBallEdge_of_away
       norm_num [CrossProduct, dot_def, sub_x, sub_y, sub_z]
       done)
    | (apply IntersectBallEdge_of_miss
       · norm_num [CrossProduct, dot_def, sub_x, sub_y, sub_z]
       · norm_num [CrossProduct, dot_def, sub_x, sub_y, sub_z])

/-- The ball `backGrazeBall` does not reach the triangle of the corners 1, 3, 5 of
`grazeBox`. -/
theorem backGraze_triangle_135 (ep1 ep2 : TVector ℝ) :
    IntersectBallTriangle Real.sqrt ⟨325, 743, 24⟩ ((⟨0, -60, -80⟩ : TVector ℝ).scale 1) 65
        ((⟨0, 0, 0⟩ : TVector ℝ).scale 1) ⟨650, 0, 0⟩ ⟨650, 650, 0⟩ ⟨650, 0, 650⟩ 1 ep1 ep2
      = Except.ok { t := 1000, edge_collision := true, edge_p1 := ep1, edge_p2 := ep2 } := by
  refine IntersectBallTriangle_of_no_hit _ _ _ _ _ _ _ _ _ _ _ ⟨1, 0, 0⟩ (-1) ?_ ?_ ?_ ?_ ?_ ?_
  · rw [Normalize_of_length _ 422500 (by norm_num)
      (by norm_num [dot_def, CrossProduct, sub_x, sub_y, sub_z])]
    refine congrArg Except.ok ?_
    ext <;> norm_num [CrossProduct, sub_x, sub_y, sub_z, scale_x, scale_y, scale_z]
  · rw [backGraze_velocity]
    exact IntersectBallPlane_of_receding _ _ _ _ _ (by norm_num [dot_def])
      (by norm_num [dot_def])
  · rw [backGraze_velocity]
    norm_num [IsPointInTriangle, edgeSide, CrossProduct, dot_def, sub_x, sub_y, sub_z, add_x,
      add_y, add_z, scale_x, scale_y, scale_z]
  all_goals
    rw [backGraze_velocity]
    apply IntersectBallEdge_of_miss
    · norm_num [CrossProduct, dot_def, sub_x, sub_y, sub_z]
    · norm_num [CrossProduct, dot_def, sub_x, sub_y, sub_z]

/-- The ball `backGrazeBall` does not reach the triangle of the corners 5, 3, 7 of
`grazeBox`. -/
theorem backGraze_triangle_537 (ep1 ep2 : TVector ℝ) :
    IntersectBallTriangle Real.sqrt ⟨325, 743, 24⟩ ((⟨0, -60, -80⟩ : TVector ℝ).scale 1) 65
        ((⟨0, 0, 0⟩ : TVector ℝ).scale 1) ⟨650, 0, 650⟩ ⟨650, 650, 0⟩ ⟨650, 650, 650⟩ 1 ep1 ep2
      = Except.ok { t := 1000, edge_collision := true, edge_p1 := ep1, edge_p2 := ep2 } := by
  refine IntersectBallTriangle_of_no_hit _ _ _ _ _ _ _ _ _ _ _ ⟨1, 0, 0⟩ (-1) ?_ ?_ ?_ ?_ ?_ ?_
  · rw [Normalize_of_length _ 422500 (by norm_num)
      (by norm_num [dot_def, CrossProduct, sub_x, sub_y, sub_z])]
    refine congrArg Except.ok ?_
    ext <;> norm_num [CrossProduct, sub_x, sub_y, sub_z, scale_x, scale_y, scale_z]
  · rw [backGraze_velocity]
    exact IntersectBallPlane_of_receding _ _ _ _ _ (by norm_num [dot_def])
      (by norm_num [dot_def])
  · rw [backGraze_velocity]
    norm_num [IsPointInTriangle, edgeSide, CrossProduct, dot_def, sub_x, sub_y, sub_z, add_x,
      add_y, add_z, scale_x, scale_y, scale_z]
  all_goals
    rw [backGraze_velocity]
    first
    | (apply IntersectBallEdge_of_away
       norm_num [CrossProduct, dot_def, sub_x, sub_y, sub_z]
       done)
    | (apply IntersectBallEdge_of_miss
       · norm_num [CrossProduct, dot_def, sub_x, sub_y, sub_z]
       · norm_num [CrossProduct, dot_def, sub_x, sub_y, sub_z])

/-- The ball `backGrazeBall` leaves the cylinder about the edge from the corner 3 to the
corner 2 at the time 1. -/
theorem backGraze_edge_32 :
    IntersectBallEdge Real.sqrt ⟨325, 743, 24⟩ ⟨0, -60, -80⟩ 65 ⟨650, 650, 0⟩ ⟨0, 650, 0⟩
      true 1 = Except.ok 1 := by
  simp only [IntersectBallEdge, Solve2ODE, CrossProduct, dot_def, sub_x, sub_y, sub_z, add_x,
    add_y, add_z, scale_x, scale_y, scale_z, fdiv, bind, Except.bind, pure, Except.pure]
  norm_num [graze_sqrt]

/-- The triangle of the corners 7, 3, 2 of `grazeBox`: the edge from 3 to 2 is
found at the time 1. -/
theorem backGraze_triangle_732 (ep1 ep2 : TVector ℝ) :
    IntersectBallTriangle Real.sqrt ⟨325, 743, 24⟩ ((⟨0, -60, -80⟩ : TVector ℝ).scale 1) 65
        ((⟨0, 0, 0⟩ : TVector ℝ).scale 1) ⟨650, 650, 650⟩ ⟨650, 650, 0⟩ ⟨0, 650, 0⟩ 1 ep1 ep2
      = Except.ok { t := 1, edge_collision := true, edge_p1 := ⟨650, 650, 0⟩,
                    edge_p2 := ⟨0, 650, 0⟩ } := by
  have hn : (CrossProduct ((⟨650, 650, 0⟩ : TVector ℝ) - ⟨650, 650, 650⟩)
      ((⟨0, 650, 0⟩ : TVector ℝ) - ⟨650, 650, 0⟩)).Normalize Real.sqrt
        = Except.ok ⟨0, 1, 0⟩ := by
    rw [Normalize_of_length _ 422500 (by norm_num)
      (by norm_num [dot_def, CrossProduct, sub_x, sub_y, sub_z])]
    refine congrArg Except.ok ?_
    ext <;> norm_num [CrossProduct, sub_x, sub_y, sub_z, scale_x, scale_y, scale_z]
  have ht : IntersectBallPlane Real.sqrt ⟨325, 743, 24⟩ 65 ⟨0, -60, -80⟩ ⟨650, 650, 650⟩
      ⟨0, 1, 0⟩ = Except.ok (7 / 15) := by
    rw [IntersectBallPlane_of_approaching _ _ _ _ _ (by norm_num [dot_def])
      (by norm_num [dot_def])]
    refine congrArg Except.ok ?_
    norm_num [dot_def]
  have hout : IsPointInTriangle ((⟨325, 743, 24⟩ : TVector ℝ)
      + (⟨0, -60, -80⟩ : TVector ℝ).scale (7 / 15)) ⟨0, 1, 0⟩ ⟨650, 650, 650⟩ ⟨650, 650, 0⟩
        ⟨0, 650, 0⟩ = false := by
    norm_num [IsPointInTriangle, edgeSide, CrossProduct, dot_def, sub_x, sub_y, sub_z, add_x,
      add_y, add_z, scale_x, scale_y, scale_z]
  have h1 : IntersectBallEdge Real.sqrt ⟨325, 743, 24⟩ ⟨0, -60, -80⟩ 65 ⟨650, 650, 650⟩
      ⟨650, 650, 0⟩ true 1 = Except.ok (-1) := by
    apply IntersectBallEdge_of_miss
    · norm_num [CrossProduct, dot_def, sub_x, sub_y, sub_z]
    · norm_num [CrossProduct, dot_def, sub_x, sub_y, sub_z]
  have h3 : IntersectBallEdge Real.sqrt ⟨325, 743, 24⟩ ⟨0, -60, -80⟩ 65 ⟨0, 650, 0⟩
      ⟨650, 650, 650⟩ true 1 = Except.ok (-1) := by
    apply IntersectBallEdge_of_away
    norm_num [CrossProduct, dot_def, sub_x, sub_y, sub_z]
  simp only [IntersectBallTriangle, backGraze_velocity, hn, ht, hout, bind, Except.bind,
    IntersectBallTriangle.edge, h1, backGraze_edge_32, h3, Bool.false_eq_true, if_false, pure,
    Except.pure]
  norm_num

/-- The ball `backGrazeBall` does not reach the triangle of the corners 6, 7, 2 of
`grazeBox`. -/
theorem backGraze_triangle_672 (ep1 ep2 : TVector ℝ) :
    IntersectBallTriangle Real.sqrt ⟨325, 743, 24⟩ ((⟨0, -60, -80⟩ : TVector ℝ).scale 1) 65
        ((⟨0, 0, 0⟩ : TVector ℝ).scale 1) ⟨0, 650, 650⟩ ⟨650, 650, 650⟩ ⟨0, 650, 0⟩ 1 ep1 ep2
      = Except.ok { t := 1000, edge_collision := true, edge_p1 := ep1, edge_p2 := ep2 } := by
  refine IntersectBallTriangle_of_no_hit _ _ _ _ _ _ _ _ _ _ _ ⟨0, 1, 0⟩ (7 / 15) ?_ ?_ ?_ ?_ ?_ ?_
  · rw [Normalize_of_length _ 422500 (by norm_num)
      (by norm_num [dot_def, CrossProduct, sub_x, sub_y, sub_z])]
    refine congrArg Except.ok ?_
    ext <;> norm_num [CrossProduct, sub_x, sub_y, sub_z, scale_x, scale_y, scale_z]
  · rw [backGraze_velocity, IntersectBallPlane_of_approaching _ _ _ _ _ (by norm_num [dot_def])
      (by norm_num [dot_def])]
    refine congrArg Except.ok ?_
    norm_num [dot_def]
  · rw [backGraze_velocity]
    norm_num [IsPointInTriangle, edgeSide, CrossProduct, dot_def, sub_x, sub_y, sub_z, add_x,
      add_y, add_z, scale_x, scale_y, scale_z]
  all_goals
    rw [backGraze_velocity]
    first
    | (apply IntersectBallEdge_of_away
       norm_num [CrossProduct, dot_def, sub_x, sub_y, sub_z]
       done)
    | (apply IntersectBallEdge_of_miss
       · norm_num [CrossProduct, dot_def, sub_x, sub_y, sub_z]
       · norm_num [CrossProduct, dot_def, sub_x, sub_y, sub_z])

/-- The ball `backGrazeBall` leaves the cylinder about the edge from the corner 2 to the
corner 3 at the time 1. -/
theorem backGraze_edge_23 :
    IntersectBallEdge Real.sqrt ⟨325, 743, 24⟩ ⟨0, -60, -80⟩ 65 ⟨0, 650, 0⟩ ⟨650, 650, 0⟩
      true 1 = Except.ok 1 := by
  simp only [IntersectBallEdge, Solve2ODE, CrossProduct, dot_def, sub_x, sub_y, sub_z, add_x,
    add_y, add_z, scale_x, scale_y, scale_z, fdiv, bind, Except.bind, pure, Except.pure]
  norm_num [graze_sqrt]

/-- The triangle of the corners 2, 3, 0 of `grazeBox`: the edge from 2 to 3 is
found at the time 1. -/
theorem backGraze_triangle_230 (ep1 ep2 : TVector ℝ) :
    IntersectBallTriangle Real.sqrt ⟨325, 743, 24⟩ ((⟨0, -60, -80⟩ : TVector ℝ).scale 1) 65
        ((⟨0, 0, 0⟩ : TVector ℝ).scale 1) ⟨0, 650, 0⟩ ⟨650, 650, 0⟩ ⟨0, 0, 0⟩ 1 ep1 ep2
      = Except.ok { t := 1, edge_collision := true, edge_p1 := ⟨0, 650, 0⟩,
                    edge_p2 := ⟨650, 650, 0⟩ } := by
  have hn : (CrossProduct ((⟨650, 650, 0⟩ : TVector ℝ) - ⟨0, 650, 0⟩)
      ((⟨0, 0, 0⟩ : TVector ℝ) - ⟨650, 650, 0⟩)).Normalize Real.sqrt
        = Except.ok ⟨0, 0, -1⟩ := by
    rw [Normalize_of_length _ 422500 (by norm_num)
      (by norm_num [dot_def, CrossProduct, sub_x, sub_y, sub_z])]
    refine congrArg Except.ok ?_
    ext <;> norm_num [CrossProduct, sub_x, sub_y, sub_z, scale_x, scale_y, scale_z]
  have ht : IntersectBallPlane Real.sqrt ⟨325, 743, 24⟩ 65 ⟨0, -60, -80⟩ ⟨0, 650, 0⟩
      ⟨0, 0, -1⟩ = Except.ok (-1) :=
    IntersectBallPlane_of_receding _ _ _ _ _ (by norm_num [dot_def]) (by norm_num [dot_def])
  have hout : IsPointInTriangle ((⟨325, 743, 24⟩ : TVector ℝ)
      + (⟨0, -60, -80⟩ : TVector ℝ).scale (-1)) ⟨0, 0, -1⟩ ⟨0, 650, 0⟩ ⟨650, 650, 0⟩
        ⟨0, 0, 0⟩ = false := by
    norm_num [IsPointInTriangle, edgeSide, CrossProduct, dot_def, sub_x, sub_y, sub_z, add_x,
      add_y, add_z, scale_x, scale_y, scale_z]
  have h2 : IntersectBallEdge Real.sqrt ⟨325, 743, 24⟩ ⟨0, -60, -80⟩ 65 ⟨650, 650, 0⟩
      ⟨0, 0, 0⟩ true 1 = Except.ok (-1) := by
    apply IntersectBallEdge_of_miss
    · norm_num [CrossProduct, dot_def, sub_x, sub_y, sub_z]
    · norm_num [CrossProduct, dot_def, sub_x, sub_y, sub_z]
  have h3 : IntersectBallEdge Real.sqrt ⟨325, 743, 24⟩ ⟨0, -60, -80⟩ 65 ⟨0, 0, 0⟩
      ⟨0, 650, 0⟩ true 1 = Except.ok (-1) := by
    apply IntersectBallEdge_of_miss
    · norm_num [CrossProduct, dot_def, sub_x, sub_y, sub_z]
    · norm_num [CrossProduct, dot_def, sub_x, sub_y, sub_z]
  simp only [IntersectBallTriangle, backGraze_velocity, hn, ht, hout, bind, Except.bind,
    IntersectBallTriangle.edge, backGraze_edge_23, h2, h3, Bool.false_eq_true, if_false, pure,
    Except.pure]
  norm_num

/-- The ball `backGrazeBall` does not reach the triangle of the corners 3, 1, 0 of
`grazeBox`. -/
theorem backGraze_triangle_310 (ep1 ep2 : TVector ℝ) :
    IntersectBallTriangle Real.sqrt ⟨325, 743, 24⟩ ((⟨0, -60, -80⟩ : TVector ℝ).scale 1) 65
        ((⟨0, 0, 0⟩ : TVector ℝ).scale 1) ⟨650, 650, 0⟩ ⟨650, 0, 0⟩ ⟨0, 0, 0⟩ 1 ep1 ep2
      = Except.ok { t := 1000, edge_collision := true, edge_p1 := ep1, edge_p2 := ep2 } := by
  refine IntersectBallTriangle_of_no_hit _ _ _ _ _ _ _ _ _ _ _ ⟨0, 0, -1⟩ (-1) ?_ ?_ ?_ ?_ ?_ ?_
  · rw [Normalize_of_length _ 422500 (by norm_num)
      (by norm_num [dot_def, CrossProduct, sub_x, sub_y, sub_z])]
    refine congrArg Except.ok ?_
    ext <;> norm_num [CrossProduct, sub_x, sub_y, sub_z, scale_x, scale_y, scale_z]
  · rw [backGraze_velocity]
    exact IntersectBallPlane_of_receding _ _ _ _ _ (by norm_num [dot_def])
      (by norm_num [dot_def])
  · rw [backGraze_velocity]
    norm_num [IsPointInTriangle, edgeSide, CrossProduct, dot_def, sub_x, sub_y, sub_z, add_x,
      add_y, add_z, scale_x, scale_y, scale_z]
  all_goals
    rw [backGraze_velocity]
    apply IntersectBallEdge_of_miss
    · norm_num [CrossProduct, dot_def, sub_x, sub_y, sub_z]
    · norm_num [CrossProduct, dot_def, sub_x, sub_y, sub_z]

end CCollisions

namespace CCollisions

open vec matrix geomath physics

/-- The 10 triangle tests of `TestBoxBall` for `grazeBox` and `backGrazeBall`, entered
with `edge_collision = false`: the time 1 is found in the triangle 7, 3, 2 of the top
face, whose block does not assign `edge_collision`, and the triangle 2, 3, 0 of the
back face finds the same time, which is not sooner; `edge_collision` is still false
after the 10 tests. -/
theorem backGraze_pair (loc : TestBoxBall.Locals ℝ) (hloc : loc.edge_collision = false) :
    TestBoxBall.pair Real.sqrt [grazeBox] [backGrazeBall] 1 0 0 loc
      = Except.ok { temp_time := 1, edge_collision := false, ep1 := ⟨0, 650, 0⟩,
                    ep2 := ⟨650, 650, 0⟩, tri_coords0 := ⟨650, 650, 650⟩,
                    tri_coords1 := ⟨650, 650, 0⟩, tri_coords2 := ⟨0, 650, 0⟩ } := by
  simp only [TestBoxBall.pair, getAt, List.getElem?_cons_zero, bind, Except.bind,
    TestBoxBall.triangle, grazeBox_vertex_0, grazeBox_vertex_1, grazeBox_vertex_2,
    grazeBox_vertex_3, grazeBox_vertex_4, grazeBox_vertex_5, grazeBox_vertex_6,
    grazeBox_vertex_7]
  simp only [backGrazeBall, grazeBox, backGraze_triangle_456, backGraze_triangle_576,
    backGraze_triangle_602, backGraze_triangle_604, backGraze_triangle_135,
    backGraze_triangle_537, backGraze_triangle_732, backGraze_triangle_672,
    backGraze_triangle_230, backGraze_triangle_310]
  norm_num [pure, Except.pure, hloc]

end CCollisions

namespace CCollisions

open vec matrix geomath physics

theorem backGraze_pair_start (s : CCollisions ℝ) :
    TestBoxBall.pair Real.sqrt [grazeBox] [backGrazeBall] 1 0 0 (TestBoxBall.start s)
      = Except.ok { temp_time := 1, edge_collision := false, ep1 := ⟨0, 650, 0⟩,
                    ep2 := ⟨650, 650, 0⟩, tri_coords0 := ⟨650, 650, 650⟩,
                    tri_coords1 := ⟨650, 650, 0⟩, tri_coords2 := ⟨0, 650, 0⟩ } :=
  backGraze_pair _ rfl

/-- The test passes of the first iteration in `backGrazeWorld`: one collision at the
time 1, recorded for the triangle 7, 3, 2 of the top face with `edge_collision = false`. -/
theorem runTests_backGraze :
    runTests Real.sqrt (loopHead (K := ℝ) backGrazeWorld) 1
      = Except.ok { loopHead backGrazeWorld with
          num_sim_collisions := 1
          min_time := 1
          tri_coords0 := ⟨650, 650, 650⟩
          tri_coords1 := ⟨650, 650, 0⟩
          tri_coords2 := ⟨0, 650, 0⟩
          p_cdata := [{ collID := BALL_BOX_COLLISION, object1 := 0, object2 := 0,
                        edge_collision := false, v1 := ⟨650, 650, 650⟩,
                        v2 := ⟨650, 650, 0⟩, v3 := ⟨0, 650, 0⟩, edge_p1 := ⟨0, 650, 0⟩,
                        edge_p2 := ⟨650, 650, 0⟩ }, blankRecord] } := by
  unfold runTests
  dsimp only
  rw [TestBallBall_no_pair _ _ _ (le_refl 1)]
  simp only [bind, Except.bind]
  rw [TestBallWall_no_walls _ _ _ rfl]
  simp only []
  rw [TestBoxWall_no_walls _ _ _ rfl]
  simp only []
  rw [TestBoxBox_no_pair _ _ (le_refl 1)]
  simp only []
  simp only [TestBoxBall, loopHead, init, backGrazeWorld, List.length_cons, List.length_nil,
    List.range, List.range.loop, List.foldlM, bind, Except.bind, backGraze_pair_start]
  rw [record_of_sooner _ _ _ blankRecord]
  · simp only [pure, Except.pure, List.replicate, List.set_cons_zero, blankRecord]
  · norm_num
  · show (1 : ℝ) ≤ 1
    norm_num
  · show ¬ |(1 : ℝ) - 1000| ≤ ZERO
    rw [abs_of_neg (by norm_num)]
    norm_num [ZERO]
  · show (1 : ℝ) < 1000
    norm_num
  · rfl

/-- Claim C28 (the flag `edge_collision` recorded by `TestBoxBall`, at the failing
input). In `backGrazeWorld` the ball meets the edge between the top face and the back
face of the box at the time 1. The test passes record this collision, with the
triangle 7, 3, 2 of the top face, whose call of `IntersectBallTriangle` produced the
minimum time 1 with the output `edge_collision = true`; the flag stored in the record
is false, the value that the variable had before the tests, because the two blocks of
the top face do not assign it. -/
theorem TestBoxBall_records_stale_edge_flag :
    ∃ s cd, runTests Real.sqrt (loopHead (K := ℝ) backGrazeWorld) 1 = Except.ok s
      ∧ s.num_sim_collisions = 1 ∧ s.min_time = 1
      ∧ s.p_cdata[0]? = some cd
      ∧ cd.collID = BALL_BOX_COLLISION ∧ cd.object1 = 0 ∧ cd.object2 = 0
      ∧ cd.v1 = ⟨650, 650, 650⟩ ∧ cd.v2 = ⟨650, 650, 0⟩ ∧ cd.v3 = ⟨0, 650, 0⟩
      ∧ cd.edge_collision = false
      ∧ ∀ ep1 ep2 : TVector ℝ, ∃ hit,
          IntersectBallTriangle Real.sqrt (backGrazeBall (K := ℝ)).center
              ((backGrazeBall (K := ℝ)).vel.scale 1) (backGrazeBall (K := ℝ)).radius
              ((grazeBox (K := ℝ)).vel.scale 1) ⟨650, 650, 650⟩ ⟨650, 650, 0⟩ ⟨0, 650, 0⟩ 1
              ep1 ep2 = Except.ok hit
            ∧ hit.t = 1 ∧ hit.edge_collision = true :=
  ⟨_, _, runTests_backGraze, rfl, rfl, rfl, rfl, rfl, rfl, rfl, rfl, rfl, rfl,
    fun ep1 ep2 => ⟨_, backGraze_triangle_732 ep1 ep2, rfl, rfl⟩⟩

end CCollisions

/-! ### The response to a collision of a ball with a face of a box -/

namespace physics

open vec

/-- The component along an axis is the same for the axis and for a multiple of the
axis by a factor of square 1, such as its opposite. -/
theorem scale_dot_scale {K : Type} [LinearOrderedField K] (n v : TVector K) (σ : K)
    (hσ : σ * σ = 1) : (n.scale σ).scale ((n.scale σ).dot v) = n.scale (n.dot v) := by
  ext
  · simp only [scale_x, dot_def, scale_y, scale_z]
    linear_combination (n.x * (n.x * v.x + n.y * v.y + n.z * v.z)) * hσ
  · simp only [scale_x, dot_def, scale_y, scale_z]
    linear_combination (n.y * (n.x * v.x + n.y * v.y + n.z * v.z)) * hσ
  · simp only [scale_x, dot_def, scale_y, scale_z]
    linear_combination (n.z * (n.x * v.x + n.y * v.y + n.z * v.z)) * hσ

theorem exchangeAlong_scale {K : Type} [LinearOrderedField K] (n v1 v2 : TVector K) (σ : K)
    (hσ : σ * σ = 1) : exchangeAlong (n.scale σ) v1 v2 = exchangeAlong n v1 v2 := by
  unfold exchangeAlong
  rw [scale_dot_scale n v1 σ hσ, scale_dot_scale n v2 σ hσ]

/-- The unit vector along the line from a point `c` to `c + k n`, for a unit vector `n`
and `k ≠ 0`, is `n` or `-n`. -/
theorem lineOfCentres_along (c n : TVector ℝ) (k : ℝ) (hn : n.dot n = 1) (hk : k ≠ 0) :
    ∃ σ : ℝ, σ * σ = 1 ∧ lineOfCentres Real.sqrt c (c + lscale k n) = n.scale σ := by
  have hd : c + lscale k n - c = n.scale k := by
    ext <;> simp only [add_x, add_y, add_z, sub_x, sub_y, sub_z, scale_x, scale_y, scale_z,
      lscale_x, lscale_y, lscale_z] <;> ring
  have hm : Magnitude Real.sqrt (n.scale k) = |k| := by
    rw [geomath.Magnitude_eq_sqrt_dot]
    have : (n.scale k).dot (n.scale k) = k * k := by
      rw [dot_def] at hn
      simp only [dot_def, scale_x, scale_y, scale_z]
      calc n.x * k * (n.x * k) + n.y * k * (n.y * k) + n.z * k * (n.z * k)
          = (n.x * n.x + n.y * n.y + n.z * n.z) * (k * k) := by ring
        _ = k * k := by rw [hn, one_mul]
    rw [this]
    exact Real.sqrt_mul_self_eq_abs k
  have habs : |k| ≠ 0 := abs_ne_zero.mpr hk
  refine ⟨k * (1 / |k|), ?_, ?_⟩
  · have h1 : |k| * |k| = k * k := abs_mul_abs_self k
    have h2 : k * (1 / |k|) * (k * (1 / |k|)) = k * k / (|k| * |k|) := by
      field_simp
    rw [h2, h1, div_self (mul_self_ne_zero.mpr hk)]
  · unfold lineOfCentres
    rw [hd, hm]
    ext <;> simp only [scale_x, scale_y, scale_z] <;> ring

/-- A point is moved by a multiple `k ≠ 0` of a unit vector. -/
theorem ne_add_lscale (c n : TVector ℝ) (k : ℝ) (hn : n.dot n = 1) (hk : k ≠ 0) :
    c ≠ c + lscale k n := by
  intro h
  have hx := congrArg TVector.x h
  have hy := congrArg TVector.y h
  have hz := congrArg TVector.z h
  simp only [add_x, add_y, add_z, lscale_x, lscale_y, lscale_z] at hx hy hz
  have hx0 : k * n.x = 0 := by linarith
  have hy0 : k * n.y = 0 := by linarith
  have hz0 : k * n.z = 0 := by linarith
  have e : k * k * n.dot n = k * n.x * (k * n.x) + k * n.y * (k * n.y) + k * n.z * (k * n.z) := by
    rw [dot_def]
    ring
  rw [hn, hx0, hy0, hz0] at e
  have : k * k = 0 := by linarith
  exact hk (mul_self_eq_zero.mp this)

end physics

namespace CCollisions

open vec matrix geomath physics

/-- The face branch of `BallBoxResponse` for a unit normal `n` of the recorded
triangle and a ball whose centre is not in the plane through `tri_coords[0]`. -/
theorem BallBoxResponse_face (s : CCollisions ℝ) (i : Nat) (cd : colldata ℝ)
    (ball : TBall ℝ) (box : TBox ℝ) (n : TVector ℝ) (hcd : s.p_cdata[i]? = some cd)
    (he : cd.edge_collision = false) (hball : s.p_balls[cd.object1]? = some ball)
    (hbox : s.p_boxes[cd.object2]? = some box)
    (hnorm : (CrossProduct (cd.v1 - cd.v2) (cd.v2 - cd.v3)).Normalize Real.sqrt = Except.ok n)
    (hunit : n.dot n = 1) (hplane : n.dot (ball.center - s.tri_coords0) ≠ 0) :
    ∃ s' ball' box', BallBoxResponse Real.sqrt s i = Except.ok s'
      ∧ s'.p_balls[cd.object1]? = some ball'
      ∧ s'.p_boxes[cd.object2]? = some box'
      ∧ ball'.vel = ball.vel - n.scale (n.dot ball.vel) + n.scale (n.dot box.vel)
      ∧ box'.vel = box.vel - n.scale (n.dot box.vel) + n.scale (n.dot ball.vel) := by
  have hk : (lscale (-1) n).dot (ball.center - s.tri_coords0) ≠ 0 := by
    have : (lscale (-1) n).dot (ball.center - s.tri_coords0)
        = -(n.dot (ball.center - s.tri_coords0)) := by
      simp only [dot_def, lscale_x, lscale_y, lscale_z]
      ring
    rw [this]
    exact neg_ne_zero.mpr hplane
  obtain ⟨σ, hσ, hline⟩ := lineOfCentres_along ball.center n _ hunit hk
  have hne := ne_add_lscale ball.center n _ hunit hk
  have heff := (MObjMObjEffects_exchanges_normal ball.vel ball.center box.vel _ hne).1
  rw [hline, exchangeAlong_scale _ _ _ σ hσ] at heff
  obtain ⟨axis, haxis⟩ : ∃ axis, (if Magnitude Real.sqrt
      (⟨(exchangeAlong n ball.vel box.vel).1.z, 0,
        -(exchangeAlong n ball.vel box.vel).1.x⟩ : TVector ℝ) > 0
      then (⟨(exchangeAlong n ball.vel box.vel).1.z, 0,
        -(exchangeAlong n ball.vel box.vel).1.x⟩ : TVector ℝ).Normalize Real.sqrt
      else (pure ⟨-1, 0, 0⟩ : Except Fault (TVector ℝ))) = Except.ok axis := by
    split
    · exact Normalize_ok _
    · exact ⟨_, rfl⟩
  have hlb : cd.object1 < s.p_balls.length := (List.getElem?_eq_some_iff.mp hball).1
  have hlx : cd.object2 < s.p_boxes.length := (List.getElem?_eq_some_iff.mp hbox).1
  refine ⟨{ s with
      p_balls := s.p_balls.set cd.object1
        { ball with vel := (exchangeAlong n ball.vel box.vel).1, axis := axis },
      p_boxes := s.p_boxes.set cd.object2
        { box with vel := (exchangeAlong n ball.vel box.vel).2 } },
    { ball with vel := (exchangeAlong n ball.vel box.vel).1, axis := axis },
    { box with vel := (exchangeAlong n ball.vel box.vel).2 }, ?_, ?_, ?_, rfl, rfl⟩
  · simp only [BallBoxResponse, getAt, hcd, hball, hbox, he, Bool.false_eq_true, if_false, bind,
      Except.bind, hnorm, heff, modifyAt, pure, Except.pure]
    split
    · rename_i hmag
      rw [if_pos hmag] at haxis
      rw [haxis]
    · rename_i hmag
      rw [if_neg hmag] at haxis
      injection haxis with haxis
      rw [← haxis]
  · simp only [List.getElem?_set_self hlb]
  · simp only [List.getElem?_set_self hlx]

/-- Claim C31 (the face branch of `BallBoxResponse`). For a record of a face collision
whose triangle `(v1, v2, v3)` is not degenerate, with `n` its unit normal, and a ball
whose centre is not in the plane through `tri_coords[0]` with the normal `n`, the
method returns, and the new velocities are `v_ball - (n·v_ball)n + (n·v_box)n` for the
ball and `v_box - (n·v_box)n + (n·v_ball)n` for the box, whatever corner the member
`tri_coords[0]` holds. -/
theorem BallBoxResponse_face_exchanges_normal (s : CCollisions ℝ) (i : Nat) (cd : colldata ℝ)
    (ball : TBall ℝ) (box : TBox ℝ) (hcd : s.p_cdata[i]? = some cd)
    (he : cd.edge_collision = false) (hball : s.p_balls[cd.object1]? = some ball)
    (hbox : s.p_boxes[cd.object2]? = some box)
    (hdeg : CrossProduct (cd.v1 - cd.v2) (cd.v2 - cd.v3) ≠ ⟨0, 0, 0⟩)
    (hplane : (CrossProduct (cd.v1 - cd.v2) (cd.v2 - cd.v3)).dot
      (ball.center - s.tri_coords0) ≠ 0) :
    ∃ n s' ball' box',
      (CrossProduct (cd.v1 - cd.v2) (cd.v2 - cd.v3)).Normalize Real.sqrt = Except.ok n
      ∧ n.dot n = 1
      ∧ BallBoxResponse Real.sqrt s i = Except.ok s'
      ∧ s'.p_balls[cd.object1]? = some ball'
      ∧ s'.p_boxes[cd.object2]? = some box'
      ∧ ball'.vel = ball.vel - n.scale (n.dot ball.vel) + n.scale (n.dot box.vel)
      ∧ box'.vel = box.vel - n.scale (n.dot box.vel) + n.scale (n.dot ball.vel) := by
  have hpos := dot_self_pos_of_ne_zero _ hdeg
  have hm := Magnitude_pos _ hpos
  have hnorm := Normalize_of_pos _ hpos
  have hunit := dot_self_scale_inv_Magnitude _ hpos
  have hk : ((CrossProduct (cd.v1 - cd.v2) (cd.v2 - cd.v3)).scale
      (1 / Magnitude Real.sqrt (CrossProduct (cd.v1 - cd.v2) (cd.v2 - cd.v3)))).dot
        (ball.center - s.tri_coords0) ≠ 0 := by
    have : ((CrossProduct (cd.v1 - cd.v2) (cd.v2 - cd.v3)).scale
        (1 / Magnitude Real.sqrt (CrossProduct (cd.v1 - cd.v2) (cd.v2 - cd.v3)))).dot
          (ball.center - s.tri_coords0)
        = (CrossProduct (cd.v1 - cd.v2) (cd.v2 - cd.v3)).dot (ball.center - s.tri_coords0)
          * (1 / Magnitude Real.sqrt (CrossProduct (cd.v1 - cd.v2) (cd.v2 - cd.v3))) := by
      simp only [dot_def, scale_x, scale_y, scale_z]
      ring
    rw [this]
    exact mul_ne_zero hplane (ne_of_gt (by positivity))
  obtain ⟨s', ball', box', h1, h2, h3, h4, h5⟩ :=
    BallBoxResponse_face s i cd ball box _ hcd he hball hbox hnorm hunit hk
  exact ⟨_, s', ball', box', hnorm, hunit, h1, h2, h3, h4, h5⟩

end CCollisions

namespace CCollisions

open vec matrix geomath physics

/-- Witness of claim C31: the ball `topBall` on the top face of `grazeBox`, with the
member `tri_coords` holding a triangle of the back face. -/
theorem BallBoxResponse_face_exchanges_normal_witness :
    ∃ n s' ball' box',
      (CrossProduct ((topRecord (K := ℝ)).v1 - (topRecord (K := ℝ)).v2)
          ((topRecord (K := ℝ)).v2 - (topRecord (K := ℝ)).v3)).Normalize Real.sqrt = Except.ok n
      ∧ n.dot n = 1
      ∧ BallBoxResponse Real.sqrt (topHit (K := ℝ)) 0 = Except.ok s'
      ∧ s'.p_balls[(topRecord (K := ℝ)).object1]? = some ball'
      ∧ s'.p_boxes[(topRecord (K := ℝ)).object2]? = some box'
      ∧ ball'.vel = (topBall (K := ℝ)).vel - n.scale (n.dot (topBall (K := ℝ)).vel)
          + n.scale (n.dot (grazeBox (K := ℝ)).vel)
      ∧ box'.vel = (grazeBox (K := ℝ)).vel - n.scale (n.dot (grazeBox (K := ℝ)).vel)
          + n.scale (n.dot (topBall (K := ℝ)).vel) :=
  BallBoxResponse_face_exchanges_normal topHit 0 topRecord topBall grazeBox rfl rfl rfl rfl
    (by
      intro h
      have := congrArg TVector.y h
      norm_num [topRecord, CrossProduct, sub_x, sub_y, sub_z] at this)
    (by norm_num [topRecord, topBall, topHit, CrossProduct, dot_def, sub_x, sub_y, sub_z])

end CCollisions

/-! ### The triangles of a box that `TestBoxBall` tests -/

namespace CCollisions

open vec matrix geomath physics

section Triangles

variable {K : Type} [LinearOrderedField K]

/-- The ten triangle blocks of `TestBoxBall.pair` are the blocks of
`TestBoxBall.triangles`, in this order. -/
theorem TestBoxBall_pair_eq_foldlM (sqrt : K → K) (p_boxes : List (TBox K))
    (p_balls : List (TBall K)) (dt : K) (t i : Nat) (loc : TestBoxBall.Locals K) :
    TestBoxBall.pair sqrt p_boxes p_balls dt t i loc
      = (do
          let box ← getAt p_boxes t
          let ball ← getAt p_balls i
          TestBoxBall.triangles.foldlM
            (fun loc tr => TestBoxBall.triangle sqrt dt box ball tr.1 tr.2.1 tr.2.2.1 tr.2.2.2 loc)
            { loc with temp_time := 1000 }) := by
  unfold TestBoxBall.pair TestBoxBall.triangles
  simp only [List.foldlM, bind_assoc, bind_pure]

end Triangles

theorem GetVertex_0 {K : Type} (b : TAABB K) :
    b.GetVertex 0 = Except.ok ⟨b.minv.x, b.minv.y, b.minv.z⟩ := rfl
theorem GetVertex_1 {K : Type} (b : TAABB K) :
    b.GetVertex 1 = Except.ok ⟨b.maxv.x, b.minv.y, b.minv.z⟩ := rfl
theorem GetVertex_2 {K : Type} (b : TAABB K) :
    b.GetVertex 2 = Except.ok ⟨b.minv.x, b.maxv.y, b.minv.z⟩ := rfl
theorem GetVertex_3 {K : Type} (b : TAABB K) :
    b.GetVertex 3 = Except.ok ⟨b.maxv.x, b.maxv.y, b.minv.z⟩ := rfl
theorem GetVertex_4 {K : Type} (b : TAABB K) :
    b.GetVertex 4 = Except.ok ⟨b.minv.x, b.minv.y, b.maxv.z⟩ := rfl
theorem GetVertex_5 {K : Type} (b : TAABB K) :
    b.GetVertex 5 = Except.ok ⟨b.maxv.x, b.minv.y, b.maxv.z⟩ := rfl
theorem GetVertex_6 {K : Type} (b : TAABB K) :
    b.GetVertex 6 = Except.ok ⟨b.minv.x, b.maxv.y, b.maxv.z⟩ := rfl
theorem GetVertex_7 {K : Type} (b : TAABB K) :
    b.GetVertex 7 = Except.ok ⟨b.maxv.x, b.maxv.y, b.maxv.z⟩ := rfl

section TriangleFaces

variable {K : Type} [LinearOrderedField K]

/-- Claim C32 (the triangles of `TestBoxBall`). There are 10 triangle blocks. For every
box the three corners of the block `k` lie in the plane of the face `k / 2`, in the
order front (`z = max`), left (`x = min`), right (`x = max`), top (`y = max`), back
(`z = min`). The two blocks of a face use the four corners of the face and no other,
and they share two corners that are opposite corners of the face, a diagonal. For a
box with `minv.y < maxv.y` every block has a corner off the bottom face `y = min`. -/
theorem TestBoxBall_triangles_on_faces :
    TestBoxBall.triangles.length = 10
    ∧ (∀ (b : TAABB K) (k : Nat), k < 10 → ∀ i ∈ TestBoxBall.corners k,
        ∃ v, b.GetVertex i = Except.ok v ∧ OnFace b (k / 2) v)
    ∧ (∀ f : Nat, f < 5 →
        (∀ i ∈ TestBoxBall.corners (2 * f) ++ TestBoxBall.corners (2 * f + 1), i ∈ faceCorners f)
        ∧ (∀ i ∈ faceCorners f,
            i ∈ TestBoxBall.corners (2 * f) ++ TestBoxBall.corners (2 * f + 1))
        ∧ (faceCorners f).Nodup ∧ (faceCorners f).length = 4
        ∧ ∃ i j, i ≠ j
            ∧ i ∈ TestBoxBall.corners (2 * f) ∧ i ∈ TestBoxBall.corners (2 * f + 1)
            ∧ j ∈ TestBoxBall.corners (2 * f) ∧ j ∈ TestBoxBall.corners (2 * f + 1)
            ∧ ∀ (b : TAABB K), ∃ v w, b.GetVertex i = Except.ok v ∧ b.GetVertex j = Except.ok w
                ∧ v + w = faceCentre2 b f)
    ∧ (∀ (b : TAABB K), b.minv.y < b.maxv.y → ∀ k : Nat, k < 10 →
        ∃ i ∈ TestBoxBall.corners k, ∃ v, b.GetVertex i = Except.ok v ∧ v.y ≠ b.minv.y) := by
  refine ⟨rfl, ?_, ?_, ?_⟩
  · intro b k hk i hi
    interval_cases k <;>
      simp only [TestBoxBall.corners, TestBoxBall.triangles, List.getElem?_cons_zero,
        List.getElem?_cons_succ, List.mem_cons, List.mem_singleton, List.not_mem_nil,
        or_false] at hi <;>
      rcases hi with rfl | rfl | rfl <;>
      first
      | exact ⟨_, GetVertex_0 b, rfl⟩
      | exact ⟨_, GetVertex_1 b, rfl⟩
      | exact ⟨_, GetVertex_2 b, rfl⟩
      | exact ⟨_, GetVertex_3 b, rfl⟩
      | exact ⟨_, GetVertex_4 b, rfl⟩
      | exact ⟨_, GetVertex_5 b, rfl⟩
      | exact ⟨_, GetVertex_6 b, rfl⟩
      | exact ⟨_, GetVertex_7 b, rfl⟩
  · intro f hf
    interval_cases f
    · refine ⟨by decide, by decide, by decide, rfl, 5, 6, by decide, by decide, by decide,
        by decide, by decide, fun b => ⟨_, _, GetVertex_5 b, GetVertex_6 b, ?_⟩⟩
      ext <;> simp only [add_x, add_y, add_z, faceCentre2, add_comm]
    · refine ⟨by decide, by decide, by decide, rfl, 6, 0, by decide, by decide, by decide,
        by decide, by decide, fun b => ⟨_, _, GetVertex_6 b, GetVertex_0 b, ?_⟩⟩
      ext <;> simp only [add_x, add_y, add_z, faceCentre2, add_comm]
    · refine ⟨by decide, by decide, by decide, rfl, 3, 5, by decide, by decide, by decide,
        by decide, by decide, fun b => ⟨_, _, GetVertex_3 b, GetVertex_5 b, ?_⟩⟩
      ext <;> simp only [add_x, add_y, add_z, faceCentre2, add_comm]
    · refine ⟨by decide, by decide, by decide, rfl, 7, 2, by decide, by decide, by decide,
        by decide, by decide, fun b => ⟨_, _, GetVertex_7 b, GetVertex_2 b, ?_⟩⟩
      ext <;> simp only [add_x, add_y, add_z, faceCentre2, add_comm]
    · refine ⟨by decide, by decide, by decide, rfl, 3, 0, by decide, by decide, by decide,
        by decide, by decide, fun b => ⟨_, _, GetVertex_3 b, GetVertex_0 b, ?_⟩⟩
      ext <;> simp only [add_x, add_y, add_z, faceCentre2, add_comm]
  · intro b hb k hk
    have hne : b.maxv.y ≠ b.minv.y := ne_of_gt hb
    interval_cases k
    · exact ⟨6, by decide, _, GetVertex_6 b, hne⟩
    · exact ⟨7, by decide, _, GetVertex_7 b, hne⟩
    · exact ⟨6, by decide, _, GetVertex_6 b, hne⟩
    · exact ⟨6, by decide, _, GetVertex_6 b, hne⟩
    · exact ⟨3, by decide, _, GetVertex_3 b, hne⟩
    · exact ⟨3, by decide, _, GetVertex_3 b, hne⟩
    · exact ⟨7, by decide, _, GetVertex_7 b, hne⟩
    · exact ⟨6, by decide, _, GetVertex_6 b, hne⟩
    · exact ⟨2, by decide, _, GetVertex_2 b, hne⟩
    · exact ⟨3, by decide, _, GetVertex_3 b, hne⟩

end TriangleFaces

section TriangleNormals

variable {K : Type} [LinearOrderedField K]

/-- Witness of claim C32: the block 6 of `TestBoxBall` takes its corners on the top
face of the box `[0, 650]^3`. -/
theorem TestBoxBall_triangles_on_faces_witness :
    ∀ i ∈ TestBoxBall.corners 6,
      ∃ v, (grazeBox (K := ℚ)).GetVertex i = Except.ok v ∧ OnFace (grazeBox (K := ℚ)).toTAABB 3 v :=
  (TestBoxBall_triangles_on_faces (K := ℚ)).2.1 (grazeBox (K := ℚ)).toTAABB 6 (by norm_num)

/-- The normals `(v1 - v0) x (v2 - v1)` of the 10 triangles of `TestBoxBall` for a box
with `minv < maxv` on all axes: a positive multiple of the direction out of the box
for every block but the block 2, the first one of the left face, whose normal is a
positive multiple of the direction into the box. -/
theorem TestBoxBall_triangle_normals (b : TAABB K) (hx : b.minv.x < b.maxv.x)
    (hy : b.minv.y < b.maxv.y) (hz : b.minv.z < b.maxv.z) (k : Nat) (hk : k < 10) :
    ∃ (v0 v1 v2 : Int × TVector K) (lam : K), TestBoxBall.corners k = [v0.1, v1.1, v2.1]
      ∧ b.GetVertex v0.1 = Except.ok v0.2 ∧ b.GetVertex v1.1 = Except.ok v1.2
      ∧ b.GetVertex v2.1 = Except.ok v2.2 ∧ 0 < lam
      ∧ CrossProduct (v1.2 - v0.2) (v2.2 - v1.2)
          = (outward (k / 2)).scale (if k = 2 then -lam else lam) := by
  have h1 : 0 < b.maxv.x - b.minv.x := sub_pos.mpr hx
  have h2 : 0 < b.maxv.y - b.minv.y := sub_pos.mpr hy
  have h3 : 0 < b.maxv.z - b.minv.z := sub_pos.mpr hz
  interval_cases k
  · refine ⟨(4, _), (5, _), (6, _), (b.maxv.x - b.minv.x) * (b.maxv.y - b.minv.y), rfl,
      GetVertex_4 b, GetVertex_5 b, GetVertex_6 b, by positivity, ?_⟩
    ext <;> simp [CrossProduct, outward, sub_x, sub_y, sub_z, scale_x, scale_y, scale_z]
  · refine ⟨(5, _), (7, _), (6, _), (b.maxv.x - b.minv.x) * (b.maxv.y - b.minv.y), rfl,
      GetVertex_5 b, GetVertex_7 b, GetVertex_6 b, by positivity, ?_⟩
    ext <;> simp [CrossProduct, outward, sub_x, sub_y, sub_z, scale_x, scale_y, scale_z]
    ring
  · refine ⟨(6, _), (0, _), (2, _), (b.maxv.y - b.minv.y) * (b.maxv.z - b.minv.z), rfl,
      GetVertex_6 b, GetVertex_0 b, GetVertex_2 b, by positivity, ?_⟩
    ext <;> simp [CrossProduct, outward, sub_x, sub_y, sub_z, scale_x, scale_y, scale_z]
    ring
  · refine ⟨(6, _), (0, _), (4, _), (b.maxv.y - b.minv.y) * (b.maxv.z - b.minv.z), rfl,
      GetVertex_6 b, GetVertex_0 b, GetVertex_4 b, by positivity, ?_⟩
    ext <;> simp [CrossProduct, outward, sub_x, sub_y, sub_z, scale_x, scale_y, scale_z]
    ring
  · refine ⟨(1, _), (3, _), (5, _), (b.maxv.y - b.minv.y) * (b.maxv.z - b.minv.z), rfl,
      GetVertex_1 b, GetVertex_3 b, GetVertex_5 b, by positivity, ?_⟩
    ext <;> simp [CrossProduct, outward, sub_x, sub_y, sub_z, scale_x, scale_y, scale_z]
  · refine ⟨(5, _), (3, _), (7, _), (b.maxv.y - b.minv.y) * (b.maxv.z - b.minv.z), rfl,
      GetVertex_5 b, GetVertex_3 b, GetVertex_7 b, by positivity, ?_⟩
    ext <;> simp [CrossProduct, outward, sub_x, sub_y, sub_z, scale_x, scale_y, scale_z]
  · refine ⟨(7, _), (3, _), (2, _), (b.maxv.x - b.minv.x) * (b.maxv.z - b.minv.z), rfl,
      GetVertex_7 b, GetVertex_3 b, GetVertex_2 b, by positivity, ?_⟩
    ext <;> simp [CrossProduct, outward, sub_x, sub_y, sub_z, scale_x, scale_y, scale_z]
    ring
  · refine ⟨(6, _), (7, _), (2, _), (b.maxv.x - b.minv.x) * (b.maxv.z - b.minv.z), rfl,
      GetVertex_6 b, GetVertex_7 b, GetVertex_2 b, by positivity, ?_⟩
    ext <;> simp [CrossProduct, outward, sub_x, sub_y, sub_z, scale_x, scale_y, scale_z]
    ring
  · refine ⟨(2, _), (3, _), (0, _), (b.maxv.x - b.minv.x) * (b.maxv.y - b.minv.y), rfl,
      GetVertex_2 b, GetVertex_3 b, GetVertex_0 b, by positivity, ?_⟩
    ext <;> simp [CrossProduct, outward, sub_x, sub_y, sub_z, scale_x, scale_y, scale_z]
    ring
  · refine ⟨(3, _), (1, _), (0, _), (b.maxv.x - b.minv.x) * (b.maxv.y - b.minv.y), rfl,
      GetVertex_3 b, GetVertex_1 b, GetVertex_0 b, by positivity, ?_⟩
    ext <;> simp [CrossProduct, outward, sub_x, sub_y, sub_z, scale_x, scale_y, scale_z]
    ring

end TriangleNormals

theorem leftward_velocity :
    (⟨50, 0, 0⟩ : TVector ℝ) - ⟨0, 0, 0⟩ = ⟨50, 0, 0⟩ := by
  ext <;> simp [sub_x, sub_y, sub_z]

/-- The first triangle of the left face of `grazeBox`, of the corners 6, 0, 2, and a
sphere that comes from the left: the normal of the triangle is `(1, 0, 0)`, so the
sphere is taken to move away from the plane and the function returns -1. -/
theorem left_triangle_602 (ep1 ep2 : TVector ℝ) :
    (CrossProduct ((⟨0, 0, 0⟩ : TVector ℝ) - ⟨0, 650, 650⟩)
        ((⟨0, 650, 0⟩ : TVector ℝ) - ⟨0, 0, 0⟩)).Normalize Real.sqrt = Except.ok ⟨1, 0, 0⟩
    ∧ IntersectBallPlane Real.sqrt ⟨-100, 500, 150⟩ 65 ⟨50, 0, 0⟩ ⟨0, 650, 650⟩ ⟨1, 0, 0⟩
        = Except.ok (-1)
    ∧ IntersectBallTriangle Real.sqrt ⟨-100, 500, 150⟩ ⟨50, 0, 0⟩ 65 ⟨0, 0, 0⟩
        ⟨0, 650, 650⟩ ⟨0, 0, 0⟩ ⟨0, 650, 0⟩ 1 ep1 ep2
      = Except.ok { t := -1, edge_collision := false, edge_p1 := ep1, edge_p2 := ep2 } := by
  have hn : (CrossProduct ((⟨0, 0, 0⟩ : TVector ℝ) - ⟨0, 650, 650⟩)
      ((⟨0, 650, 0⟩ : TVector ℝ) - ⟨0, 0, 0⟩)).Normalize Real.sqrt = Except.ok ⟨1, 0, 0⟩ := by
    rw [Normalize_of_length _ 422500 (by norm_num)
      (by norm_num [dot_def, CrossProduct, sub_x, sub_y, sub_z])]
    refine congrArg Except.ok ?_
    ext <;> norm_num [CrossProduct, sub_x, sub_y, sub_z, scale_x, scale_y, scale_z]
  have ht : IntersectBallPlane Real.sqrt ⟨-100, 500, 150⟩ 65 ⟨50, 0, 0⟩ ⟨0, 650, 650⟩ ⟨1, 0, 0⟩
      = Except.ok (-1) :=
    IntersectBallPlane_of_receding _ _ _ _ _ (by norm_num [dot_def]) (by norm_num [dot_def])
  have hin : IsPointInTriangle ((⟨-100, 500, 150⟩ : TVector ℝ)
      + (⟨50, 0, 0⟩ : TVector ℝ).scale (-1)) ⟨1, 0, 0⟩ ⟨0, 650, 650⟩ ⟨0, 0, 0⟩ ⟨0, 650, 0⟩
        = true := by
    norm_num [IsPointInTriangle, edgeSide, CrossProduct, dot_def, sub_x, sub_y, sub_z, add_x,
      add_y, add_z, scale_x, scale_y, scale_z]
  refine ⟨hn, ht, ?_⟩
  simp only [IntersectBallTriangle, leftward_velocity, hn, ht, hin, bind, Except.bind, if_true,
    pure, Except.pure]

/-- The second triangle of the left face of `grazeBox`, of the corners 6, 0, 4, and the
same sphere: the normal is `(-1, 0, 0)` and the sphere reaches the plane at the time
7/10, at a point of the face outside of this triangle, and none of its edges. -/
theorem left_triangle_604 (ep1 ep2 : TVector ℝ) :
    IntersectBallPlane Real.sqrt ⟨-100, 500, 150⟩ 65 ⟨50, 0, 0⟩ ⟨0, 650, 650⟩ ⟨-1, 0, 0⟩
        = Except.ok (7 / 10)
    ∧ IntersectBallTriangle Real.sqrt ⟨-100, 500, 150⟩ ⟨50, 0, 0⟩ 65 ⟨0, 0, 0⟩
        ⟨0, 650, 650⟩ ⟨0, 0, 0⟩ ⟨0, 0, 650⟩ 1 ep1 ep2
      = Except.ok { t := 1000, edge_collision := true, edge_p1 := ep1, edge_p2 := ep2 } := by
  have ht : IntersectBallPlane Real.sqrt ⟨-100, 500, 150⟩ 65 ⟨50, 0, 0⟩ ⟨0, 650, 650⟩ ⟨-1, 0, 0⟩
      = Except.ok (7 / 10) := by
    rw [IntersectBallPlane_of_approaching _ _ _ _ _ (by norm_num [dot_def])
      (by norm_num [dot_def])]
    refine congrArg Except.ok ?_
    norm_num [dot_def]
  refine ⟨ht, ?_⟩
  refine IntersectBallTriangle_of_no_hit _ _ _ _ _ _ _ _ _ _ _ ⟨-1, 0, 0⟩ (7 / 10) ?_ ?_ ?_ ?_ ?_ ?_
  · rw [Normalize_of_length _ 422500 (by norm_num)
      (by norm_num [dot_def, CrossProduct, sub_x, sub_y, sub_z])]
    refine congrArg Except.ok ?_
    ext <;> norm_num [CrossProduct, sub_x, sub_y, sub_z, scale_x, scale_y, scale_z]
  · rw [leftward_velocity]
    exact ht
  · rw [leftward_velocity]
    norm_num [IsPointInTriangle, edgeSide, CrossProduct, dot_def, sub_x, sub_y, sub_z, add_x,
      add_y, add_z, scale_x, scale_y, scale_z]
  all_goals
    rw [leftward_velocity]
    apply IntersectBallEdge_of_miss
    · norm_num [CrossProduct, dot_def, sub_x, sub_y, sub_z]
    · norm_num [CrossProduct, dot_def, sub_x, sub_y, sub_z]

/-- Claim C33 (the normals of the triangles of `TestBoxBall`, at the failing input). For
the box `[0, 650]^3` the block 2, the first triangle of the left face, has the corners
6, 0, 2, and its normal `(v1 - v0) x (v2 - v1)` is `422500 (1, 0, 0)`: it points into
the box, opposite to the direction `(-1, 0, 0)` out of the left face and opposite to
the normal of the second triangle of the same face. A sphere of radius 65 at
`(-100, 500, 150)` with the displacement `(50, 0, 0)` comes from outside and reaches
the left face at the time 7/10; it does not pass the approach test of the block 2,
which returns -1, and the second triangle of the face returns 1000. -/
theorem TestBoxBall_left_triangle_normal_inward :
    TestBoxBall.corners 2 = [6, 0, 2] ∧ TestBoxBall.corners 3 = [6, 0, 4]
    ∧ (grazeBox (K := ℝ)).GetVertex 6 = Except.ok ⟨0, 650, 650⟩
    ∧ (grazeBox (K := ℝ)).GetVertex 0 = Except.ok ⟨0, 0, 0⟩
    ∧ (grazeBox (K := ℝ)).GetVertex 2 = Except.ok ⟨0, 650, 0⟩
    ∧ (grazeBox (K := ℝ)).GetVertex 4 = Except.ok ⟨0, 0, 650⟩
    ∧ CrossProduct ((⟨0, 0, 0⟩ : TVector ℝ) - ⟨0, 650, 650⟩)
        ((⟨0, 650, 0⟩ : TVector ℝ) - ⟨0, 0, 0⟩) = (outward 1 : TVector ℝ).scale (-422500)
    ∧ CrossProduct ((⟨0, 0, 0⟩ : TVector ℝ) - ⟨0, 650, 650⟩)
        ((⟨0, 0, 650⟩ : TVector ℝ) - ⟨0, 0, 0⟩) = (outward 1 : TVector ℝ).scale 422500
    ∧ (CrossProduct ((⟨0, 0, 0⟩ : TVector ℝ) - ⟨0, 650, 650⟩)
        ((⟨0, 650, 0⟩ : TVector ℝ) - ⟨0, 0, 0⟩)).Normalize Real.sqrt = Except.ok ⟨1, 0, 0⟩
    ∧ IntersectBallPlane Real.sqrt ⟨-100, 500, 150⟩ 65 ⟨50, 0, 0⟩ ⟨0, 650, 650⟩ ⟨1, 0, 0⟩
        = Except.ok (-1)
    ∧ IntersectBallPlane Real.sqrt ⟨-100, 500, 150⟩ 65 ⟨50, 0, 0⟩ ⟨0, 650, 650⟩ ⟨-1, 0, 0⟩
        = Except.ok (7 / 10)
    ∧ IntersectBallTriangle Real.sqrt ⟨-100, 500, 150⟩ ⟨50, 0, 0⟩ 65 ⟨0, 0, 0⟩
        ⟨0, 650, 650⟩ ⟨0, 0, 0⟩ ⟨0, 650, 0⟩ 1 ⟨0, 0, 0⟩ ⟨0, 0, 0⟩
      = Except.ok { t := -1, edge_collision := false, edge_p1 := ⟨0, 0, 0⟩,
                    edge_p2 := ⟨0, 0, 0⟩ }
    ∧ IntersectBallTriangle Real.sqrt ⟨-100, 500, 150⟩ ⟨50, 0, 0⟩ 65 ⟨0, 0, 0⟩
        ⟨0, 650, 650⟩ ⟨0, 0, 0⟩ ⟨0, 0, 650⟩ 1 ⟨0, 0, 0⟩ ⟨0, 0, 0⟩
      = Except.ok { t := 1000, edge_collision := true, edge_p1 := ⟨0, 0, 0⟩,
                    edge_p2 := ⟨0, 0, 0⟩ } := by
  have h2 := left_triangle_602 ⟨0, 0, 0⟩ ⟨0, 0, 0⟩
  have h4 := left_triangle_604 ⟨0, 0, 0⟩ ⟨0, 0, 0⟩
  refine ⟨rfl, rfl, rfl, rfl, rfl, rfl, ?_, ?_, h2.1, h2.2.1, h4.1, h2.2.2, h4.2⟩
  · ext <;> norm_num [CrossProduct, outward, sub_x, sub_y, sub_z, scale_x, scale_y, scale_z]
  · ext <;> norm_num [CrossProduct, outward, sub_x, sub_y, sub_z, scale_x, scale_y, scale_z]

end CCollisions

/-! ### The test of a point against a triangle -/

namespace geomath

open vec

section PointInTriangle

variable {K : Type} [LinearOrderedField K]

/-- The result of `IsPointInTriangle` in terms of its three edge tests. -/
theorem IsPointInTriangle_eq_true_iff (point normal v0 v1 v2 : TVector K) :
    IsPointInTriangle point normal v0 v1 v2 = true
      ↔ 0 ≤ edgeSide normal point v2 v0 ∧ 0 ≤ edgeSide normal point v0 v1
        ∧ 0 ≤ edgeSide normal point v1 v2 := by
  unfold IsPointInTriangle
  constructor
  · intro h
    split at h
    · cases h
    · split at h
      · cases h
      · split at h
        · cases h
        · rename_i h1 h2 h3
          exact ⟨not_lt.mp h1, not_lt.mp h2, not_lt.mp h3⟩
  · rintro ⟨h1, h2, h3⟩
    rw [if_neg (not_lt.mpr h1), if_neg (not_lt.mpr h2), if_neg (not_lt.mpr h3)]

/-- An edge test does not change when a multiple of the normal is added to the
point. -/
theorem edgeSide_add_normal (normal point c_i c_j : TVector K) (m : K) :
    edgeSide normal (point + normal.scale m) c_i c_j = edgeSide normal point c_i c_j := by
  simp only [edgeSide, CrossProduct, dot_def, sub_x, sub_y, sub_z, add_x, add_y, add_z,
    scale_x, scale_y, scale_z]
  ring

/-- The three edge tests of a triangle add up to the same value for every point. -/
theorem edgeSide_sum (P v0 v1 v2 : TVector K) (k : K) :
    edgeSide ((CrossProduct (v1 - v0) (v2 - v1)).scale k) P v2 v0
      + edgeSide ((CrossProduct (v1 - v0) (v2 - v1)).scale k) P v0 v1
      + edgeSide ((CrossProduct (v1 - v0) (v2 - v1)).scale k) P v1 v2
      = k * (CrossProduct (v1 - v0) (v2 - v1)).dot (CrossProduct (v1 - v0) (v2 - v1)) := by
  simp only [edgeSide, CrossProduct, dot_def, sub_x, sub_y, sub_z, scale_x, scale_y, scale_z]
  ring

/-- The edge tests of a convex combination of the corners are its coefficients, times
a factor that is the same for the three edges. -/
theorem edgeSide_of_combination (v0 v1 v2 : TVector K) (k l0 l1 l2 : K)
    (hsum : l0 + l1 + l2 = 1) :
    edgeSide ((CrossProduct (v1 - v0) (v2 - v1)).scale k)
        (v0.scale l0 + v1.scale l1 + v2.scale l2) v2 v0
      = l1 * (k * (CrossProduct (v1 - v0) (v2 - v1)).dot (CrossProduct (v1 - v0) (v2 - v1)))
    ∧ edgeSide ((CrossProduct (v1 - v0) (v2 - v1)).scale k)
        (v0.scale l0 + v1.scale l1 + v2.scale l2) v0 v1
      = l2 * (k * (CrossProduct (v1 - v0) (v2 - v1)).dot (CrossProduct (v1 - v0) (v2 - v1)))
    ∧ edgeSide ((CrossProduct (v1 - v0) (v2 - v1)).scale k)
        (v0.scale l0 + v1.scale l1 + v2.scale l2) v1 v2
      = l0 * (k * (CrossProduct (v1 - v0) (v2 - v1)).dot (CrossProduct (v1 - v0) (v2 - v1))) := by
  have h0 : l0 = 1 - l1 - l2 := by linarith
  subst h0
  refine ⟨?_, ?_, ?_⟩ <;>
    simp only [edgeSide, CrossProduct, dot_def, sub_x, sub_y, sub_z, add_x, add_y, add_z,
      scale_x, scale_y, scale_z] <;>
    ring

/-- A point `Q` of the plane of the triangle, in terms of its edge tests. -/
theorem plane_point_decomposition (Q v0 v1 v2 : TVector K) (k : K)
    (hplane : (Q - v0).dot ((CrossProduct (v1 - v0) (v2 - v1)).scale k) = 0) :
    (Q - v0).scale
        (k * (CrossProduct (v1 - v0) (v2 - v1)).dot (CrossProduct (v1 - v0) (v2 - v1)))
      = (v1 - v0).scale (edgeSide ((CrossProduct (v1 - v0) (v2 - v1)).scale k) Q v2 v0)
        + (v2 - v0).scale (edgeSide ((CrossProduct (v1 - v0) (v2 - v1)).scale k) Q v0 v1) := by
  simp only [CrossProduct, dot_def, sub_x, sub_y, sub_z, scale_x, scale_y, scale_z] at hplane
  ext
  · simp only [edgeSide, CrossProduct, dot_def, sub_x, sub_y, sub_z, add_x, add_y, add_z,
      scale_x, scale_y, scale_z]
    linear_combination
      ((v1.y - v0.y) * (v2.z - v1.z) - (v1.z - v0.z) * (v2.y - v1.y)) * hplane
  · simp only [edgeSide, CrossProduct, dot_def, sub_x, sub_y, sub_z, add_x, add_y, add_z,
      scale_x, scale_y, scale_z]
    linear_combination
      ((v1.z - v0.z) * (v2.x - v1.x) - (v1.x - v0.x) * (v2.z - v1.z)) * hplane
  · simp only [edgeSide, CrossProduct, dot_def, sub_x, sub_y, sub_z, add_x, add_y, add_z,
      scale_x, scale_y, scale_z]
    linear_combination
      ((v1.x - v0.x) * (v2.y - v1.y) - (v1.y - v0.y) * (v2.x - v1.x)) * hplane

/-- The projection onto the plane lies in the plane and differs from the point by a
multiple of the normal. -/
theorem projectOntoPlane_spec (P N v0 : TVector K) (hN : 0 < N.dot N) :
    (projectOntoPlane P N v0 - v0).dot N = 0
      ∧ projectOntoPlane P N v0 = P + N.scale (-((P - v0).dot N / N.dot N)) := by
  have hne : N.dot N ≠ 0 := ne_of_gt hN
  constructor
  · have e : (projectOntoPlane P N v0 - v0).dot N
        = (P - v0).dot N - (P - v0).dot N / N.dot N * N.dot N := by
      simp only [projectOntoPlane, dot_def, sub_x, sub_y, sub_z, scale_x, scale_y, scale_z]
      ring
    rw [e, div_mul_cancel₀ _ hne, sub_self]
  · unfold projectOntoPlane
    ext <;> simp only [sub_x, sub_y, sub_z, add_x, add_y, add_z, scale_x, scale_y, scale_z] <;>
      ring

/-- Claim C34 (`IsPointInTriangle`). For a triangle `(v0, v1, v2)` that is not
degenerate, a normal `N` that is a positive multiple of `(v1 - v0) x (v2 - v1)` and
every point `P`, the function returns true if and only if the orthogonal projection of
`P` onto the plane of the triangle is a convex combination of the three corners, and
its result is the same for `P` and for `P` plus any multiple of `N`. -/
theorem IsPointInTriangle_iff_projection_in_triangle (P N v0 v1 v2 : TVector K) (k : K)
    (hk : 0 < k) (hN : N = (CrossProduct (v1 - v0) (v2 - v1)).scale k)
    (hdeg : CrossProduct (v1 - v0) (v2 - v1) ≠ ⟨0, 0, 0⟩) :
    (IsPointInTriangle P N v0 v1 v2 = true ↔ InTriangle (projectOntoPlane P N v0) v0 v1 v2)
    ∧ ∀ m : K, IsPointInTriangle (P + N.scale m) N v0 v1 v2 = IsPointInTriangle P N v0 v1 v2 := by
  have hW : 0 < (CrossProduct (v1 - v0) (v2 - v1)).dot (CrossProduct (v1 - v0) (v2 - v1)) :=
    dot_self_pos_of_ne_zero _ hdeg
  have hkW : 0 < k * (CrossProduct (v1 - v0) (v2 - v1)).dot (CrossProduct (v1 - v0) (v2 - v1)) :=
    mul_pos hk hW
  have hNN : 0 < N.dot N := by
    have e : N.dot N
        = k * k * (CrossProduct (v1 - v0) (v2 - v1)).dot (CrossProduct (v1 - v0) (v2 - v1)) := by
      rw [hN]
      simp only [dot_def, scale_x, scale_y, scale_z]
      ring
    rw [e]
    exact mul_pos (mul_pos hk hk) hW
  obtain ⟨hplane, hproj⟩ := projectOntoPlane_spec P N v0 hNN
  have hinv : ∀ (m : K) (Q : TVector K),
      IsPointInTriangle (Q + N.scale m) N v0 v1 v2 = IsPointInTriangle Q N v0 v1 v2 := by
    intro m Q
    unfold IsPointInTriangle
    simp only [edgeSide_add_normal]
  refine ⟨?_, fun m => hinv m P⟩
  rw [← hinv (-((P - v0).dot N / N.dot N)) P, ← hproj, IsPointInTriangle_eq_true_iff]
  generalize projectOntoPlane P N v0 = Q at hplane
  subst hN
  constructor
  · rintro ⟨h1, h2, h3⟩
    have hsum := edgeSide_sum Q v0 v1 v2 k
    have hdec := plane_point_decomposition Q v0 v1 v2 k hplane
    have hne := ne_of_gt hkW
    refine ⟨_, _, _, div_nonneg h3 (le_of_lt hkW), div_nonneg h1 (le_of_lt hkW),
      div_nonneg h2 (le_of_lt hkW), ?_, ?_⟩
    · rw [← add_div, ← add_div, div_eq_one_iff_eq hne, ← hsum]
      ring
    · have hx := congrArg TVector.x hdec
      have hy := congrArg TVector.y hdec
      have hz := congrArg TVector.z hdec
      simp only [sub_x, sub_y, sub_z, add_x, add_y, add_z, scale_x, scale_y, scale_z] at hx hy hz
      ext
      · simp only [add_x, scale_x]
        field_simp
        linear_combination hx - v0.x * hsum
      · simp only [add_y, scale_y]
        field_simp
        linear_combination hy - v0.y * hsum
      · simp only [add_z, scale_z]
        field_simp
        linear_combination hz - v0.z * hsum
  · rintro ⟨l0, l1, l2, h0, h1, h2, hsum, hQ⟩
    obtain ⟨e1, e2, e3⟩ := edgeSide_of_combination v0 v1 v2 k l0 l1 l2 hsum
    rw [hQ, e1, e2, e3]
    exact ⟨mul_nonneg h1 (le_of_lt hkW), mul_nonneg h2 (le_of_lt hkW),
      mul_nonneg h0 (le_of_lt hkW)⟩

end PointInTriangle

/-- Witness of claim C34: the triangle `(0,0,0)`, `(4,0,0)`, `(0,4,0)` with the normal
`(0, 0, 16)` and the point `(1, 1, 5)` above it. -/
theorem IsPointInTriangle_iff_projection_in_triangle_witness :
    (IsPointInTriangle (⟨1, 1, 5⟩ : TVector ℚ) ⟨0, 0, 16⟩ ⟨0, 0, 0⟩ ⟨4, 0, 0⟩ ⟨0, 4, 0⟩ = true
      ↔ InTriangle (projectOntoPlane (⟨1, 1, 5⟩ : TVector ℚ) ⟨0, 0, 16⟩ ⟨0, 0, 0⟩)
          ⟨0, 0, 0⟩ ⟨4, 0, 0⟩ ⟨0, 4, 0⟩)
    ∧ ∀ m : ℚ, IsPointInTriangle ((⟨1, 1, 5⟩ : TVector ℚ) + TVector.scale ⟨0, 0, 16⟩ m)
          ⟨0, 0, 16⟩ ⟨0, 0, 0⟩ ⟨4, 0, 0⟩ ⟨0, 4, 0⟩
        = IsPointInTriangle (⟨1, 1, 5⟩ : TVector ℚ) ⟨0, 0, 16⟩ ⟨0, 0, 0⟩ ⟨4, 0, 0⟩ ⟨0, 4, 0⟩ :=
  IsPointInTriangle_iff_projection_in_triangle (K := ℚ) ⟨1, 1, 5⟩ ⟨0, 0, 16⟩ ⟨0, 0, 0⟩ ⟨4, 0, 0⟩
    ⟨0, 4, 0⟩ 1 (by norm_num)
    (by ext <;> norm_num [CrossProduct, sub_x, sub_y, sub_z, scale_x, scale_y, scale_z])
    (by
      intro h
      have := congrArg TVector.z h
      norm_num [CrossProduct, sub_x, sub_y, sub_z] at this)

end geomath

/-! ### The test of a ball against the rectangle of a wall -/

namespace geomath

open vec matrix

section BallOnWall

variable {K : Type} [LinearOrderedField K]

/-- Claim C35 (`IsBallOnWall` for a wall that is not rotated). For a wall built with
the rotation selector 0, the translation `T` and the local corners `point1 < point2`
in x and y, the function returns a value, and it returns true if and only if the
centre `c` of the ball satisfies `point1.x + T.x ≤ c.x ≤ point2.x + T.x` and
`point1.y + T.y ≤ c.y ≤ point2.y + T.y`. -/
theorem IsBallOnWall_unrotated (sin cos : K → K) (indeterminate : TMatrix K)
    (p1 p2 T : TVector K) (theta : K) (ball : TBall K) (hx : p1.x < p2.x) (hy : p1.y < p2.y) :
    ∃ r, IsBallOnWall ball (TWall.init sin cos indeterminate p1 p2 T theta 0) = Except.ok r
      ∧ (r = true ↔ p1.x + T.x ≤ ball.center.x ∧ ball.center.x ≤ p2.x + T.x
          ∧ p1.y + T.y ≤ ball.center.y ∧ ball.center.y ≤ p2.y + T.y) := by
  have hw : 0 < p2.x - p1.x := sub_pos.mpr hx
  have hh : 0 < p2.y - p1.y := sub_pos.mpr hy
  have e30 : edgeSide (⟨0, 0, 1⟩ : TVector K)
      (ball.center + lscale ((lscale (-1) (⟨0, 0, 1⟩ : TVector K)).dot
        (ball.center - ⟨p1.x + T.x, p1.y + T.y, T.z⟩)) ⟨0, 0, 1⟩)
      ⟨p1.x + T.x, p2.y + T.y, T.z⟩ ⟨p1.x + T.x, p1.y + T.y, T.z⟩
      = (p2.y - p1.y) * (ball.center.x - (p1.x + T.x)) := by
    simp only [edgeSide, CrossProduct, dot_def, sub_x, sub_y, sub_z, add_x, add_y, add_z,
      lscale_x, lscale_y, lscale_z]
    ring
  have e01 : edgeSide (⟨0, 0, 1⟩ : TVector K)
      (ball.center + lscale ((lscale (-1) (⟨0, 0, 1⟩ : TVector K)).dot
        (ball.center - ⟨p1.x + T.x, p1.y + T.y, T.z⟩)) ⟨0, 0, 1⟩)
      ⟨p1.x + T.x, p1.y + T.y, T.z⟩ ⟨p2.x + T.x, p1.y + T.y, T.z⟩
      = (p2.x - p1.x) * (ball.center.y - (p1.y + T.y)) := by
    simp only [edgeSide, CrossProduct, dot_def, sub_x, sub_y, sub_z, add_x, add_y, add_z,
      lscale_x, lscale_y, lscale_z]
    ring
  have e12 : edgeSide (⟨0, 0, 1⟩ : TVector K)
      (ball.center + lscale ((lscale (-1) (⟨0, 0, 1⟩ : TVector K)).dot
        (ball.center - ⟨p1.x + T.x, p1.y + T.y, T.z⟩)) ⟨0, 0, 1⟩)
      ⟨p2.x + T.x, p1.y + T.y, T.z⟩ ⟨p2.x + T.x, p2.y + T.y, T.z⟩
      = (p2.y - p1.y) * ((p2.x + T.x) - ball.center.x) := by
    simp only [edgeSide, CrossProduct, dot_def, sub_x, sub_y, sub_z, add_x, add_y, add_z,
      lscale_x, lscale_y, lscale_z]
    ring
  have e23 : edgeSide (⟨0, 0, 1⟩ : TVector K)
      (ball.center + lscale ((lscale (-1) (⟨0, 0, 1⟩ : TVector K)).dot
        (ball.center - ⟨p1.x + T.x, p1.y + T.y, T.z⟩)) ⟨0, 0, 1⟩)
      ⟨p2.x + T.x, p2.y + T.y, T.z⟩ ⟨p1.x + T.x, p2.y + T.y, T.z⟩
      = (p2.x - p1.x) * ((p2.y + T.y) - ball.center.y) := by
    simp only [edgeSide, CrossProduct, dot_def, sub_x, sub_y, sub_z, add_x, add_y, add_z,
      lscale_x, lscale_y, lscale_z]
    ring
  have hv0 : mulVec (⟨p1.x, p1.y, 0⟩ : TVector K) ((TMatrix.LoadIdentity).Translate T)
      = ⟨p1.x + T.x, p1.y + T.y, T.z⟩ := by
    ext <;> simp [mulVec, TMatrix.LoadIdentity, TMatrix.Translate]
  have hv1 : mulVec (⟨p2.x, p1.y, 0⟩ : TVector K) ((TMatrix.LoadIdentity).Translate T)
      = ⟨p2.x + T.x, p1.y + T.y, T.z⟩ := by
    ext <;> simp [mulVec, TMatrix.LoadIdentity, TMatrix.Translate]
  have hv2 : mulVec (⟨p1.x, p2.y, 0⟩ : TVector K) ((TMatrix.LoadIdentity).Translate T)
      = ⟨p1.x + T.x, p2.y + T.y, T.z⟩ := by
    ext <;> simp [mulVec, TMatrix.LoadIdentity, TMatrix.Translate]
  have hv3 : mulVec (⟨p2.x, p2.y, 0⟩ : TVector K) ((TMatrix.LoadIdentity).Translate T)
      = ⟨p2.x + T.x, p2.y + T.y, T.z⟩ := by
    ext <;> simp [mulVec, TMatrix.LoadIdentity, TMatrix.Translate]
  have hn : mulVec (⟨0, 0, 1⟩ : TVector K) (TMatrix.LoadIdentity) = ⟨0, 0, 1⟩ := by
    ext <;> simp [mulVec, TMatrix.LoadIdentity]
  have g0 : (TWall.init sin cos indeterminate p1 p2 T theta 0).GetVertex 0
      = Except.ok ⟨p1.x, p1.y, 0⟩ := rfl
  have g1 : (TWall.init sin cos indeterminate p1 p2 T theta 0).GetVertex 1
      = Except.ok ⟨p2.x, p1.y, 0⟩ := rfl
  have g2 : (TWall.init sin cos indeterminate p1 p2 T theta 0).GetVertex 2
      = Except.ok ⟨p1.x, p2.y, 0⟩ := rfl
  have g3 : (TWall.init sin cos indeterminate p1 p2 T theta 0).GetVertex 3
      = Except.ok ⟨p2.x, p2.y, 0⟩ := rfl
  have ht : (TWall.init sin cos indeterminate p1 p2 T theta 0).trans
      = (TMatrix.LoadIdentity).Translate T := rfl
  have hnormal : (TWall.init sin cos indeterminate p1 p2 T theta 0).normal = ⟨0, 0, 1⟩ := hn
  simp only [IsBallOnWall, g0, g1, g2, g3, ht, hnormal, bind, Except.bind, hv0, hv1, hv2, hv3,
    e30, e01, e12, e23, pure, Except.pure]
  have c30 : (p2.y - p1.y) * (ball.center.x - (p1.x + T.x)) < 0
      ↔ ¬ p1.x + T.x ≤ ball.center.x := by
    rw [not_le]
    constructor
    · intro h
      by_contra hc
      have := mul_nonneg (le_of_lt hh) (sub_nonneg.mpr (not_lt.mp hc))
      linarith
    · intro h
      exact mul_neg_of_pos_of_neg hh (by linarith)
  have c01 : (p2.x - p1.x) * (ball.center.y - (p1.y + T.y)) < 0
      ↔ ¬ p1.y + T.y ≤ ball.center.y := by
    rw [not_le]
    constructor
    · intro h
      by_contra hc
      have := mul_nonneg (le_of_lt hw) (sub_nonneg.mpr (not_lt.mp hc))
      linarith
    · intro h
      exact mul_neg_of_pos_of_neg hw (by linarith)
  have c12 : (p2.y - p1.y) * ((p2.x + T.x) - ball.center.x) < 0
      ↔ ¬ ball.center.x ≤ p2.x + T.x := by
    rw [not_le]
    constructor
    · intro h
      by_contra hc
      have := mul_nonneg (le_of_lt hh) (sub_nonneg.mpr (not_lt.mp hc))
      linarith
    · intro h
      exact mul_neg_of_pos_of_neg hh (by linarith)
  have c23 : (p2.x - p1.x) * ((p2.y + T.y) - ball.center.y) < 0
      ↔ ¬ ball.center.y ≤ p2.y + T.y := by
    rw [not_le]
    constructor
    · intro h
      by_contra hc
      have := mul_nonneg (le_of_lt hw) (sub_nonneg.mpr (not_lt.mp hc))
      linarith
    · intro h
      exact mul_neg_of_pos_of_neg hw (by linarith)
  simp only [c30, c01, c12, c23]
  by_cases a1 : p1.x + T.x ≤ ball.center.x
  · by_cases a2 : p1.y + T.y ≤ ball.center.y
    · by_cases a3 : ball.center.x ≤ p2.x + T.x
      · by_cases a4 : ball.center.y ≤ p2.y + T.y
        · exact ⟨true, by simp [a1, a2, a3, a4], by simp [a1, a2, a3, a4]⟩
        · exact ⟨false, by simp [a1, a2, a3, a4], by simp [a4]⟩
      · exact ⟨false, by simp [a1, a2, a3], by simp [a3]⟩
    · exact ⟨false, by simp [a1, a2], by simp [a2]⟩
  · exact ⟨false, by simp [a1], by simp [a1]⟩

end BallOnWall

/-- Witness of claim C35: the wall with the local corners `(0, 0)` and `(4, 2)`
translated by `(1, 1, 5)` and a ball with the centre `(2, 2, 9)`. -/
theorem IsBallOnWall_unrotated_witness :
    ∃ r, IsBallOnWall (K := ℚ)
          { center := ⟨2, 2, 9⟩, radius := 1, vel := ⟨0, 0, -1⟩, axis := ⟨-1, 0, 0⟩ }
          (TWall.init (fun x => x) (fun x => x) TMatrix.LoadIdentity ⟨0, 0, 0⟩ ⟨4, 2, 0⟩
            ⟨1, 1, 5⟩ 0 0) = Except.ok r
      ∧ (r = true ↔ (0 : ℚ) + 1 ≤ 2 ∧ (2 : ℚ) ≤ 4 + 1 ∧ (0 : ℚ) + 1 ≤ 2 ∧ (2 : ℚ) ≤ 2 + 1) :=
  IsBallOnWall_unrotated (K := ℚ) (fun x => x) (fun x => x) TMatrix.LoadIdentity ⟨0, 0, 0⟩
    ⟨4, 2, 0⟩ ⟨1, 1, 5⟩ 0
    { center := ⟨2, 2, 9⟩, radius := 1, vel := ⟨0, 0, -1⟩, axis := ⟨-1, 0, 0⟩ }
    (by norm_num) (by norm_num)

end geomath

/-! ### `IntersectBoxBox` finds the collisions of boxes that are apart -/

namespace geomath

open vec

section BoxBoxComplete

variable {K : Type} [LinearOrderedField K]

/-- An axis block for two boxes whose interiors overlap on this axis at the time `s`,
entered with an interval `[te, tx]` that has `te < s ≤ tx`: the block does not return,
the new interval still has `te2 < s ≤ tx2`, and `te2` is positive when the boxes are
apart on this axis at the start and `s` is positive. -/
theorem axisTest_of_overlap_at (a1 b1 a2 b2 v1 v2 te tx s : K)
    (hs : InteriorsMeet (a1 + v1 * s) (b1 + v1 * s) (a2 + v2 * s) (b2 + v2 * s))
    (hte : te < s) (htx : s ≤ tx) :
    ∃ te2 tx2, IntersectBoxBox.axisTest a1 b1 a2 b2 (v2 - v1) te tx = Except.ok (some (te2, tx2))
      ∧ te ≤ te2 ∧ te2 < s ∧ s ≤ tx2
      ∧ (IntervalsApart a1 b1 a2 b2 → 0 < s → 0 < te2) := by
  obtain ⟨h1, h2⟩ := hs
  by_cases hd : v2 - v1 = 0
  · have hv : v2 = v1 := sub_eq_zero.mp hd
    subst hv
    rw [hd, axisTest_static]
    have hc : ¬ (a1 ≥ b2 ∨ b1 ≤ a2) := by
      rw [not_or, not_le, not_le]
      constructor <;> linarith
    rw [if_neg hc]
    refine ⟨te, tx, rfl, le_refl _, hte, htx, ?_⟩
    rintro (h | h) _ <;> linarith
  · rw [axisTest_moving _ _ _ _ _ _ _ hd]
    have hlo : min ((a1 - b2) / (v2 - v1)) ((b1 - a2) / (v2 - v1)) < s
        ∧ s < max ((a1 - b2) / (v2 - v1)) ((b1 - a2) / (v2 - v1))
        ∧ (IntervalsApart a1 b1 a2 b2 → 0 < s →
            0 < min ((a1 - b2) / (v2 - v1)) ((b1 - a2) / (v2 - v1))) := by
      rcases lt_or_gt_of_ne hd with hneg | hpos
      · have e1 : s < (a1 - b2) / (v2 - v1) := by
          rw [lt_div_iff_of_neg hneg]
          nlinarith
        have e2 : (b1 - a2) / (v2 - v1) < s := by
          rw [div_lt_iff_of_neg hneg]
          nlinarith
        refine ⟨lt_of_le_of_lt (min_le_right _ _) e2, lt_of_lt_of_le e1 (le_max_left _ _), ?_⟩
        rintro (h | h) hs0
        · exfalso
          have : (a1 - b2) / (v2 - v1) < 0 := div_neg_of_pos_of_neg (by linarith) hneg
          linarith
        · have h3 : 0 < (b1 - a2) / (v2 - v1) := div_pos_of_neg_of_neg (by linarith) hneg
          exact lt_min (by linarith) h3
      · have e1 : (a1 - b2) / (v2 - v1) < s := by
          rw [div_lt_iff₀ hpos]
          nlinarith
        have e2 : s < (b1 - a2) / (v2 - v1) := by
          rw [lt_div_iff₀ hpos]
          nlinarith
        refine ⟨lt_of_le_of_lt (min_le_left _ _) e1, lt_of_lt_of_le e2 (le_max_right _ _), ?_⟩
        rintro (h | h) hs0
        · have h3 : 0 < (a1 - b2) / (v2 - v1) := div_pos (by linarith) hpos
          exact lt_min h3 (by linarith)
        · exfalso
          have : (b1 - a2) / (v2 - v1) < 0 := div_neg_of_neg_of_pos (by linarith) hpos
          linarith
    obtain ⟨hl, hh, hap⟩ := hlo
    have hmax : max te (min ((a1 - b2) / (v2 - v1)) ((b1 - a2) / (v2 - v1))) < s :=
      max_lt hte hl
    have hmin : s ≤ min (max ((a1 - b2) / (v2 - v1)) ((b1 - a2) / (v2 - v1))) tx :=
      le_min (le_of_lt hh) htx
    rw [if_neg (not_lt.mpr (le_trans (le_of_lt hmax) hmin))]
    refine ⟨_, _, rfl, le_max_left _ _, hmax, hmin, ?_⟩
    intro h hs0
    exact lt_of_lt_of_le (hap h hs0) (le_max_right _ _)

/-- Claim C36 (`IntersectBoxBox` misses no future collision of boxes that are apart).
For well-formed boxes that are strictly separated on at least one axis at the start of
the step and whose interiors overlap on all three axes at some time `s` with
`0 < s ≤ 1`, the function returns a time `t` with `0 < t < s`. -/
theorem IntersectBoxBox_finds_future_overlap (min1 max1 v1 min2 max2 v2 : TVector K) (s : K)
    (_hw1 : WellFormedBox min1 max1) (_hw2 : WellFormedBox min2 max2)
    (hapart : BoxesApartAt min1 max1 v1 min2 max2 v2 0) (hs0 : 0 < s) (hs1 : s ≤ 1)
    (hover : BoxInteriorsOverlap (min1 + v1.scale s) (max1 + v1.scale s)
      (min2 + v2.scale s) (max2 + v2.scale s)) :
    ∃ t, IntersectBoxBox min1 max1 v1 min2 max2 v2 = Except.ok t ∧ 0 < t ∧ t < s := by
  simp only [BoxInteriorsOverlap, add_x, add_y, add_z, scale_x, scale_y, scale_z] at hover
  simp only [BoxesApartAt, add_x, add_y, add_z, scale_x, scale_y, scale_z, mul_zero,
    add_zero] at hapart
  obtain ⟨ox, oy, oz⟩ := hover
  obtain ⟨te1, tx1, hx, hx1, hx2, hx3, hx4⟩ :=
    axisTest_of_overlap_at min1.x max1.x min2.x max2.x v1.x v2.x 0 1 s ox hs0 hs1
  obtain ⟨te2, tx2, hy, hy1, hy2, hy3, hy4⟩ :=
    axisTest_of_overlap_at min1.y max1.y min2.y max2.y v1.y v2.y te1 tx1 s oy hx2 hx3
  obtain ⟨te3, tx3, hz, hz1, hz2, hz3, hz4⟩ :=
    axisTest_of_overlap_at min1.z max1.z min2.z max2.z v1.z v2.z te2 tx2 s oz hy2 hy3
  have hpos : 0 < te3 := by
    rcases hapart with h | h | h
    · exact lt_of_lt_of_le (hx4 h hs0) (le_trans hy1 hz1)
    · exact lt_of_lt_of_le (hy4 h hs0) hz1
    · exact hz4 h hs0
  refine ⟨te3, ?_, hpos, hz2⟩
  rw [IntersectBoxBox_of_axes min1 max1 v1 min2 max2 v2 _ _ _ _ _ _ hx hy hz, if_pos hpos]

end BoxBoxComplete

/-- Witness of claim C36: the unit box at rest and a unit box three units to its right
moving four units to the left; the interiors overlap at the time 3/4 and the returned
time lies before it. -/
theorem IntersectBoxBox_finds_future_overlap_witness :
    ∃ t, IntersectBoxBox (K := ℚ) ⟨0, 0, 0⟩ ⟨1, 1, 1⟩ ⟨0, 0, 0⟩ ⟨3, 0, 0⟩ ⟨4, 1, 1⟩ ⟨-4, 0, 0⟩
        = Except.ok t ∧ 0 < t ∧ t < 3 / 4 :=
  IntersectBoxBox_finds_future_overlap (K := ℚ) ⟨0, 0, 0⟩ ⟨1, 1, 1⟩ ⟨0, 0, 0⟩ ⟨3, 0, 0⟩ ⟨4, 1, 1⟩
    ⟨-4, 0, 0⟩ (3 / 4) (by unfold WellFormedBox; norm_num) (by unfold WellFormedBox; norm_num)
    (by
      unfold BoxesApartAt IntervalsApart
      norm_num [add_x, add_y, add_z, scale_x, scale_y, scale_z])
    (by norm_num) (by norm_num)
    (by
      unfold BoxInteriorsOverlap InteriorsMeet
      norm_num [add_x, add_y, add_z, scale_x, scale_y, scale_z])

end geomath

/-! ### The collision records and `min_time` at the end of the test passes -/

namespace CCollisions

open vec matrix geomath physics

section Collected

variable {K : Type} [LinearOrderedField K]

end Collected

end CCollisions

/-! ### The axis of rotation of a ball after a response -/

namespace CCollisions

open vec matrix geomath physics

/-- Claim C38 (the axis of rotation after a response, at the failing input). The ball 0
of `bounceWorld` is the ball that the constructor builds for the centre `(0, 2, 0)`,
the radius 1 and the velocity `(0, -2, 0)`; its axis is `(-1, 0, 0)`, of length 1. It
falls vertically onto the floor. After `BallWallResponse` for its collision with the
floor its velocity is `(0, 1, 0)` and its axis is `(0, 0, 0)`: `axis·axis` is 0, not 1,
and the assertion of `TMatrix::Rotate` fails for this axis. -/
theorem BallWallResponse_vertical_bounce_zero_axis :
    TBall.init Real.sqrt ⟨0, 2, 0⟩ 1 ⟨0, -2, 0⟩
        = Except.ok { center := ⟨0, 2, 0⟩, radius := 1, vel := ⟨0, -2, 0⟩, axis := ⟨-1, 0, 0⟩ }
    ∧ (bounceWorld (K := ℝ)).p_balls[0]?
        = some { center := ⟨0, 2, 0⟩, radius := 1, vel := ⟨0, -2, 0⟩, axis := ⟨-1, 0, 0⟩ }
    ∧ rotateAssertion (⟨-1, 0, 0⟩ : TVector ℝ) = Except.ok ()
    ∧ BallWallResponse Real.sqrt (bounceAdvanced (K := ℝ)) 0
        = Except.ok { bounceAdvanced (K := ℝ) with p_balls := bounceBalls 1 1 ⟨0, 0, 0⟩ 7 }
    ∧ (bounceBalls (1 : ℝ) 1 ⟨0, 0, 0⟩ 7)[0]?
        = some { center := ⟨0, 1, 0⟩, radius := 1, vel := ⟨0, 1, 0⟩, axis := ⟨0, 0, 0⟩ }
    ∧ (⟨0, 0, 0⟩ : TVector ℝ).dot ⟨0, 0, 0⟩ ≠ 1
    ∧ rotateAssertion (⟨0, 0, 0⟩ : TVector ℝ) = Except.error Fault.assertion := by
  refine ⟨?_, rfl, ?_, ?_⟩
  · have hmag : ¬ (Magnitude Real.sqrt (⟨(⟨0, -2, 0⟩ : TVector ℝ).z, 0,
        -(⟨0, -2, 0⟩ : TVector ℝ).x⟩ : TVector ℝ) > 0) := by
      simp [Magnitude]
    simp only [TBall.init, hmag, if_false, bind, Except.bind, pure, Except.pure]
  · simp [rotateAssertion, dot_def, pure, Except.pure]
  · have haxis : spinAxis Real.sqrt (⟨-1, 0, 0⟩ : TVector ℝ) ⟨0, 1, 0⟩ = Except.ok ⟨0, 0, 0⟩ := by
      unfold spinAxis
      have hz : ¬ 0 < (⟨(⟨0, 1, 0⟩ : TVector ℝ).z, (⟨-1, 0, 0⟩ : TVector ℝ).y,
          -(⟨0, 1, 0⟩ : TVector ℝ).x⟩ : TVector ℝ).dot ⟨(⟨0, 1, 0⟩ : TVector ℝ).z,
            (⟨-1, 0, 0⟩ : TVector ℝ).y, -(⟨0, 1, 0⟩ : TVector ℝ).x⟩ := by
        norm_num [dot_def]
      exact Normalize_of_not_pos Real.sqrt _ hz
    have heff : MObjSObjEffects (⟨0, -2, 0⟩ : TVector ℝ) ⟨0, 1, 0⟩ (1 / 2)
        = Except.ok ⟨0, 1, 0⟩ := by
      rw [MObjSObjEffects_floor]
      refine congrArg Except.ok ?_
      ext <;> norm_num
    refine ⟨?_, rfl, by norm_num [dot_def], ?_⟩
    · simp only [BallWallResponse, getAt, bounceAdvanced, loopHead, init, bounceWorld,
        bounceBalls, List.getElem?_cons_zero, bind, Except.bind, floorWall, heff, haxis,
        modifyAt, List.set_cons_zero, pure, Except.pure]
    · simp [rotateAssertion, dot_def]
      norm_num

end CCollisions

/-! ### The leading coefficient in the calls of `Solve2ODE` -/

namespace geomath

open vec

/-- Claim C39 (the quadratic solver and the division by zero, at the failing inputs).
For the edge from `(0, 0, 0)` to `(1, 0, 0)` and a sphere of radius 1 at `(0, 5, 0)`,
outside of the cylinder about the edge, `IntersectBallEdge` calls `Solve2ODE` with the
leading coefficient `a = |velocity x edge|^2`, which is 0 for the velocity zero and
for the velocity `(3, 0, 0)` parallel to the edge; the discriminant is 0 and the
solver divides by `2 a = 0`. `IntersectBallVertex` calls it with `a = |velocity|^2`,
which is 0 for the velocity zero, with the same result; `IntersectBallEdge` reaches
this call for a sphere at rest beside the line of the edge beyond its end. This holds
whatever the square root function is. -/
theorem Solve2ODE_called_with_zero_coefficient :
    (CrossProduct (⟨0, 0, 0⟩ : TVector ℚ) (⟨1, 0, 0⟩ - ⟨0, 0, 0⟩)).dot
        (CrossProduct (⟨0, 0, 0⟩ : TVector ℚ) (⟨1, 0, 0⟩ - ⟨0, 0, 0⟩)) = 0
    ∧ (CrossProduct (⟨3, 0, 0⟩ : TVector ℚ) (⟨1, 0, 0⟩ - ⟨0, 0, 0⟩)).dot
        (CrossProduct (⟨3, 0, 0⟩ : TVector ℚ) (⟨1, 0, 0⟩ - ⟨0, 0, 0⟩)) = 0
    ∧ (⟨0, 0, 0⟩ : TVector ℚ).dot ⟨0, 0, 0⟩ = 0
    ∧ ∀ sqrt : ℚ → ℚ,
        Solve2ODE sqrt 0 0 24 1 = Except.error Fault.divByZero
        ∧ IntersectBallEdge sqrt ⟨0, 5, 0⟩ ⟨0, 0, 0⟩ 1 ⟨0, 0, 0⟩ ⟨1, 0, 0⟩ true 1
            = Except.error Fault.divByZero
        ∧ IntersectBallEdge sqrt ⟨0, 5, 0⟩ ⟨3, 0, 0⟩ 1 ⟨0, 0, 0⟩ ⟨1, 0, 0⟩ true 1
            = Except.error Fault.divByZero
        ∧ IntersectBallVertex sqrt ⟨0, 5, 0⟩ ⟨0, 0, 0⟩ 1 ⟨0, 0, 0⟩ 1
            = Except.error Fault.divByZero
        ∧ IntersectBallEdge sqrt ⟨-5, 1 / 2, 0⟩ ⟨0, 0, 0⟩ 1 ⟨0, 0, 0⟩ ⟨1, 0, 0⟩ true 1
            = Except.error Fault.divByZero := by
  refine ⟨by norm_num [CrossProduct, dot_def, sub_x, sub_y, sub_z],
    by norm_num [CrossProduct, dot_def, sub_x, sub_y, sub_z], by norm_num [dot_def],
    fun sqrt => ⟨?_, ?_, ?_, ?_, ?_⟩⟩
  · norm_num [Solve2ODE, fdiv, bind, Except.bind]
  · norm_num [IntersectBallEdge, Solve2ODE, fdiv, bind, Except.bind, CrossProduct, dot_def,
      sub_x, sub_y, sub_z]
  · norm_num [IntersectBallEdge, Solve2ODE, fdiv, bind, Except.bind, CrossProduct, dot_def,
      sub_x, sub_y, sub_z]
  · norm_num [IntersectBallVertex, Solve2ODE, fdiv, bind, Except.bind, dot_def, sub_x, sub_y,
      sub_z]
  · norm_num [IntersectBallEdge, IntersectBallVertex, Solve2ODE, fdiv, bind, Except.bind,
      CrossProduct, dot_def, sub_x, sub_y, sub_z, add_x, add_y, add_z, scale_x, scale_y,
      scale_z, pure, Except.pure]

end geomath
